import Mathlib

/-!
# Selene: dynamic values and stack marshalling

A shallow embedding of `include/selene/Value.h` and `include/selene/primitives.h`.

Conventions of the embedding

* Host integers are mathematical integers; the widths of the LP64 data model
  (`int` 32 bits, `long` 64 bits, `lua_Integer = ptrdiff_t` 64 bits,
  `lua_Unsigned` 32 bits) appear as explicit wrap-arounds.
* `lua_Number` (a C `double`) is modelled by an exact rational.  The only
  rounding that is modelled is the conversion of a 64 bit integer to a number
  (`cast_num`), which keeps 53 significant bits.
* `std::string` is a Lean `String`, a `char` is a Lean `Char`; the NUL byte is
  the character with code 0.
* `std::map<K, Value>` is the list of its entries in increasing key order.
* A `Value` is its boxed implementation object; the box is a finite tree.
* The Lua C API (version 5.2, selected by the `LUA_VERSION_NUM >= 502`
  branches) is modelled after the reference manual: the state is the list of
  stack slots, bottom first; a table is the list of its key/value pairs in
  traversal order.  Stack capacity is not modelled.
* Code that can fail returns `Res`: a Lua error raised by `luaL_check*`
  (a non-local abort of the call), a null pointer dereference, a violated
  API precondition, or exhausted fuel of a recursive model function.
-/

namespace sel

/-! ## Host numbers -/

/-- The type `lua_Number`: a C `double`, modelled by an exact rational. -/
abbrev lua_Number := ℚ

/-- Reduction of an integer into the range of a signed two's complement type of `w` bits
(the result of a narrowing integer conversion). -/
def wrapSigned (w : Nat) (z : Int) : Int :=
  (z + 2 ^ (w - 1)) % 2 ^ w - 2 ^ (w - 1)

/-- Reduction of an integer into the range of an unsigned type of `w` bits. -/
def wrapUnsigned (w : Nat) (z : Int) : Int :=
  z % 2 ^ w

/-- Membership in the range of a signed type of `w` bits. -/
def inSigned (w : Nat) (z : Int) : Prop :=
  -(2 ^ (w - 1)) ≤ z ∧ z < 2 ^ (w - 1)

instance (w : Nat) (z : Int) : Decidable (inSigned w z) := by
  unfold inSigned; exact inferInstance

/-- Membership in the range of an unsigned type of `w` bits. -/
def inUnsigned (w : Nat) (z : Int) : Prop :=
  0 ≤ z ∧ z < 2 ^ w

instance (w : Nat) (z : Int) : Decidable (inUnsigned w z) := by
  unfold inUnsigned; exact inferInstance

/-- The integer part of a number, rounding toward zero. -/
def truncQ (d : lua_Number) : Int :=
  d.num.tdiv d.den

/-- The C conversion of a `double` to a signed integer type of `w` bits
(`static_cast<int>`, `static_cast<long>`, the cast in `lua_number2integer`):
truncation toward zero.  Out of range the conversion is undefined in C; the
model returns the smallest value of the type, as the x86-64 conversion does. -/
def fpToSigned (w : Nat) (d : lua_Number) : Int :=
  if inSigned w (truncQ d) then truncQ d else -(2 ^ (w - 1))

/-- The number of binary digits of `n`, computed with `fuel` halving steps. -/
def bitLength : Nat → Nat → Nat
  | 0, _ => 0
  | fuel + 1, n => if n = 0 then 0 else bitLength fuel (n / 2) + 1

/-- The conversion `cast_num` of a `lua_Integer` to a `lua_Number`: exact below `2^53`
in absolute value, otherwise rounded to 53 significant bits, ties to even. -/
def cast_num (n : Int) : lua_Number :=
  let a := n.natAbs
  let e := if a < 2 ^ 53 then 0 else bitLength a a - 53
  let q := a / 2 ^ e
  let r := a % 2 ^ e
  let half := 2 ^ e / 2
  let q1 := if half < r ∨ (0 < e ∧ r = half ∧ q % 2 = 1) then q + 1 else q
  ((n.sign * ((q1 * 2 ^ e : Nat) : Int) : Int) : ℚ)

/-! ## Value.h -/

/-- The enumeration `Value::Type`. -/
inductive ValueType where
  | Nil
  | Boolean
  | Char
  | Integer
  | Long
  | Double
  | String
  | Table
  deriving DecidableEq, Repr

/-- A `Value`: the boxed `LuaValue` it owns.  One constructor per subclass of
`LuaValue`; the table box carries the two maps of its `Table`. -/
inductive Value where
  | NilValue
  | BoolValue (value : Bool)
  | CharValue (value : Char)
  | IntValue (value : Int)
  | LongValue (value : Int)
  | DoubleValue (value : lua_Number)
  | StringValue (value : String)
  | TableValue (int_idx : List (Int × Value)) (str_idx : List (String × Value))
  deriving Repr

/-- The class `Table`: an integer-keyed and a string-keyed map. -/
structure Table where
  int_idx : List (Int × Value)
  str_idx : List (String × Value)
  deriving Repr

namespace Value

mutual
/-- Boolean equality test on values. -/
def beq : Value → Value → Bool
  | NilValue, NilValue => true
  | BoolValue a, BoolValue b => decide (a = b)
  | CharValue a, CharValue b => decide (a = b)
  | IntValue a, IntValue b => decide (a = b)
  | LongValue a, LongValue b => decide (a = b)
  | DoubleValue a, DoubleValue b => decide (a = b)
  | StringValue a, StringValue b => decide (a = b)
  | TableValue i1 s1, TableValue i2 s2 => beqInt i1 i2 && beqStr s1 s2
  | _, _ => false
/-- Boolean equality test on integer-keyed maps. -/
def beqInt : List (Int × Value) → List (Int × Value) → Bool
  | [], [] => true
  | (k1, v1) :: r1, (k2, v2) :: r2 => decide (k1 = k2) && beq v1 v2 && beqInt r1 r2
  | _, _ => false
/-- Boolean equality test on string-keyed maps. -/
def beqStr : List (String × Value) → List (String × Value) → Bool
  | [], [] => true
  | (k1, v1) :: r1, (k2, v2) :: r2 => decide (k1 = k2) && beq v1 v2 && beqStr r1 r2
  | _, _ => false
end

mutual
theorem eq_of_beq (a b : Value) (h : beq a b = true) : a = b := by
  cases a <;> cases b <;> simp only [beq, decide_eq_true_eq, Bool.and_eq_true, Bool.false_eq_true] at h
  case NilValue.NilValue => rfl
  case TableValue.TableValue i1 s1 i2 s2 =>
    rw [eq_of_beqInt i1 i2 h.1, eq_of_beqStr s1 s2 h.2]
  all_goals (rw [h])
theorem eq_of_beqInt (a b : List (Int × Value)) (h : beqInt a b = true) : a = b := by
  match a, b with
  | [], [] => rfl
  | [], _ :: _ => simp [beqInt] at h
  | _ :: _, [] => simp [beqInt] at h
  | (k1, v1) :: r1, (k2, v2) :: r2 =>
    simp only [beqInt, decide_eq_true_eq, Bool.and_eq_true] at h
    rw [h.1.1, eq_of_beq v1 v2 h.1.2, eq_of_beqInt r1 r2 h.2]
theorem eq_of_beqStr (a b : List (String × Value)) (h : beqStr a b = true) : a = b := by
  match a, b with
  | [], [] => rfl
  | [], _ :: _ => simp [beqStr] at h
  | _ :: _, [] => simp [beqStr] at h
  | (k1, v1) :: r1, (k2, v2) :: r2 =>
    simp only [beqStr, decide_eq_true_eq, Bool.and_eq_true] at h
    rw [h.1.1, eq_of_beq v1 v2 h.1.2, eq_of_beqStr r1 r2 h.2]
end

mutual
theorem beq_self (a : Value) : beq a a = true := by
  cases a <;> simp only [beq, decide_True, Bool.and_eq_true]
  case TableValue i s => exact ⟨beqInt_self i, beqStr_self s⟩
theorem beqInt_self (a : List (Int × Value)) : beqInt a a = true := by
  match a with
  | [] => rfl
  | (k, v) :: r => simp only [beqInt, decide_True, Bool.true_and, Bool.and_eq_true]; exact ⟨beq_self v, beqInt_self r⟩
theorem beqStr_self (a : List (String × Value)) : beqStr a a = true := by
  match a with
  | [] => rfl
  | (k, v) :: r => simp only [beqStr, decide_True, Bool.true_and, Bool.and_eq_true]; exact ⟨beq_self v, beqStr_self r⟩
end

instance : DecidableEq Value := fun a b =>
  decidable_of_iff (beq a b = true) ⟨eq_of_beq a b, fun h => h ▸ beq_self a⟩

end Value

instance : DecidableEq Table := fun a b =>
  decidable_of_iff (a.int_idx = b.int_idx ∧ a.str_idx = b.str_idx)
    ⟨fun h => by cases a; cases b; simp_all, fun h => by subst h; exact ⟨rfl, rfl⟩⟩

/-- The struct `Statics`: the process-wide fallback objects. -/
structure Statics where
  nil : Value
  empty_string : String
  empty_table : Table

/-- The function `statics()`: a default constructed `Statics`. -/
def statics : Statics :=
  { nil := Value.NilValue, empty_string := "", empty_table := { int_idx := [], str_idx := [] } }

/-- The element access `s[0]` of a `std::string`: the first character, or the terminating
NUL when the string is empty. -/
def string_front (s : String) : Char :=
  s.data.headD (Char.ofNat 0)

namespace Value

/-- The method `type()`: the tag of the box (`BaseValue<tag, T>::type`). -/
def type : Value → ValueType
  | NilValue => ValueType.Nil
  | BoolValue _ => ValueType.Boolean
  | CharValue _ => ValueType.Char
  | IntValue _ => ValueType.Integer
  | LongValue _ => ValueType.Long
  | DoubleValue _ => ValueType.Double
  | StringValue _ => ValueType.String
  | TableValue _ _ => ValueType.Table

/-- The method `bool_value()`: overridden by `BoolValue`, default `false`. -/
def bool_value : Value → Bool
  | BoolValue v => v
  | _ => false

/-- The method `char_value()`: overridden by `CharValue` and by `StringValue`
(first character), default NUL. -/
def char_value : Value → Char
  | CharValue v => v
  | StringValue v => string_front v
  | _ => Char.ofNat 0

/-- The method `int_value()`: overridden by `IntValue` and by `DoubleValue`
(`static_cast<int>`), default 0. -/
def int_value : Value → Int
  | IntValue v => v
  | DoubleValue v => fpToSigned 32 v
  | _ => 0

/-- The method `long_value()`: overridden by `LongValue` and by `DoubleValue`
(`static_cast<long>`), default 0. -/
def long_value : Value → Int
  | LongValue v => v
  | DoubleValue v => fpToSigned 64 v
  | _ => 0

/-- The method `double_value()`: overridden by `DoubleValue`, default 0. -/
def double_value : Value → lua_Number
  | DoubleValue v => v
  | _ => 0

/-- The method `string_value()`: overridden by `StringValue`, default the shared empty string. -/
def string_value : Value → String
  | StringValue v => v
  | _ => statics.empty_string

/-- The method `table_value()`: overridden by `TableValue`, default the shared empty table. -/
def table_value : Value → Table
  | TableValue i s => { int_idx := i, str_idx := s }
  | _ => statics.empty_table

/-- The predicate `IsNil()`. -/
def IsNil (v : Value) : Bool := decide (v.type = ValueType.Nil)
/-- The predicate `IsBool()`. -/
def IsBool (v : Value) : Bool := decide (v.type = ValueType.Boolean)
/-- The predicate `IsChar()`. -/
def IsChar (v : Value) : Bool := decide (v.type = ValueType.Char)
/-- The predicate `IsInt()`. -/
def IsInt (v : Value) : Bool := decide (v.type = ValueType.Integer)
/-- The predicate `IsLong()`. -/
def IsLong (v : Value) : Bool := decide (v.type = ValueType.Long)
/-- The predicate `IsDouble()`. -/
def IsDouble (v : Value) : Bool := decide (v.type = ValueType.Double)
/-- The predicate `IsString()`. -/
def IsString (v : Value) : Bool := decide (v.type = ValueType.String)
/-- The predicate `IsTable()`. -/
def IsTable (v : Value) : Bool := decide (v.type = ValueType.Table)

/-- The constructor `Value(Table)`. -/
def ofTable (t : Table) : Value :=
  TableValue t.int_idx t.str_idx

end Value

/-- The assignment `m[k] = v` on a `std::map`: the entry of `k` is replaced, or inserted at
its place in the key order. -/
def map_assign {K : Type} [LinearOrder K] : List (K × Value) → K → Value → List (K × Value)
  | [], k, v => [(k, v)]
  | (k1, v1) :: r, k, v =>
    if k < k1 then (k, v) :: (k1, v1) :: r
    else if k1 < k then (k1, v1) :: map_assign r k v
    else (k, v) :: r

/-- The lookup `m.find(k)` on a `std::map`. -/
def map_find {K : Type} [DecidableEq K] : List (K × Value) → K → Option Value
  | [], _ => none
  | (k1, v1) :: r, k => if k1 = k then some v1 else map_find r k

namespace Table

/-- The constructor `Table()`. -/
def empty : Table := { int_idx := [], str_idx := [] }

/-- The method `int_map()`. -/
def int_map (t : Table) : List (Int × Value) := t.int_idx

/-- The method `str_map()`. -/
def str_map (t : Table) : List (String × Value) := t.str_idx

/-- The assignment `t[i] = v` through `operator[](size_t i)`, which indexes `_int_idx` with
the `size_t` converted to the `int` key type. -/
def assign_int (t : Table) (i : Int) (v : Value) : Table :=
  { t with int_idx := map_assign t.int_idx (wrapSigned 32 i) v }

/-- The assignment `t[s] = v` through `operator[](const std::string&)`. -/
def assign_str (t : Table) (s : String) (v : Value) : Table :=
  { t with str_idx := map_assign t.str_idx s v }

end Table

/-! ## The Lua runtime: conversions between strings and numbers -/

/-- The NUL character. -/
def NUL : Char := Char.ofNat 0

/-- The bytes a consumer of a `const char*` reads from `s.data()` or `s.c_str()`: the
characters before the first NUL. -/
def c_str (s : String) : String :=
  String.mk (s.data.takeWhile (fun c => c != NUL))

/-- The C classification `isspace`. -/
def lisspace (c : Char) : Bool :=
  c.toNat = 32 || (9 ≤ c.toNat && c.toNat ≤ 13)

/-- The value of a decimal digit. -/
def decDigit (c : Char) : Option Nat :=
  if 48 ≤ c.toNat ∧ c.toNat ≤ 57 then some (c.toNat - 48) else none

/-- The value of a hexadecimal digit. -/
def hexDigit (c : Char) : Option Nat :=
  if 48 ≤ c.toNat ∧ c.toNat ≤ 57 then some (c.toNat - 48)
  else if 97 ≤ c.toNat ∧ c.toNat ≤ 102 then some (c.toNat - 87)
  else if 65 ≤ c.toNat ∧ c.toNat ≤ 70 then some (c.toNat - 55)
  else none

/-- Reads the longest run of digits: the accumulated value, the number of digits read and
the rest of the input. -/
def readDigits (digit : Char → Option Nat) (base : Nat) :
    List Char → Nat → Nat → Nat × Nat × List Char
  | [], acc, n => (acc, n, [])
  | c :: cs, acc, n =>
    match digit c with
    | some d => readDigits digit base cs (acc * base + d) (n + 1)
    | none => (acc, n, c :: cs)

/-- Reads an optional sign: whether it is a minus, and the rest of the input. -/
def readSign : List Char → Bool × List Char
  | c :: cs => if c = '-' then (true, cs) else if c = '+' then (false, cs) else (false, c :: cs)
  | [] => (false, [])

/-- Reads an optional exponent part introduced by one of the two marker characters; an
incomplete exponent is not consumed. -/
def readExponent (lower upper : Char) (cs : List Char) : Int × List Char :=
  match cs with
  | c :: r =>
    if c = lower ∨ c = upper then
      let sg := readSign r
      let ds := readDigits decDigit 10 sg.2 0 0
      if ds.2.1 = 0 then (0, cs)
      else ((if sg.1 then -(ds.1 : Int) else (ds.1 : Int)), ds.2.2)
    else (0, cs)
  | [] => (0, cs)

/-- The number `m * base ^ e` as a rational. -/
def scaleNum (neg : Bool) (m : Nat) (base : Nat) (e : Int) : lua_Number :=
  let z : Int := if neg then -(m : Int) else (m : Int)
  if 0 ≤ e then ((z * (base : Int) ^ e.toNat : Int) : ℚ) else mkRat z (base ^ (-e).toNat)

/-- The conversion `lua_str2number` (`strtod` on a decimal numeral): the number read and
the unread rest, or nothing when no numeral is recognised. -/
def lua_str2number (cs : List Char) : Option (lua_Number × List Char) :=
  let sg := readSign (cs.dropWhile lisspace)
  let ip := readDigits decDigit 10 sg.2 0 0
  let fp : Nat × Nat × List Char :=
    match ip.2.2 with
    | c :: r => if c = '.' then readDigits decDigit 10 r ip.1 0 else (ip.1, 0, c :: r)
    | [] => (ip.1, 0, [])
  if ip.2.1 + fp.2.1 = 0 then none
  else
    let ex := readExponent 'e' 'E' fp.2.2
    some (scaleNum sg.1 fp.1 10 (ex.1 - fp.2.1), ex.2)

/-- The conversion `lua_strx2number` (a hexadecimal numeral with optional fraction and
binary exponent). -/
def lua_strx2number (cs : List Char) : Option (lua_Number × List Char) :=
  let sg := readSign (cs.dropWhile lisspace)
  match sg.2 with
  | z :: x :: r =>
    if z = '0' ∧ (x = 'x' ∨ x = 'X') then
      let ip := readDigits hexDigit 16 r 0 0
      let fp : Nat × Nat × List Char :=
        match ip.2.2 with
        | c :: r1 => if c = '.' then readDigits hexDigit 16 r1 ip.1 0 else (ip.1, 0, c :: r1)
        | [] => (ip.1, 0, [])
      if ip.2.1 + fp.2.1 = 0 then none
      else
        let ex := readExponent 'p' 'P' fp.2.2
        some (scaleNum sg.1 fp.1 2 (ex.1 - 4 * fp.2.1), ex.2)
    else none
  | _ => none

/-- The function `luaO_str2d`: the number denoted by a string, if the whole string (up to
surrounding white space) is a numeral.  A string with an embedded NUL is never a numeral. -/
def luaO_str2d (s : String) : Option lua_Number :=
  let c := (c_str s).data
  if c.any (fun x => x = 'n' || x = 'N') then none
  else
    match (if c.any (fun x => x = 'x' || x = 'X') then lua_strx2number c
           else lua_str2number c) with
    | none => none
    | some (v, rest) =>
      if rest.dropWhile lisspace = [] ∧ c.length = s.data.length then some v else none

/-- The quotient `p / q` rounded to the nearest integer, ties to even. -/
def roundHalfEven (p q : Nat) : Nat :=
  let d := p / q
  let r := p % q
  if 2 * r < q then d else if q < 2 * r then d + 1 else if d % 2 = 0 then d else d + 1

/-- Removes the trailing zero digits of a digit string. -/
def stripZeros (ds : List Char) : List Char :=
  (ds.reverse.dropWhile (fun c => c = '0')).reverse

/-- The conversion `lua_number2str` of a number to its text, the format `"%.14g"`. -/
def lua_number2str (x : lua_Number) : String :=
  if x.num = 0 then "0"
  else
    let p := x.num.natAbs
    let q := x.den
    let k0 := (Nat.toDigits 10 (q / p)).length
    let X0 : Int :=
      if q ≤ p then (((Nat.toDigits 10 (p / q)).length - 1 : Nat) : Int)
      else if q ≤ 10 ^ (k0 - 1) * p then -((k0 - 1 : Nat) : Int) else -(k0 : Int)
    let m0 :=
      if X0 ≤ 13 then roundHalfEven (p * 10 ^ (13 - X0).toNat) q
      else roundHalfEven p (q * 10 ^ (X0 - 13).toNat)
    let m := if m0 = 10 ^ 14 then 10 ^ 13 else m0
    let X := if m0 = 10 ^ 14 then X0 + 1 else X0
    let ds := stripZeros (Nat.toDigits 10 m)
    let ex := Nat.toDigits 10 X.natAbs
    let body : List Char :=
      if X < -4 ∨ 14 ≤ X then
        (match ds with
          | [] => []
          | d :: rest => if rest = [] then [d] else d :: '.' :: rest)
        ++ ['e', if X < 0 then '-' else '+'] ++ (if ex.length < 2 then '0' :: ex else ex)
      else if 0 ≤ X then
        let n := X.toNat + 1
        let ip := ds.take n ++ List.replicate (n - ds.length) '0'
        if ds.drop n = [] then ip else ip ++ '.' :: ds.drop n
      else
        '0' :: '.' :: (List.replicate (-X - 1).toNat '0' ++ ds)
    String.mk ((if x.num < 0 then ['-'] else []) ++ body)

/-! ## The Lua runtime: values and the stack -/

/-- A key of a Lua table: any value but nil (tables as keys, which Lua compares by
identity, are not represented). -/
inductive LuaKey where
  | boolean (b : Bool)
  | number (n : lua_Number)
  | string (s : String)
  | lightuserdata (p : Nat)
  deriving DecidableEq, Repr

/-- A Lua value.  A table is the list of its pairs, in the order `lua_next` visits them;
its keys are pairwise distinct and its values are not nil. -/
inductive LuaVal where
  | nil
  | boolean (b : Bool)
  | number (n : lua_Number)
  | string (s : String)
  | lightuserdata (p : Nat)
  | table (entries : List (LuaKey × LuaVal))
  deriving Repr

namespace LuaVal

mutual
/-- Boolean equality test on Lua values. -/
def beq : LuaVal → LuaVal → Bool
  | nil, nil => true
  | boolean a, boolean b => decide (a = b)
  | number a, number b => decide (a = b)
  | string a, string b => decide (a = b)
  | lightuserdata a, lightuserdata b => decide (a = b)
  | table a, table b => beqEntries a b
  | _, _ => false
/-- Boolean equality test on lists of table entries. -/
def beqEntries : List (LuaKey × LuaVal) → List (LuaKey × LuaVal) → Bool
  | [], [] => true
  | (k1, v1) :: r1, (k2, v2) :: r2 => decide (k1 = k2) && beq v1 v2 && beqEntries r1 r2
  | _, _ => false
end

mutual
theorem luaval_eq_of_beq (a b : LuaVal) (h : beq a b = true) : a = b := by
  cases a <;> cases b <;> simp only [beq, decide_eq_true_eq, Bool.false_eq_true] at h
  case nil.nil => rfl
  case table.table e1 e2 => rw [entries_luaval_eq_of_beq e1 e2 h]
  all_goals (rw [h])
theorem entries_luaval_eq_of_beq (a b : List (LuaKey × LuaVal)) (h : beqEntries a b = true) : a = b := by
  match a, b with
  | [], [] => rfl
  | [], _ :: _ => simp [beqEntries] at h
  | _ :: _, [] => simp [beqEntries] at h
  | (k1, v1) :: r1, (k2, v2) :: r2 =>
    simp only [beqEntries, decide_eq_true_eq, Bool.and_eq_true] at h
    rw [h.1.1, luaval_eq_of_beq v1 v2 h.1.2, entries_luaval_eq_of_beq r1 r2 h.2]
end

mutual
theorem luaval_beq_refl (a : LuaVal) : beq a a = true := by
  cases a <;> simp only [beq, decide_True]
  case table e => exact entries_beq_refl e
theorem entries_beq_refl (a : List (LuaKey × LuaVal)) : beqEntries a a = true := by
  match a with
  | [] => rfl
  | (k, v) :: r =>
    simp only [beqEntries, decide_True, Bool.true_and, Bool.and_eq_true]
    exact ⟨luaval_beq_refl v, entries_beq_refl r⟩
end

instance : DecidableEq LuaVal := fun a b =>
  decidable_of_iff (beq a b = true) ⟨luaval_eq_of_beq a b, fun h => h ▸ luaval_beq_refl a⟩

end LuaVal

/-- The value a key stands for when it is pushed on the stack. -/
def LuaKey.toVal : LuaKey → LuaVal
  | LuaKey.boolean b => LuaVal.boolean b
  | LuaKey.number n => LuaVal.number n
  | LuaKey.string s => LuaVal.string s
  | LuaKey.lightuserdata p => LuaVal.lightuserdata p

/-- The key a stack value provides, if it can be one. -/
def LuaVal.toKey : LuaVal → Option LuaKey
  | LuaVal.boolean b => some (LuaKey.boolean b)
  | LuaVal.number n => some (LuaKey.number n)
  | LuaVal.string s => some (LuaKey.string s)
  | LuaVal.lightuserdata p => some (LuaKey.lightuserdata p)
  | _ => none

/-- The basic types `LUA_TNONE`, `LUA_TNIL`, ... of the Lua API. -/
inductive LuaType where
  | TNONE
  | TNIL
  | TBOOLEAN
  | TLIGHTUSERDATA
  | TNUMBER
  | TSTRING
  | TTABLE
  deriving DecidableEq, Repr

/-- The function `lua_typename`. -/
def lua_typename : LuaType → String
  | LuaType.TNONE => "no value"
  | LuaType.TNIL => "nil"
  | LuaType.TBOOLEAN => "boolean"
  | LuaType.TLIGHTUSERDATA => "userdata"
  | LuaType.TNUMBER => "number"
  | LuaType.TSTRING => "string"
  | LuaType.TTABLE => "table"

/-- The basic type of a value. -/
def LuaVal.ttype : LuaVal → LuaType
  | LuaVal.nil => LuaType.TNIL
  | LuaVal.boolean _ => LuaType.TBOOLEAN
  | LuaVal.number _ => LuaType.TNUMBER
  | LuaVal.string _ => LuaType.TSTRING
  | LuaVal.lightuserdata _ => LuaType.TLIGHTUSERDATA
  | LuaVal.table _ => LuaType.TTABLE

/-- The ways a call can fail to return. -/
inductive Fault where
  /-- A Lua error raised by `luaL_argerror`: argument position, expected and actual type. -/
  | argError (narg : Int) (expected : String) (got : String)
  /-- A Lua error raised by the runtime itself. -/
  | luaError (msg : String)
  /-- A null pointer is dereferenced. -/
  | nullDereference
  /-- A precondition of the C API is violated (undefined behaviour). -/
  | apiViolation
  /-- A recursive model function was given too little fuel. -/
  | outOfFuel
  deriving DecidableEq, Repr

/-- The outcome of code that can fail. -/
abbrev Res (α : Type) := Except Fault α

instance {α : Type} [DecidableEq α] : DecidableEq (Res α) := fun a b =>
  match a, b with
  | Except.ok x, Except.ok y =>
    decidable_of_iff (x = y) ⟨fun h => by rw [h], fun h => by cases h; rfl⟩
  | Except.error x, Except.error y =>
    decidable_of_iff (x = y) ⟨fun h => by rw [h], fun h => by cases h; rfl⟩
  | Except.ok _, Except.error _ => isFalse (fun h => by cases h)
  | Except.error _, Except.ok _ => isFalse (fun h => by cases h)

/-- The Lua state `lua_State`: the stack of the running call, bottom slot first. -/
structure lua_State where
  stack : List LuaVal
  deriving DecidableEq, Repr

/-! ## The Lua runtime: the C API -/

/-- The function `lua_gettop`. -/
def lua_gettop (l : lua_State) : Int :=
  (l.stack.length : Int)

/-- The position (counted from 0 at the bottom) a valid stack index denotes: positive
indices count from the bottom, negative ones from the top. -/
def index2addr (l : lua_State) (idx : Int) : Option Nat :=
  if 0 < idx ∧ idx ≤ lua_gettop l then some (idx - 1).toNat
  else if idx < 0 ∧ -idx ≤ lua_gettop l then some (lua_gettop l + idx).toNat
  else none

/-- The value at a stack index, if the index is valid. -/
def lua_State.slot (l : lua_State) (idx : Int) : Option LuaVal :=
  match index2addr l idx with
  | some a => l.stack[a]?
  | none => none

/-- The function `lua_type`; an index that is not valid has type `LUA_TNONE`. -/
def lua_type (l : lua_State) (idx : Int) : LuaType :=
  match l.slot idx with
  | some v => v.ttype
  | none => LuaType.TNONE

/-- The number a value converts to (`luaV_tonumber`): a number itself, or the number a
string denotes. -/
def luaV_tonumber : LuaVal → Option lua_Number
  | LuaVal.number n => some n
  | LuaVal.string s => luaO_str2d s
  | _ => none

/-- The macro `lua_isnil`. -/
def lua_isnil (l : lua_State) (idx : Int) : Bool :=
  decide (lua_type l idx = LuaType.TNIL)

/-- The macro `lua_isboolean`. -/
def lua_isboolean (l : lua_State) (idx : Int) : Bool :=
  decide (lua_type l idx = LuaType.TBOOLEAN)

/-- The macro `lua_istable`. -/
def lua_istable (l : lua_State) (idx : Int) : Bool :=
  decide (lua_type l idx = LuaType.TTABLE)

/-- The function `lua_isnumber`: a number or a string convertible to a number. -/
def lua_isnumber (l : lua_State) (idx : Int) : Bool :=
  match l.slot idx with
  | some v => (luaV_tonumber v).isSome
  | none => false

/-- The function `lua_isstring`: a string or a number. -/
def lua_isstring (l : lua_State) (idx : Int) : Bool :=
  decide (lua_type l idx = LuaType.TSTRING) || decide (lua_type l idx = LuaType.TNUMBER)

/-- The function `lua_toboolean`: false for `false`, nil and a non-valid index. -/
def lua_toboolean (l : lua_State) (idx : Int) : Bool :=
  match l.slot idx with
  | some (LuaVal.boolean b) => b
  | some LuaVal.nil => false
  | some _ => true
  | none => false

/-- The function `lua_tonumber`: 0 when the value does not convert. -/
def lua_tonumber (l : lua_State) (idx : Int) : lua_Number :=
  match l.slot idx with
  | some v => (luaV_tonumber v).getD 0
  | none => 0

/-- The macro `lua_number2integer`: the C cast to `lua_Integer`. -/
def lua_number2integer (n : lua_Number) : Int :=
  fpToSigned 64 n

/-- The macro `lua_number2unsigned`: the number reduced modulo `2^32`. -/
def lua_number2unsigned (n : lua_Number) : Int :=
  wrapUnsigned 32 (Rat.floor n)

/-- The function `lua_tointeger`: 0 when the value does not convert. -/
def lua_tointeger (l : lua_State) (idx : Int) : Int :=
  match l.slot idx with
  | some v =>
    (match luaV_tonumber v with
      | some n => lua_number2integer n
      | none => 0)
  | none => 0

/-- The function `lua_tounsigned`: 0 when the value does not convert. -/
def lua_tounsigned (l : lua_State) (idx : Int) : Int :=
  match l.slot idx with
  | some v =>
    (match luaV_tonumber v with
      | some n => lua_number2unsigned n
      | none => 0)
  | none => 0

/-- The function `lua_tolstring`: the string (with its length) of a string; a number is
first converted in place to a string; for any other value the result is `NULL` (and the
length 0). -/
def lua_tolstring (l : lua_State) (idx : Int) : Option String × lua_State :=
  match index2addr l idx, l.slot idx with
  | some _, some (LuaVal.string s) => (some s, l)
  | some a, some (LuaVal.number n) =>
    (some (lua_number2str n), { l with stack := l.stack.set a (LuaVal.string (lua_number2str n)) })
  | _, _ => (none, l)

/-- The macro `lua_tostring`, which is `lua_tolstring` without the length. -/
def lua_tostring (l : lua_State) (idx : Int) : Option String × lua_State :=
  lua_tolstring l idx

/-- Pushes one value (`api_incr_top`). -/
def lua_State.push (l : lua_State) (v : LuaVal) : lua_State :=
  { l with stack := l.stack ++ [v] }

/-- The function `lua_pushnil`. -/
def lua_pushnil (l : lua_State) : lua_State :=
  l.push LuaVal.nil

/-- The function `lua_pushboolean`. -/
def lua_pushboolean (l : lua_State) (b : Bool) : lua_State :=
  l.push (LuaVal.boolean b)

/-- The function `lua_pushnumber`. -/
def lua_pushnumber (l : lua_State) (n : lua_Number) : lua_State :=
  l.push (LuaVal.number n)

/-- The function `lua_pushinteger`; the argument is a `lua_Integer`. -/
def lua_pushinteger (l : lua_State) (n : Int) : lua_State :=
  l.push (LuaVal.number (cast_num n))

/-- The function `lua_pushunsigned`; the argument is a `lua_Unsigned`. -/
def lua_pushunsigned (l : lua_State) (n : Int) : lua_State :=
  l.push (LuaVal.number (cast_num n))

/-- The function `lua_pushlstring`: the string of the given bytes, NUL included. -/
def lua_pushlstring (l : lua_State) (s : String) : lua_State :=
  l.push (LuaVal.string s)

/-- The function `lua_pushstring`: the argument is read up to its first NUL. -/
def lua_pushstring (l : lua_State) (s : String) : lua_State :=
  l.push (LuaVal.string (c_str s))

/-- The function `lua_pushlightuserdata`. -/
def lua_pushlightuserdata (l : lua_State) (p : Nat) : lua_State :=
  l.push (LuaVal.lightuserdata p)

/-- The function `lua_createtable`: a new empty table; the two size hints only
preallocate. -/
def lua_createtable (l : lua_State) (_narr _nrec : Nat) : lua_State :=
  l.push (LuaVal.table [])

/-- The function `lua_settop`. -/
def lua_settop (l : lua_State) (idx : Int) : Res lua_State :=
  if 0 ≤ idx then
    Except.ok { l with stack :=
      (l.stack ++ List.replicate (idx.toNat - l.stack.length) LuaVal.nil).take idx.toNat }
  else if -(idx + 1) ≤ lua_gettop l then
    Except.ok { l with stack := l.stack.take (lua_gettop l + idx + 1).toNat }
  else Except.error Fault.apiViolation

/-- The macro `lua_pop`, which is `lua_settop(L, -(n)-1)`. -/
def lua_pop (l : lua_State) (n : Int) : Res lua_State :=
  lua_settop l (-n - 1)

/-- The raw assignment `t[k] = v` on the entries of a table (`luaH_set`): a nil value
removes the entry, the value of a present key is replaced in place, a new key is
appended. -/
def luaH_set (es : List (LuaKey × LuaVal)) (k : LuaKey) (v : LuaVal) : List (LuaKey × LuaVal) :=
  if v = LuaVal.nil then es.filter (fun e => e.1 ≠ k)
  else if es.any (fun e => e.1 = k) then es.map (fun e => if e.1 = k then (k, v) else e)
  else es ++ [(k, v)]

/-- The pair that follows the entry of `key` in a traversal; the outer `none` says that
the key is not in the table. -/
def luaH_after : List (LuaKey × LuaVal) → LuaKey → Option (Option (LuaKey × LuaVal))
  | [], _ => none
  | (k, _) :: r, key => if k = key then some r.head? else luaH_after r key

/-- The traversal step `luaH_next`: the first pair for the key nil, else the pair after the
given key; the outer `none` says that the key is not a key of the table. -/
def luaH_next (es : List (LuaKey × LuaVal)) (key : LuaVal) :
    Option (Option (LuaKey × LuaVal)) :=
  if key = LuaVal.nil then some es.head?
  else
    match key.toKey with
    | some k => luaH_after es k
    | none => none

/-- The function `lua_next`: pops a key and pushes the next pair of the table at `idx`
(returning 1), or pushes nothing at the end of the traversal (returning 0). -/
def lua_next (l : lua_State) (idx : Int) : Res (Bool × lua_State) :=
  match l.slot idx, l.stack.getLast? with
  | some (LuaVal.table es), some key =>
    (match luaH_next es key with
      | none => Except.error (Fault.luaError "invalid key to 'next'")
      | some none => Except.ok (false, { l with stack := l.stack.dropLast })
      | some (some (k, v)) =>
        Except.ok (true, { l with stack := l.stack.dropLast ++ [k.toVal, v] }))
  | _, _ => Except.error Fault.apiViolation

/-- The raw assignment `t[k] = v` where `t` is the table at `idx`, a slot below the top,
and `v` the value on top of the stack, which is popped. -/
def lua_rawset_top (l : lua_State) (idx : Int) (k : LuaKey) : Res lua_State :=
  match index2addr l idx, l.slot idx, l.stack.getLast? with
  | some a, some (LuaVal.table es), some v =>
    if a + 1 < l.stack.length then
      Except.ok { l with stack := (l.stack.set a (LuaVal.table (luaH_set es k v))).dropLast }
    else Except.error Fault.apiViolation
  | _, _, _ => Except.error Fault.apiViolation

/-- The function `lua_rawseti`: `t[n] = v` without metamethods; pops the value. -/
def lua_rawseti (l : lua_State) (idx : Int) (n : Int) : Res lua_State :=
  lua_rawset_top l idx (LuaKey.number (cast_num n))

/-- The function `lua_setfield`: `t[k] = v` for the C string `k`; pops the value.  The
tables of this model have no metatable, so the assignment is raw. -/
def lua_setfield (l : lua_State) (idx : Int) (k : String) : Res lua_State :=
  lua_rawset_top l idx (LuaKey.string (c_str k))

/-- The function `lua_replace`: moves the top value into the slot at `idx` and pops it. -/
def lua_replace (l : lua_State) (idx : Int) : Res lua_State :=
  match index2addr l idx, l.stack.getLast? with
  | some a, some v => Except.ok { l with stack := (l.stack.set a v).dropLast }
  | _, _ => Except.error Fault.apiViolation

/-- The error of `typeerror` in the auxiliary library: the expected type name and the
name of the type found at the argument position. -/
def tag_error (l : lua_State) (narg : Int) (t : LuaType) : Fault :=
  Fault.argError narg (lua_typename t) (lua_typename (lua_type l narg))

/-- The function `luaL_checktype`. -/
def luaL_checktype (l : lua_State) (narg : Int) (t : LuaType) : Res Unit :=
  if lua_type l narg = t then Except.ok () else Except.error (tag_error l narg t)

/-- The function `luaL_checknumber`. -/
def luaL_checknumber (l : lua_State) (narg : Int) : Res lua_Number :=
  match (l.slot narg).bind luaV_tonumber with
  | some n => Except.ok n
  | none => Except.error (tag_error l narg LuaType.TNUMBER)

/-- The function `luaL_checkinteger`. -/
def luaL_checkinteger (l : lua_State) (narg : Int) : Res Int :=
  match (l.slot narg).bind luaV_tonumber with
  | some n => Except.ok (lua_number2integer n)
  | none => Except.error (tag_error l narg LuaType.TNUMBER)

/-- The function `luaL_checkunsigned`. -/
def luaL_checkunsigned (l : lua_State) (narg : Int) : Res Int :=
  match (l.slot narg).bind luaV_tonumber with
  | some n => Except.ok (lua_number2unsigned n)
  | none => Except.error (tag_error l narg LuaType.TNUMBER)

/-- The macro `luaL_checkint`: `(int)luaL_checkinteger(L, n)`. -/
def luaL_checkint (l : lua_State) (narg : Int) : Res Int :=
  (luaL_checkinteger l narg).map (wrapSigned 32)

/-- The macro `luaL_checklong`: `(long)luaL_checkinteger(L, n)`. -/
def luaL_checklong (l : lua_State) (narg : Int) : Res Int :=
  (luaL_checkinteger l narg).map (wrapSigned 64)

/-- The function `luaL_checklstring`. -/
def luaL_checklstring (l : lua_State) (narg : Int) : Res (String × lua_State) :=
  match lua_tolstring l narg with
  | (some s, l1) => Except.ok (s, l1)
  | (none, _) => Except.error (tag_error l narg LuaType.TSTRING)

/-- The macro `luaL_checkstring`, which is `luaL_checklstring` without the length. -/
def luaL_checkstring (l : lua_State) (narg : Int) : Res (String × lua_State) :=
  luaL_checklstring l narg

/-! ## primitives.h: getters -/

/-- The overload `_get(_id<bool>, l, index)`. -/
def _get_bool (l : lua_State) (index : Int) : Bool :=
  lua_toboolean l index

/-- The overload `_get(_id<char>, l, index)`: dereferences the result of `lua_tostring`. -/
def _get_char (l : lua_State) (index : Int) : Res (Char × lua_State) :=
  match lua_tostring l index with
  | (some s, l1) => Except.ok (string_front s, l1)
  | (none, _) => Except.error Fault.nullDereference

/-- The overload `_get(_id<int>, l, index)`: `lua_tointeger` narrowed to `int`. -/
def _get_int (l : lua_State) (index : Int) : Int :=
  wrapSigned 32 (lua_tointeger l index)

/-- The overload `_get(_id<unsigned int>, l, index)`. -/
def _get_unsigned_int (l : lua_State) (index : Int) : Int :=
  lua_tounsigned l index

/-- The overload `_get(_id<long>, l, index)`. -/
def _get_long (l : lua_State) (index : Int) : Int :=
  lua_tointeger l index

/-- The overload `_get(_id<long unsigned int>, l, index)`. -/
def _get_long_unsigned_int (l : lua_State) (index : Int) : Int :=
  lua_tounsigned l index

/-- The overload `_get(_id<lua_Number>, l, index)`. -/
def _get_lua_Number (l : lua_State) (index : Int) : lua_Number :=
  lua_tonumber l index

/-- The overload `_get(_id<std::string>, l, index)`: the string of `size` bytes at `buff`;
for a `NULL` buffer the size is 0 and the string is empty. -/
def _get_string (l : lua_State) (index : Int) : String × lua_State :=
  match lua_tolstring l index with
  | (some s, l1) => (s, l1)
  | (none, l1) => ("", l1)

mutual
/-- The overload `_get(_id<Value>, l, index)`.  The recursion of the source is bounded by
`fuel`. -/
def _get_Value : Nat → lua_State → Int → Res (Value × lua_State)
  | 0, _, _ => Except.error Fault.outOfFuel
  | fuel + 1, l, index =>
    if lua_isnil l index then Except.ok (Value.NilValue, l)
    else if lua_isboolean l index then Except.ok (Value.BoolValue (_get_bool l index), l)
    else if lua_isnumber l index then Except.ok (Value.DoubleValue (_get_lua_Number l index), l)
    else if lua_isstring l index then
      Except.ok (Value.StringValue (_get_string l index).1, (_get_string l index).2)
    else if lua_istable l index then
      match luaL_checktype l index LuaType.TTABLE with
      | Except.error e => Except.error e
      | Except.ok _ =>
        match _get_Value_loop fuel (lua_pushnil l) Table.empty with
        | Except.error e => Except.error e
        | Except.ok (t, l1) => Except.ok (Value.ofTable t, l1)
    else Except.ok (Value.NilValue, l)
/-- The loop `while (lua_next(l, -2)) { ... lua_pop(l, 1); }` of `_get(_id<Value>, ...)`,
with the table `t` built so far. -/
def _get_Value_loop : Nat → lua_State → Table → Res (Table × lua_State)
  | 0, _, _ => Except.error Fault.outOfFuel
  | fuel + 1, l, t =>
    match lua_next l (-2) with
    | Except.error e => Except.error e
    | Except.ok (false, l1) => Except.ok (t, l1)
    | Except.ok (true, l1) =>
      let body : Res (Table × lua_State) :=
        if lua_isnumber l1 (-2) then
          match _get_Value fuel l1 (-1) with
          | Except.error e => Except.error e
          | Except.ok (v, l2) =>
            Except.ok (t.assign_int (wrapUnsigned 64 (_get_int l1 (-2))) v, l2)
        else if lua_isstring l1 (-2) then
          match _get_Value fuel (_get_string l1 (-2)).2 (-1) with
          | Except.error e => Except.error e
          | Except.ok (v, l2) => Except.ok (t.assign_str (_get_string l1 (-2)).1 v, l2)
        else Except.ok (t, l1)
      match body with
      | Except.error e => Except.error e
      | Except.ok (t1, l3) =>
        match lua_pop l3 1 with
        | Except.error e => Except.error e
        | Except.ok l4 => _get_Value_loop fuel l4 t1
end

/-- Modelled from the spec: the compile-time type tag `_id<T>` of `traits.h`, which is
not among the sources; one constructor per host type that is not a pointer or a
reference. -/
inductive _id where
  | bool
  | char
  | int
  | unsigned_int
  | long
  | long_unsigned_int
  | lua_Number
  | string
  | Value
  deriving DecidableEq, Repr

/-- A host value of one of the types of `_id`. -/
inductive HostVal where
  | bool (b : Bool)
  | char (c : Char)
  | int (i : Int)
  | unsigned_int (u : Int)
  | long (i : Int)
  | long_unsigned_int (u : Int)
  | lua_Number (d : sel.lua_Number)
  | string (s : String)
  | Value (v : sel.Value)
  deriving DecidableEq, Repr

/-- The overload set `_get(_id<T>, l, index)`, selected by the tag. -/
def _get (T : _id) (fuel : Nat) (l : lua_State) (index : Int) : Res (HostVal × lua_State) :=
  match T with
  | _id.bool => Except.ok (HostVal.bool (_get_bool l index), l)
  | _id.char => (_get_char l index).map (fun r => (HostVal.char r.1, r.2))
  | _id.int => Except.ok (HostVal.int (_get_int l index), l)
  | _id.unsigned_int => Except.ok (HostVal.unsigned_int (_get_unsigned_int l index), l)
  | _id.long => Except.ok (HostVal.long (_get_long l index), l)
  | _id.long_unsigned_int =>
    Except.ok (HostVal.long_unsigned_int (_get_long_unsigned_int l index), l)
  | _id.lua_Number => Except.ok (HostVal.lua_Number (_get_lua_Number l index), l)
  | _id.string => Except.ok (HostVal.string (_get_string l index).1, (_get_string l index).2)
  | _id.Value => (_get_Value fuel l index).map (fun r => (HostVal.Value r.1, r.2))

/-- The overload `_check_get(_id<char>, l, index)`. -/
def _check_get_char (l : lua_State) (index : Int) : Res (Char × lua_State) :=
  (luaL_checkstring l index).map (fun r => (string_front r.1, r.2))

/-- The overload `_check_get(_id<int>, l, index)`. -/
def _check_get_int (l : lua_State) (index : Int) : Res Int :=
  luaL_checkint l index

/-- The overload `_check_get(_id<unsigned int>, l, index)`. -/
def _check_get_unsigned_int (l : lua_State) (index : Int) : Res Int :=
  luaL_checkunsigned l index

/-- The overload `_check_get(_id<long>, l, index)`. -/
def _check_get_long (l : lua_State) (index : Int) : Res Int :=
  luaL_checklong l index

/-- The overload `_check_get(_id<long unsigned int>, l, index)`: `luaL_checklong` converted
to `unsigned long`. -/
def _check_get_long_unsigned_int (l : lua_State) (index : Int) : Res Int :=
  (luaL_checklong l index).map (wrapUnsigned 64)

/-- The overload `_check_get(_id<lua_Number>, l, index)`. -/
def _check_get_lua_Number (l : lua_State) (index : Int) : Res lua_Number :=
  luaL_checknumber l index

/-- The overload `_check_get(_id<bool>, l, index)`. -/
def _check_get_bool (l : lua_State) (index : Int) : Bool :=
  lua_toboolean l index

/-- The overload `_check_get(_id<std::string>, l, index)`. -/
def _check_get_string (l : lua_State) (index : Int) : Res (String × lua_State) :=
  luaL_checklstring l index

/-- The overload `_check_get(_id<Value>, l, index)`. -/
def _check_get_Value (fuel : Nat) (l : lua_State) (index : Int) : Res (Value × lua_State) :=
  _get_Value fuel l index

/-- The overload set `_check_get(_id<T>, l, index)`, selected by the tag. -/
def _check_get (T : _id) (fuel : Nat) (l : lua_State) (index : Int) :
    Res (HostVal × lua_State) :=
  match T with
  | _id.bool => Except.ok (HostVal.bool (_check_get_bool l index), l)
  | _id.char => (_check_get_char l index).map (fun r => (HostVal.char r.1, r.2))
  | _id.int => (_check_get_int l index).map (fun r => (HostVal.int r, l))
  | _id.unsigned_int => (_check_get_unsigned_int l index).map (fun r => (HostVal.unsigned_int r, l))
  | _id.long => (_check_get_long l index).map (fun r => (HostVal.long r, l))
  | _id.long_unsigned_int =>
    (_check_get_long_unsigned_int l index).map (fun r => (HostVal.long_unsigned_int r, l))
  | _id.lua_Number => (_check_get_lua_Number l index).map (fun r => (HostVal.lua_Number r, l))
  | _id.string => (_check_get_string l index).map (fun r => (HostVal.string r.1, r.2))
  | _id.Value => (_check_get_Value fuel l index).map (fun r => (HostVal.Value r.1, r.2))

/-! ## primitives.h: popping several values -/

/-- The result of a multi-value pop: `void`, an unboxed value, or a `std::tuple`. -/
inductive PopResult where
  | void
  | single (v : HostVal)
  | tuple (vs : List HostVal)
  deriving DecidableEq, Repr

/-- The function `worker` of `_pop_n_impl` and of `_pop_n_reset_impl`:
`std::make_tuple(_get(_id<Ts>{}, l, N + 1)...)`, where `N` runs through the index pack.
Modelled from the spec: `_indices_builder<S>::type` of `traits.h`, which is not among the
sources, is the pack `0, 1, ..., S - 1`; `n` is the current element of the pack.  The
elements are evaluated from left to right. -/
def _pop_n_worker (fuel : Nat) : List _id → Nat → lua_State → Res (List HostVal × lua_State)
  | [], _, l => Except.ok ([], l)
  | T :: Ts, n, l =>
    match _get T fuel l ((n : Int) + 1) with
    | Except.error e => Except.error e
    | Except.ok (v, l1) =>
      match _pop_n_worker fuel Ts (n + 1) l1 with
      | Except.error e => Except.error e
      | Except.ok (vs, l2) => Except.ok (v :: vs, l2)

/-- The function `_pop_n<T...>`: `_pop_n_impl<sizeof...(T), T...>::apply`, with its
specialisations for no type and for one type. -/
def _pop_n (fuel : Nat) (Ts : List _id) (l : lua_State) : Res (PopResult × lua_State) :=
  match Ts with
  | [] => Except.ok (PopResult.void, l)
  | [T] =>
    (match _get T fuel l (-1) with
      | Except.error e => Except.error e
      | Except.ok (ret, l1) =>
        match lua_pop l1 1 with
        | Except.error e => Except.error e
        | Except.ok l2 => Except.ok (PopResult.single ret, l2))
  | _ :: _ :: _ =>
    (match _pop_n_worker fuel Ts 0 l with
      | Except.error e => Except.error e
      | Except.ok (ret, l1) =>
        match lua_pop l1 (Ts.length : Int) with
        | Except.error e => Except.error e
        | Except.ok l2 => Except.ok (PopResult.tuple ret, l2))

/-- The function `_pop_n_reset<T...>`: `_pop_n_reset_impl<sizeof...(T), T...>::apply`, with
its specialisations for no type and for one type. -/
def _pop_n_reset (fuel : Nat) (Ts : List _id) (l : lua_State) : Res (PopResult × lua_State) :=
  match Ts with
  | [] =>
    (match lua_settop l 0 with
      | Except.error e => Except.error e
      | Except.ok l1 => Except.ok (PopResult.void, l1))
  | [T] =>
    (match _get T fuel l (-1) with
      | Except.error e => Except.error e
      | Except.ok (ret, l1) =>
        match lua_settop l1 0 with
        | Except.error e => Except.error e
        | Except.ok l2 => Except.ok (PopResult.single ret, l2))
  | _ :: _ :: _ =>
    (match _pop_n_worker fuel Ts 0 l with
      | Except.error e => Except.error e
      | Except.ok (ret, l1) =>
        match lua_settop l1 0 with
        | Except.error e => Except.error e
        | Except.ok l2 => Except.ok (PopResult.tuple ret, l2))

/-- The function `_pop(_id<T>, l)`. -/
def _pop (T : _id) (fuel : Nat) (l : lua_State) : Res (HostVal × lua_State) :=
  match _get T fuel l (-1) with
  | Except.error e => Except.error e
  | Except.ok (ret, l1) =>
    match lua_pop l1 1 with
    | Except.error e => Except.error e
    | Except.ok l2 => Except.ok (ret, l2)

/-! ## primitives.h: setters -/

/-- The overload `_push(l, bool)`. -/
def _push_bool (l : lua_State) (b : Bool) : lua_State :=
  lua_pushboolean l b

/-- The overload `_push(l, char)`: `lua_pushlstring(l, &c, 1)`. -/
def _push_char (l : lua_State) (c : Char) : lua_State :=
  lua_pushlstring l (String.singleton c)

/-- The overload `_push(l, int)`. -/
def _push_int (l : lua_State) (i : Int) : lua_State :=
  lua_pushinteger l i

/-- The overload `_push(l, unsigned int)`. -/
def _push_unsigned_int (l : lua_State) (u : Int) : lua_State :=
  lua_pushunsigned l u

/-- The overload `_push(l, long)`. -/
def _push_long (l : lua_State) (i : Int) : lua_State :=
  lua_pushinteger l i

/-- The overload `_push(l, long unsigned int)`: `lua_pushinteger(l, u)`, the argument
converted to `lua_Integer`. -/
def _push_long_unsigned_int (l : lua_State) (u : Int) : lua_State :=
  lua_pushinteger l (wrapSigned 64 u)

/-- The overload `_push(l, lua_Number)`. -/
def _push_lua_Number (l : lua_State) (f : lua_Number) : lua_State :=
  lua_pushnumber l f

/-- The overload `_push(l, const std::string&)`: `lua_pushlstring(l, s.c_str(), s.size())`. -/
def _push_string (l : lua_State) (s : String) : lua_State :=
  lua_pushlstring l s

/-- The overload `_push(l, const char*)`. -/
def _push_c_string (l : lua_State) (s : String) : lua_State :=
  lua_pushstring l s

/-- The six statements `if (value.IsBool()) { _push(l, value.bool_value()); }` ...
`if (value.IsString()) { _push(l, value.string_value()); }` of `_push(l, Value)`. -/
def _push_Value_scalars (l : lua_State) (value : Value) : lua_State :=
  let l1 := if value.IsBool then _push_bool l value.bool_value else l
  let l2 := if value.IsChar then _push_char l1 value.char_value else l1
  let l3 := if value.IsInt then _push_int l2 value.int_value else l2
  let l4 := if value.IsLong then _push_long l3 value.long_value else l3
  let l5 := if value.IsDouble then _push_lua_Number l4 value.double_value else l4
  if value.IsString then _push_string l5 value.string_value else l5

mutual
/-- The overload `_push(l, Value)`. -/
def _push_Value : lua_State → Value → Res lua_State
  | l, Value.TableValue im sm =>
    match _push_int_items
        (lua_createtable (_push_Value_scalars l (Value.TableValue im sm)) im.length sm.length)
        im with
    | Except.error e => Except.error e
    | Except.ok l1 => _push_str_items l1 sm
  | l, value => Except.ok (_push_Value_scalars l value)
/-- The loop `for (auto item : im)` of `_push(l, Value)`. -/
def _push_int_items : lua_State → List (Int × Value) → Res lua_State
  | l, [] => Except.ok l
  | l, (first, second) :: rest =>
    if !second.IsNil then
      match _push_Value l second with
      | Except.error e => Except.error e
      | Except.ok l1 =>
        match lua_rawseti l1 (-2) first with
        | Except.error e => Except.error e
        | Except.ok l2 => _push_int_items l2 rest
    else _push_int_items l rest
/-- The loop `for (auto item : sm)` of `_push(l, Value)`. -/
def _push_str_items : lua_State → List (String × Value) → Res lua_State
  | l, [] => Except.ok l
  | l, (first, second) :: rest =>
    if !second.IsNil then
      match _push_Value l second with
      | Except.error e => Except.error e
      | Except.ok l1 =>
        match lua_setfield l1 (-2) first with
        | Except.error e => Except.error e
        | Except.ok l2 => _push_str_items l2 rest
    else _push_str_items l rest
end

/-- The overload set `_push(l, x)` for a host value of one of the types of `_id`. -/
def _push (l : lua_State) (x : HostVal) : Res lua_State :=
  match x with
  | HostVal.bool b => Except.ok (_push_bool l b)
  | HostVal.char c => Except.ok (_push_char l c)
  | HostVal.int i => Except.ok (_push_int l i)
  | HostVal.unsigned_int u => Except.ok (_push_unsigned_int l u)
  | HostVal.long i => Except.ok (_push_long l i)
  | HostVal.long_unsigned_int u => Except.ok (_push_long_unsigned_int l u)
  | HostVal.lua_Number f => Except.ok (_push_lua_Number l f)
  | HostVal.string s => Except.ok (_push_string l s)
  | HostVal.Value v => _push_Value l v

/-! ## Functions used to state the behaviour of the dynamic get and push -/

/-- The effect of one round of the loop of `_get(_id<Value>, ...)` on the table built so
far, for a pair with key `k` whose value has been materialised as `v`: a key that is a
number or a string convertible to a number goes to the integer map (as an `int`), any other
string to the string map, and a pair with any other key is dropped. -/
def routeKey (k : LuaKey) (v : Value) (t : Table) : Table :=
  match luaV_tonumber k.toVal with
  | some n => t.assign_int (wrapUnsigned 64 (wrapSigned 32 (lua_number2integer n))) v
  | none =>
    match k with
    | LuaKey.string s => t.assign_str s v
    | _ => t

mutual
/-- The `Value` built by the dynamic get from a Lua value on top of the stack. -/
def materialize : LuaVal → Value
  | LuaVal.nil => Value.NilValue
  | LuaVal.boolean b => Value.BoolValue b
  | LuaVal.number n => Value.DoubleValue n
  | LuaVal.string s =>
    (match luaO_str2d s with
      | some n => Value.DoubleValue n
      | none => Value.StringValue s)
  | LuaVal.lightuserdata _ => Value.NilValue
  | LuaVal.table es => Value.ofTable (materializeEntries es Table.empty)
/-- The table built by the dynamic get from the pairs still to visit and the table built
so far. -/
def materializeEntries : List (LuaKey × LuaVal) → Table → Table
  | [], t => t
  | (k, v) :: r, t => materializeEntries r (routeKey k (materialize v) t)
end

mutual
/-- The invariant of Lua tables that the keys of a table are pairwise distinct, for a
value and all tables nested in it. -/
def LuaVal.wf : LuaVal → Bool
  | LuaVal.table es => decide ((es.map Prod.fst).Nodup) && wfEntries es
  | _ => true
/-- The invariant `LuaVal.wf` for the values of a list of pairs. -/
def wfEntries : List (LuaKey × LuaVal) → Bool
  | [] => true
  | (_, v) :: r => v.wf && wfEntries r
end

mutual
/-- A bound on the fuel the dynamic get needs for a Lua value. -/
def LuaVal.size : LuaVal → Nat
  | LuaVal.table es => 2 + sizeEntries es
  | _ => 1
/-- A bound on the fuel the loop of the dynamic get needs for a list of pairs. -/
def sizeEntries : List (LuaKey × LuaVal) → Nat
  | [] => 0
  | (_, v) :: r => 1 + v.size + sizeEntries r
end

mutual
/-- The Lua value that `_push(l, Value)` leaves on the stack for a value that is not nil
and whose keys do not collide. -/
def pushed : Value → LuaVal
  | Value.NilValue => LuaVal.nil
  | Value.BoolValue b => LuaVal.boolean b
  | Value.CharValue c => LuaVal.string (String.singleton c)
  | Value.IntValue i => LuaVal.number (cast_num i)
  | Value.LongValue i => LuaVal.number (cast_num i)
  | Value.DoubleValue d => LuaVal.number d
  | Value.StringValue s => LuaVal.string s
  | Value.TableValue im sm => LuaVal.table (pushedInt im ++ pushedStr sm)
/-- The pairs written for the integer map: one for every entry whose value is not nil. -/
def pushedInt : List (Int × Value) → List (LuaKey × LuaVal)
  | [] => []
  | (k, v) :: r =>
    if v.IsNil then pushedInt r else (LuaKey.number (cast_num k), pushed v) :: pushedInt r
/-- The pairs written for the string map: one for every entry whose value is not nil. -/
def pushedStr : List (String × Value) → List (LuaKey × LuaVal)
  | [] => []
  | (k, v) :: r =>
    if v.IsNil then pushedStr r else (LuaKey.string (c_str k), pushed v) :: pushedStr r
end

mutual
/-- The value that comes back when a value is pushed and materialised again: booleans and
doubles come back as they are; an `int` or a `long` comes back as the double it was pushed
as; a string or a character comes back as a string, or as a double if its text denotes a
number; a table comes back with its entries that are not nil, each value converted in the
same way. -/
def roundTrip : Value → Value
  | Value.NilValue => Value.NilValue
  | Value.BoolValue b => Value.BoolValue b
  | Value.CharValue c =>
    (match luaO_str2d (String.singleton c) with
      | some n => Value.DoubleValue n
      | none => Value.StringValue (String.singleton c))
  | Value.IntValue i => Value.DoubleValue (cast_num i)
  | Value.LongValue i => Value.DoubleValue (cast_num i)
  | Value.DoubleValue d => Value.DoubleValue d
  | Value.StringValue s =>
    (match luaO_str2d s with
      | some n => Value.DoubleValue n
      | none => Value.StringValue s)
  | Value.TableValue im sm => Value.TableValue (roundTripInt im) (roundTripStr sm)
/-- The entries of an integer map that are not nil, each value converted by `roundTrip`. -/
def roundTripInt : List (Int × Value) → List (Int × Value)
  | [] => []
  | (k, v) :: r => if v.IsNil then roundTripInt r else (k, roundTrip v) :: roundTripInt r
/-- The entries of a string map that are not nil, each value converted by `roundTrip`. -/
def roundTripStr : List (String × Value) → List (String × Value)
  | [] => []
  | (k, v) :: r => if v.IsNil then roundTripStr r else (k, roundTrip v) :: roundTripStr r
end

mutual
/-- The values whose maps are well formed and whose keys survive the passage through Lua:
in every table, nested ones included, the integer keys are `int`s in strictly increasing
order, and the string keys are in strictly increasing order, hold no NUL and do not denote
a number. -/
def Value.wellKeyed : Value → Bool
  | Value.TableValue im sm => wellKeyedInt im && wellKeyedStr sm
  | _ => true
/-- The condition `Value.wellKeyed` on an integer map. -/
def wellKeyedInt : List (Int × Value) → Bool
  | [] => true
  | (k, v) :: r =>
    decide (inSigned 32 k) && decide (∀ e ∈ r, k < e.1) && v.wellKeyed && wellKeyedInt r
/-- The condition `Value.wellKeyed` on a string map. -/
def wellKeyedStr : List (String × Value) → Bool
  | [] => true
  | (k, v) :: r =>
    decide (c_str k = k) && decide (luaO_str2d k = none) && decide (∀ e ∈ r, k < e.1)
      && v.wellKeyed && wellKeyedStr r
end

/-! ## Value.h: constructors -/

namespace Value

/-- The constructor `Value()`: a `NilValue` box. -/
def of_nothing : Value := NilValue

/-- The constructor `Value(bool)`. -/
def of_bool (value : Bool) : Value := BoolValue value

/-- The constructor `Value(char)`. -/
def of_char (value : Char) : Value := CharValue value

/-- The constructor `Value(int)`. -/
def of_int (value : Int) : Value := IntValue value

/-- The constructor `Value(long)`. -/
def of_long (value : Int) : Value := LongValue value

/-- The constructor `Value(double)`. -/
def of_double (value : lua_Number) : Value := DoubleValue value

/-- The constructor `Value(const char*)`: a `StringValue` of `std::string(value)`, the
characters before the first NUL. -/
def of_c_str (value : String) : Value := StringValue (c_str value)

/-- The constructor `Value(std::string)`. -/
def of_string (value : String) : Value := StringValue value

/-- The constructor `Value(std::map<int, Value>)`: a `TableValue` of the `Table` that
adopts the map as its integer map. -/
def of_int_map (value : List (Int × Value)) : Value := TableValue value []

/-- The constructor `Value(std::map<std::string, Value>)`: a `TableValue` of the `Table`
that adopts the map as its string map. -/
def of_str_map (value : List (String × Value)) : Value := TableValue [] value

/-- The list of the eight predicates `IsNil()`, ..., `IsTable()` of a value. -/
def predicates (v : Value) : List Bool :=
  [v.IsNil, v.IsBool, v.IsChar, v.IsInt, v.IsLong, v.IsDouble, v.IsString, v.IsTable]

end Value

/-- The function `_set(l, value, index)`: `_push(l, value)` followed by
`lua_replace(l, index)`. -/
def _set (l : lua_State) (value : HostVal) (index : Int) : Res lua_State :=
  match _push l value with
  | Except.error e => Except.error e
  | Except.ok l1 => lua_replace l1 index

mutual
/-- The Lua value that `_push(l, Value)` leaves on the stack for any value that is not
nil: the table is built by the raw assignments of the two loops, in their order. -/
def written : Value → LuaVal
  | Value.NilValue => LuaVal.nil
  | Value.BoolValue b => LuaVal.boolean b
  | Value.CharValue c => LuaVal.string (String.singleton c)
  | Value.IntValue i => LuaVal.number (cast_num i)
  | Value.LongValue i => LuaVal.number (cast_num i)
  | Value.DoubleValue d => LuaVal.number d
  | Value.StringValue s => LuaVal.string s
  | Value.TableValue im sm => LuaVal.table (writtenStr (writtenInt [] im) sm)
/-- The entries of the new table after the loop over the integer map, starting from the
entries `es`. -/
def writtenInt : List (LuaKey × LuaVal) → List (Int × Value) → List (LuaKey × LuaVal)
  | es, [] => es
  | es, (k, v) :: r =>
    if v.IsNil then writtenInt es r
    else writtenInt (luaH_set es (LuaKey.number (cast_num k)) (written v)) r
/-- The entries of the new table after the loop over the string map, starting from the
entries `es`. -/
def writtenStr : List (LuaKey × LuaVal) → List (String × Value) → List (LuaKey × LuaVal)
  | es, [] => es
  | es, (k, v) :: r =>
    if v.IsNil then writtenStr es r
    else writtenStr (luaH_set es (LuaKey.string (c_str k)) (written v)) r
end

/-! ## primitives.h: pointers, the metatable registry and tuples -/

/-- Modelled from the spec: the identity `typeid(T)` of a host type, the key of the
metatable registry. -/
abbrev TypeId := Nat

/-- Modelled from the spec: the class `MetatableRegistry` of `MetatableRegistry.h`, which
is not among the sources: a single lookup `Find` from the identity of a host type to the
name of its metatable, if one is registered. -/
structure MetatableRegistry where
  Find : TypeId → Option String

/-- A registry that knows the metatable name "A" for the host type 1 and no name for any
other type. -/
def registry_A : MetatableRegistry :=
  MetatableRegistry.mk (fun T => if T = 1 then some "A" else none)

/-- The Lua state together with the part of its global state that `luaL_setmetatable`
changes for a light userdata.  All light userdata share one metatable; the field holds
the name under which that metatable was looked up in the Lua registry
(`luaL_getmetatable`), or nothing if none was ever set. -/
structure LuaRuntime where
  L : lua_State
  lightuserdata_mt : Option String
  deriving DecidableEq, Repr

/-- The function `luaL_setmetatable(L, tname)`: the metatable registered under the C
string `tname` becomes the metatable of the value on top of the stack.  For a light
userdata this is the metatable of all light userdata; metatables of other values are not
part of the model. -/
def luaL_setmetatable (R : LuaRuntime) (tname : String) : Res LuaRuntime :=
  match R.L.stack.getLast? with
  | some (LuaVal.lightuserdata _) =>
    Except.ok { R with lightuserdata_mt := some (c_str tname) }
  | some _ => Except.ok R
  | none => Except.error Fault.apiViolation

/-- The name of the metatable of the value at a stack index (`lua_getmetatable`), for the
values whose metatable is part of the model. -/
def lua_getmetatable (R : LuaRuntime) (idx : Int) : Option String :=
  match R.L.slot idx with
  | some (LuaVal.lightuserdata _) => R.lightuserdata_mt
  | _ => none

/-- The overload `_push(l, m, T* t)`; the pointer is its address, 0 for `nullptr`. -/
def _push_m_pointer (R : LuaRuntime) (m : MetatableRegistry) (T : TypeId) (t : Nat) :
    Res LuaRuntime :=
  if t = 0 then Except.ok { R with L := lua_pushnil R.L }
  else
    match m.Find T with
    | some metatable =>
      luaL_setmetatable { R with L := lua_pushlightuserdata R.L t } metatable
    | none => Except.ok { R with L := lua_pushlightuserdata R.L t }

/-- The overload `_push(l, m, T& t)`; `t` is the address of the object. -/
def _push_m_reference (R : LuaRuntime) (m : MetatableRegistry) (T : TypeId) (t : Nat) :
    Res LuaRuntime :=
  match m.Find T with
  | some metatable => luaL_setmetatable { R with L := lua_pushlightuserdata R.L t } metatable
  | none => Except.ok { R with L := lua_pushlightuserdata R.L t }

/-- The overload `_push(l, T* t)`. -/
def _push_pointer (l : lua_State) (t : Nat) : lua_State :=
  if t = 0 then lua_pushnil l else lua_pushlightuserdata l t

/-- The overloads `_push(l, m, x)` for a host value of one of the types of `_id`; the
registry is not used.  They are the overloads without registry, except for
`long unsigned int`, which is pushed by `lua_pushunsigned` (as a `lua_Unsigned`). -/
def _push_m_value (l : lua_State) (x : HostVal) : Res lua_State :=
  match x with
  | HostVal.bool b => Except.ok (lua_pushboolean l b)
  | HostVal.char c => Except.ok (lua_pushlstring l (String.singleton c))
  | HostVal.int i => Except.ok (lua_pushinteger l i)
  | HostVal.unsigned_int u => Except.ok (lua_pushunsigned l u)
  | HostVal.long i => Except.ok (lua_pushinteger l i)
  | HostVal.long_unsigned_int u => Except.ok (lua_pushunsigned l (wrapUnsigned 32 u))
  | HostVal.lua_Number f => Except.ok (lua_pushnumber l f)
  | HostVal.string s => Except.ok (lua_pushlstring l s)
  | HostVal.Value v => _push_Value l v

/-- An element of a host tuple: a value of one of the types of `_id`, a `const char*`, or
a pointer `T*` given by the identity of `T` and the address. -/
inductive PushArg where
  | value (x : HostVal)
  | c_string (s : String)
  | pointer (T : TypeId) (t : Nat)
  deriving DecidableEq, Repr

/-- The single-value push `_push(l, m, x)` for an element of a tuple. -/
def _push_m_arg (R : LuaRuntime) (m : MetatableRegistry) (a : PushArg) : Res LuaRuntime :=
  match a with
  | PushArg.value x =>
    (match _push_m_value R.L x with
      | Except.error e => Except.error e
      | Except.ok l1 => Except.ok { R with L := l1 })
  | PushArg.c_string s => Except.ok { R with L := lua_pushstring R.L s }
  | PushArg.pointer T t => _push_m_pointer R m T t

/-- The single-value push `_push(l, x)` for an element of a tuple. -/
def _push_arg (l : lua_State) (a : PushArg) : Res lua_State :=
  match a with
  | PushArg.value x => _push l x
  | PushArg.c_string s => Except.ok (_push_c_string l s)
  | PushArg.pointer _ t => Except.ok (_push_pointer l t)

/-- The function `_push_n(l, m, value, rest...)` with its base case `_push_n(l, m)`. -/
def _push_n_m (m : MetatableRegistry) : LuaRuntime → List PushArg → Res LuaRuntime
  | R, [] => Except.ok R
  | R, value :: rest =>
    match _push_m_arg R m value with
    | Except.error e => Except.error e
    | Except.ok R1 => _push_n_m m R1 rest

/-- The function `_push_dispatcher(l, m, values, _indices<N...>)`:
`_push_n(l, m, std::get<N>(values)...)`.  Modelled from the spec: the index pack built by
`_indices_builder` of `traits.h` is `0, ..., sizeof...(T) - 1`, so the arguments are the
elements of the tuple in their order. -/
def _push_dispatcher_m (m : MetatableRegistry) (R : LuaRuntime) (values : List PushArg) :
    Res LuaRuntime :=
  _push_n_m m R values

/-- The overloads `_push(l, m, std::tuple<>)` and `_push(l, m, const std::tuple<T...>&)`. -/
def _push_m_tuple (m : MetatableRegistry) (R : LuaRuntime) (values : List PushArg) :
    Res LuaRuntime :=
  match values with
  | [] => Except.ok R
  | _ :: _ => _push_dispatcher_m m R values

/-- The function `_push_n(l, value, rest...)` with its base case `_push_n(l)`. -/
def _push_n : lua_State → List PushArg → Res lua_State
  | l, [] => Except.ok l
  | l, value :: rest =>
    match _push_arg l value with
    | Except.error e => Except.error e
    | Except.ok l1 => _push_n l1 rest

/-- The function `_push_dispatcher(l, values, _indices<N...>)`. -/
def _push_dispatcher (l : lua_State) (values : List PushArg) : Res lua_State :=
  _push_n l values

/-- The overloads `_push(l, std::tuple<>)` and `_push(l, const std::tuple<T...>&)`. -/
def _push_tuple (l : lua_State) (values : List PushArg) : Res lua_State :=
  match values with
  | [] => Except.ok l
  | _ :: _ => _push_dispatcher l values

/-- The slots that the single-value push with registry adds for an element of a tuple. -/
def slots_m (a : PushArg) : List LuaVal :=
  match a with
  | PushArg.value (HostVal.bool b) => [LuaVal.boolean b]
  | PushArg.value (HostVal.char c) => [LuaVal.string (String.singleton c)]
  | PushArg.value (HostVal.int i) => [LuaVal.number (cast_num i)]
  | PushArg.value (HostVal.unsigned_int u) => [LuaVal.number (cast_num u)]
  | PushArg.value (HostVal.long i) => [LuaVal.number (cast_num i)]
  | PushArg.value (HostVal.long_unsigned_int u) => [LuaVal.number (cast_num (wrapUnsigned 32 u))]
  | PushArg.value (HostVal.lua_Number f) => [LuaVal.number f]
  | PushArg.value (HostVal.string s) => [LuaVal.string s]
  | PushArg.value (HostVal.Value v) => if v.IsNil then [] else [written v]
  | PushArg.c_string s => [LuaVal.string (c_str s)]
  | PushArg.pointer _ t => if t = 0 then [LuaVal.nil] else [LuaVal.lightuserdata t]

/-- The slots that the single-value push without registry adds for an element of a
tuple. -/
def slots (a : PushArg) : List LuaVal :=
  match a with
  | PushArg.value (HostVal.long_unsigned_int u) => [LuaVal.number (cast_num (wrapSigned 64 u))]
  | _ => slots_m a

/-! ## Functions used to state the routing of keys -/

/-- The `int` key under which the loop of the dynamic get files a pair, if it files it in
the integer map: the key is a number, or a string that denotes a number, converted by
`lua_tointeger` and narrowed to `int`. -/
def intKeyOf (k : LuaKey) : Option Int :=
  match luaV_tonumber k.toVal with
  | some n => some (wrapSigned 32 (lua_number2integer n))
  | none => none

/-- The string key under which the loop of the dynamic get files a pair, if it files it in
the string map: the key is a string that does not denote a number. -/
def strKeyOf (k : LuaKey) : Option String :=
  match luaV_tonumber k.toVal, k with
  | none, LuaKey.string x => some x
  | _, _ => none

/-- The last pair of a list of table entries whose key satisfies `p`. -/
def lastPair (p : LuaKey → Bool) (es : List (LuaKey × LuaVal)) : Option (LuaKey × LuaVal) :=
  es.reverse.find? (fun e => p e.1)

/-! ## Value.h: the objects behind a `Value`, references and copies

The tree `sel.Value` records what a `Value` holds.  The definitions of this section also
record where it is held: a `Value` object is one `std::shared_ptr<LuaValue>`, the `LuaValue`
objects live in a store, and a `Value&` names one `Value` object.  The use count of a shared
pointer is not recorded: no object of the store is ever freed. -/

namespace boxed

/-- Address of a `LuaValue` object: what a `std::shared_ptr<LuaValue>` holds. -/
abbrev Ptr := Nat

/-- The class `Value`: its only data member is `_value`. -/
structure Value where
  _value : Ptr
  deriving DecidableEq, Repr

/-- The class `Table`: the two maps, each kept in the order of its keys. -/
structure Table where
  _int_idx : List (Int × Value)
  _str_idx : List (String × Value)
  deriving DecidableEq, Repr

/-- The class `LuaValue`: one constructor per subclass, with the member `_value` of
`BaseValue`. -/
inductive LuaValue where
  | NilValue
  | BoolValue (_value : Bool)
  | CharValue (_value : Char)
  | IntValue (_value : Int)
  | LongValue (_value : Int)
  | DoubleValue (_value : lua_Number)
  | StringValue (_value : String)
  | TableValue (_value : Table)
  deriving DecidableEq

/-- The virtual function `type()`: the tag of the subclass. -/
def LuaValue.type : LuaValue → ValueType
  | NilValue => ValueType.Nil
  | BoolValue _ => ValueType.Boolean
  | CharValue _ => ValueType.Char
  | IntValue _ => ValueType.Integer
  | LongValue _ => ValueType.Long
  | DoubleValue _ => ValueType.Double
  | StringValue _ => ValueType.String
  | TableValue _ => ValueType.Table

/-- The struct `Statics`. -/
structure Statics where
  nil : Value
  empty_string : String
  empty_table : Table
  deriving DecidableEq

/-- The objects of the running process: the `LuaValue` objects, the one at address `p` at
position `p`, and the function-local static `s` of `statics()`, absent until the first call
of `statics()`. -/
structure Memory where
  objects : List LuaValue
  s : Option Statics
  deriving DecidableEq

/-- The call `std::make_shared<T>(...)`: a new object at a new address. -/
def make_shared (m : Memory) (b : LuaValue) : Ptr × Memory :=
  (m.objects.length, { m with objects := m.objects ++ [b] })

/-- The constructor `Value::Value()`. -/
def Value.default (m : Memory) : Value × Memory :=
  let r := make_shared m LuaValue.NilValue
  ({ _value := r.1 }, r.2)

/-- The constructor `Value::Value(std::map<int, Value>)`. -/
def Value.of_int_map (m : Memory) (value : List (Int × Value)) : Value × Memory :=
  let r := make_shared m (LuaValue.TableValue { _int_idx := value, _str_idx := [] })
  ({ _value := r.1 }, r.2)

/-- The constructor `Value::Value(int)`. -/
def Value.of_int (m : Memory) (value : Int) : Value × Memory :=
  let r := make_shared m (LuaValue.IntValue value)
  ({ _value := r.1 }, r.2)

/-- The copy constructor `Value::Value(const Value& v) : _value(v._value)`. -/
def Value.copy (m : Memory) (v : Value) : Value × Memory :=
  ({ _value := v._value }, m)

/-- The function `statics()`: the first call constructs the static `Statics`, whose member
`nil` is a default constructed `Value`; every call returns that one object. -/
def statics (m : Memory) : Statics × Memory :=
  match m.s with
  | some s => (s, m)
  | none =>
    let r := Value.default m
    let s : Statics :=
      { nil := r.1, empty_string := "", empty_table := { _int_idx := [], _str_idx := [] } }
    (s, { r.2 with s := some s })

/-- A `Value&`: the `Value` object it names, which is the member `nil` of the static
`Statics` or the mapped value of a key in one of the two maps of the table object at
`box`. -/
inductive ValueRef where
  | statics_nil
  | int_slot (box : Ptr) (key : Int)
  | str_slot (box : Ptr) (key : String)
  deriving DecidableEq

/-- The lookup of a key in a `std::map`. -/
def map_find {K : Type} [DecidableEq K] : List (K × Value) → K → Option Value
  | [], _ => none
  | (k1, v1) :: r, k => if k1 = k then some v1 else map_find r k

/-- The insertion of an absent key into a `std::map`, at its place in the key order. -/
def map_insert {K : Type} [LinearOrder K] : List (K × Value) → K → Value → List (K × Value)
  | [], k, v => [(k, v)]
  | (k1, v1) :: r, k, v =>
    if k < k1 then (k, v) :: (k1, v1) :: r else (k1, v1) :: map_insert r k v

/-- The mapped value of key `k` of a `std::map` is overwritten. -/
def map_put {K : Type} [DecidableEq K] : List (K × Value) → K → Value → List (K × Value)
  | [], _, _ => []
  | (k1, v1) :: r, k, v => if k1 = k then (k1, v) :: r else (k1, v1) :: map_put r k v

/-- The virtual `operator[](size_t i)` of the object at `this`.  `LuaValue` returns
`statics().nil`; `TableValue` overrides it with `_value[i]`, which is `_int_idx[i]`: the
`size_t` is converted to the key type `int`, and a key that is absent is first inserted
with a default constructed `Value`. -/
def LuaValue.index_int (m : Memory) (this : Ptr) (i : Nat) : Res (ValueRef × Memory) :=
  match m.objects[this]? with
  | none => Except.error Fault.apiViolation
  | some (LuaValue.TableValue t) =>
    let k := wrapSigned 32 (Int.ofNat (i % 2 ^ 64))
    match map_find t._int_idx k with
    | some _ => Except.ok (ValueRef.int_slot this k, m)
    | none =>
      let r := Value.default m
      Except.ok (ValueRef.int_slot this k,
        { r.2 with
          objects := r.2.objects.set this
            (LuaValue.TableValue { t with _int_idx := map_insert t._int_idx k r.1 }) })
  | some _ => Except.ok (ValueRef.statics_nil, (statics m).2)

/-- The virtual `operator[](const std::string& s)` of the object at `this`. -/
def LuaValue.index_str (m : Memory) (this : Ptr) (s : String) : Res (ValueRef × Memory) :=
  match m.objects[this]? with
  | none => Except.error Fault.apiViolation
  | some (LuaValue.TableValue t) =>
    match map_find t._str_idx s with
    | some _ => Except.ok (ValueRef.str_slot this s, m)
    | none =>
      let r := Value.default m
      Except.ok (ValueRef.str_slot this s,
        { r.2 with
          objects := r.2.objects.set this
            (LuaValue.TableValue { t with _str_idx := map_insert t._str_idx s r.1 }) })
  | some _ => Except.ok (ValueRef.statics_nil, (statics m).2)

/-- The function `Value::type()`: `_value->type()`. -/
def Value.type (m : Memory) (v : Value) : Res ValueType :=
  match m.objects[v._value]? with
  | none => Except.error Fault.apiViolation
  | some b => Except.ok b.type

/-- The function `Value::operator[](size_t i)`: `(*_value)[i]`. -/
def Value.index_int (m : Memory) (v : Value) (i : Nat) : Res (ValueRef × Memory) :=
  LuaValue.index_int m v._value i

/-- The function `Value::operator[](const std::string& s)`: `(*_value)[s]`. -/
def Value.index_str (m : Memory) (v : Value) (s : String) : Res (ValueRef × Memory) :=
  LuaValue.index_str m v._value s

/-- The function `Value::operator[](const char* s)`: `(*_value)[std::string(s)]`. -/
def Value.index_c_str (m : Memory) (v : Value) (s : String) : Res (ValueRef × Memory) :=
  LuaValue.index_str m v._value (c_str s)

/-- Reading the `Value` object that a `Value&` names. -/
def ValueRef.load (m : Memory) : ValueRef → Res Value
  | ValueRef.statics_nil =>
    match m.s with
    | some s => Except.ok s.nil
    | none => Except.error Fault.apiViolation
  | ValueRef.int_slot box key =>
    match m.objects[box]? with
    | some (LuaValue.TableValue t) =>
      match map_find t._int_idx key with
      | some x => Except.ok x
      | none => Except.error Fault.apiViolation
    | _ => Except.error Fault.apiViolation
  | ValueRef.str_slot box key =>
    match m.objects[box]? with
    | some (LuaValue.TableValue t) =>
      match map_find t._str_idx key with
      | some x => Except.ok x
      | none => Except.error Fault.apiViolation
    | _ => Except.error Fault.apiViolation

/-- The assignment `r = x` through a `Value&`: the implicit copy assignment of `Value`,
which assigns the member `_value`. -/
def ValueRef.assign (m : Memory) (r : ValueRef) (x : Value) : Res Memory :=
  match r with
  | ValueRef.statics_nil =>
    match m.s with
    | some s => Except.ok { m with s := some { s with nil := { _value := x._value } } }
    | none => Except.error Fault.apiViolation
  | ValueRef.int_slot box key =>
    match m.objects[box]? with
    | some (LuaValue.TableValue t) =>
      match map_find t._int_idx key with
      | some _ =>
        Except.ok { m with
          objects := m.objects.set box
            (LuaValue.TableValue
              { t with _int_idx := map_put t._int_idx key { _value := x._value } }) }
      | none => Except.error Fault.apiViolation
    | _ => Except.error Fault.apiViolation
  | ValueRef.str_slot box key =>
    match m.objects[box]? with
    | some (LuaValue.TableValue t) =>
      match map_find t._str_idx key with
      | some _ =>
        Except.ok { m with
          objects := m.objects.set box
            (LuaValue.TableValue
              { t with _str_idx := map_put t._str_idx key { _value := x._value } }) }
      | none => Except.error Fault.apiViolation
    | _ => Except.error Fault.apiViolation

/-- A key of `operator[]`: a `size_t` or a string. -/
inductive Key where
  | index (i : Nat)
  | name (s : String)
  deriving DecidableEq

/-- The expression `v[k]`. -/
def Value.index (m : Memory) (v : Value) : Key → Res (ValueRef × Memory)
  | Key.index i => v.index_int m i
  | Key.name s => v.index_str m s

/-- The statements `w[k] = x;` followed by the read of `v[k]`: the `Value` that the read
yields and the memory after it. -/
def assign_then_read (m : Memory) (w v : Value) (k : Key) (x : Value) : Res (Value × Memory) :=
  match w.index m k with
  | Except.error e => Except.error e
  | Except.ok (r, m1) =>
    match r.assign m1 x with
    | Except.error e => Except.error e
    | Except.ok m2 =>
      match v.index m2 k with
      | Except.error e => Except.error e
      | Except.ok (r2, m3) =>
        match r2.load m3 with
        | Except.error e => Except.error e
        | Except.ok y => Except.ok (y, m3)

/-- A memory with a table object at address 0, an `IntValue` at address 1 and a
`StringValue` at address 2, in which `statics()` has not been called. -/
def memory_T : Memory :=
  { objects := [LuaValue.TableValue { _int_idx := [], _str_idx := [] }, LuaValue.IntValue 7,
      LuaValue.StringValue "s"],
    s := none }

end boxed

/-! ## Functions used to state the tags of the dynamic get -/

mutual
/-- The tag of the value, and of every value nested in it, is one of Nil, Boolean, Double,
String and Table. -/
def Value.tagsOfGet : Value → Bool
  | Value.NilValue => true
  | Value.BoolValue _ => true
  | Value.CharValue _ => false
  | Value.IntValue _ => false
  | Value.LongValue _ => false
  | Value.DoubleValue _ => true
  | Value.StringValue _ => true
  | Value.TableValue im sm => tagsOfGetInt im && tagsOfGetStr sm
/-- The property `Value.tagsOfGet` for the values of an integer map. -/
def tagsOfGetInt : List (Int × Value) → Bool
  | [] => true
  | (_, v) :: r => v.tagsOfGet && tagsOfGetInt r
/-- The property `Value.tagsOfGet` for the values of a string map. -/
def tagsOfGetStr : List (String × Value) → Bool
  | [] => true
  | (_, v) :: r => v.tagsOfGet && tagsOfGetStr r
end

/-! ## Basic facts about the stack -/

theorem index2addr_top (l : lua_State) (h : l.stack ≠ []) :
    index2addr l (-1) = some (l.stack.length - 1) := by
  have hpos : 0 < l.stack.length := List.length_pos.mpr h
  unfold index2addr lua_gettop
  have h1 : ¬ ((0 : Int) < -1 ∧ (-1 : Int) ≤ (l.stack.length : Int)) := by omega
  have h2 : ((-1 : Int) < 0 ∧ -(-1 : Int) ≤ (l.stack.length : Int)) := by omega
  rw [if_neg h1, if_pos h2]
  congr 1
  omega

theorem slot_top (l : lua_State) (h : l.stack ≠ []) :
    l.slot (-1) = l.stack.getLast? := by
  unfold lua_State.slot
  rw [index2addr_top l h, List.getLast?_eq_getElem?]

theorem slot_push_top (l : lua_State) (v : LuaVal) : (l.push v).slot (-1) = some v := by
  rw [slot_top _ (by simp [lua_State.push])]
  simp [lua_State.push]

theorem index2addr_push_top (l : lua_State) (v : LuaVal) :
    index2addr (l.push v) (-1) = some l.stack.length := by
  rw [index2addr_top _ (by simp [lua_State.push])]
  simp [lua_State.push]

theorem lua_settop_zero (l : lua_State) : lua_settop l 0 = Except.ok { l with stack := [] } := by
  simp [lua_settop]

theorem lua_pop_one (l : lua_State) (h : l.stack ≠ []) :
    lua_pop l 1 = Except.ok { l with stack := l.stack.dropLast } := by
  have hpos : 0 < l.stack.length := List.length_pos.mpr h
  unfold lua_pop lua_settop lua_gettop
  have h1 : ¬ ((0 : Int) ≤ -1 - 1) := by omega
  have h2 : -((-1 - 1 : Int) + 1) ≤ (l.stack.length : Int) := by omega
  rw [if_neg h1, if_pos h2]
  have h3 : ((l.stack.length : Int) + (-1 - 1) + 1).toNat = l.stack.length - 1 := by omega
  rw [h3, List.dropLast_eq_take]

/-! ## Numeric conversions -/

theorem truncQ_intCast (i : Int) : truncQ ((i : Int) : ℚ) = i := by
  simp [truncQ]

theorem wrapSigned_of_inSigned32 (i : Int) (h : inSigned 32 i) : wrapSigned 32 i = i := by
  unfold inSigned at h
  unfold wrapSigned
  norm_num at h ⊢
  omega

theorem wrapSigned_of_inSigned64 (i : Int) (h : inSigned 64 i) : wrapSigned 64 i = i := by
  unfold inSigned at h
  unfold wrapSigned
  norm_num at h ⊢
  omega

theorem cast_num_exact_lt (i : Int) (h : i.natAbs < 2 ^ 53) : cast_num i = ((i : Int) : ℚ) := by
  unfold cast_num
  simp only [h, if_true, pow_zero, Nat.div_one, Nat.mod_one, Nat.mul_one, Nat.lt_irrefl,
    false_and, or_false, Nat.not_lt_zero, if_false, Nat.reduceDiv]
  rw [Int.sign_mul_natAbs]

theorem cast_num_exact (i : Int) (h : -(2 ^ 53) ≤ i ∧ i ≤ 2 ^ 53) :
    cast_num i = ((i : Int) : ℚ) := by
  by_cases h1 : i.natAbs < 2 ^ 53
  · exact cast_num_exact_lt i h1
  · have h2 : i = 2 ^ 53 ∨ i = -(2 ^ 53) := by omega
    rcases h2 with h2 | h2 <;> subst h2 <;> decide

theorem lua_number2integer_intCast (i : Int) (h : inSigned 64 i) :
    lua_number2integer ((i : Int) : ℚ) = i := by
  unfold lua_number2integer fpToSigned
  rw [truncQ_intCast, if_pos h]

/-! ## C1: round trip of the primitive host types -/

/-- C1, as stated, fails for `long`: the value `2^53 + 1` is a `long`, it is pushed as the
number `2^53`, and the getter returns `2^53`. -/
theorem long_round_trip_counterexample :
    inSigned 64 9007199254740993 ∧
    _get_long (_push_long { stack := [] } 9007199254740993) (-1) = 9007199254740992 := by
  decide

/-- C1 (amended): on any stack, pushing a primitive host value and reading the new top
slot with the getter of the same type returns the value, for every `bool`, `char`, `int`
(32 bits), `double` and `std::string` (empty strings and embedded NULs included), and for
every `long` between `-2^53` and `2^53`. -/
theorem primitive_round_trip (l : lua_State) :
    (∀ b : Bool, _get_bool (_push_bool l b) (-1) = b) ∧
    (∀ c : Char, _get_char (_push_char l c) (-1) = Except.ok (c, _push_char l c)) ∧
    (∀ i : Int, inSigned 32 i → _get_int (_push_int l i) (-1) = i) ∧
    (∀ i : Int, -(2 ^ 53) ≤ i ∧ i ≤ 2 ^ 53 → _get_long (_push_long l i) (-1) = i) ∧
    (∀ d : lua_Number, _get_lua_Number (_push_lua_Number l d) (-1) = d) ∧
    (∀ s : String, _get_string (_push_string l s) (-1) = (s, _push_string l s)) := by
  refine ⟨?_, ?_, ?_, ?_, ?_, ?_⟩
  · intro b
    simp [_get_bool, _push_bool, lua_pushboolean, lua_toboolean, slot_push_top]
  · intro c
    simp [_get_char, _push_char, lua_pushlstring, lua_tostring, lua_tolstring, slot_push_top,
      index2addr_push_top, string_front, String.singleton]
  · intro i hi
    have h53 : -(2 ^ 53) ≤ i ∧ i ≤ 2 ^ 53 := by
      unfold inSigned at hi; norm_num at hi ⊢; omega
    have h64 : inSigned 64 i := by
      unfold inSigned at hi ⊢; norm_num at hi ⊢; omega
    simp only [_get_int, _push_int, lua_pushinteger, lua_tointeger, slot_push_top,
      luaV_tonumber, cast_num_exact i h53, lua_number2integer_intCast i h64]
    exact wrapSigned_of_inSigned32 i hi
  · intro i hi
    have h64 : inSigned 64 i := by
      unfold inSigned; norm_num; omega
    simp only [_get_long, _push_long, lua_pushinteger, lua_tointeger, slot_push_top,
      luaV_tonumber, cast_num_exact i hi, lua_number2integer_intCast i h64]
  · intro d
    simp [_get_lua_Number, _push_lua_Number, lua_pushnumber, lua_tonumber, slot_push_top,
      luaV_tonumber]
  · intro s
    simp [_get_string, _push_string, lua_pushlstring, lua_tolstring, slot_push_top,
      index2addr_push_top]

/-- C1 (amended), at concrete values: the least `int`, the `long` `2^53`, the empty string
and a string with an embedded NUL, on a stack that already holds a slot. -/
theorem primitive_round_trip_witness :
    _get_int (_push_int { stack := [LuaVal.nil] } (-2147483648)) (-1) = -2147483648 ∧
    _get_long (_push_long { stack := [LuaVal.nil] } 9007199254740992) (-1)
      = 9007199254740992 ∧
    (_get_string (_push_string { stack := [LuaVal.nil] } "") (-1)).1 = "" ∧
    (_get_string (_push_string { stack := [LuaVal.nil] } "a\x00b") (-1)).1 = "a\x00b" :=
  ⟨(primitive_round_trip { stack := [LuaVal.nil] }).2.2.1 (-2147483648) (by decide),
   (primitive_round_trip { stack := [LuaVal.nil] }).2.2.2.1 9007199254740992 (by decide),
   by rw [(primitive_round_trip { stack := [LuaVal.nil] }).2.2.2.2.2 ""],
   by rw [(primitive_round_trip { stack := [LuaVal.nil] }).2.2.2.2.2 "a\x00b"]⟩

/-! ## C3: accessors of a `Value` whose kind does not match the tag -/

/-- C3, as stated, fails: a Double-tagged value answers `int_value()` with its truncation,
not with the default 0, and a String-tagged value answers `char_value()` with its first
character, not with NUL. -/
theorem accessor_default_counterexample :
    (Value.DoubleValue (mkRat 37 10)).type ≠ ValueType.Integer ∧
    (Value.DoubleValue (mkRat 37 10)).int_value = 3 ∧
    (Value.StringValue "abc").type ≠ ValueType.Char ∧
    (Value.StringValue "abc").char_value = 'a' := by
  decide

/-- C3 (amended): every accessor is a total function, and on a value whose tag is not the
accessor's kind it returns its fixed default (false, NUL, 0, 0, 0, the empty string),
with three exceptions: `int_value()` and `long_value()` of a Double-tagged value are the
truncated double, and `char_value()` of a String-tagged value is the first character of the
string (NUL for the empty string). -/
theorem accessor_defaults (v : Value) :
    (v.type ≠ ValueType.Boolean → v.bool_value = false) ∧
    (v.type ≠ ValueType.Char → v.type ≠ ValueType.String → v.char_value = NUL) ∧
    (v.type = ValueType.String → v.char_value = string_front v.string_value) ∧
    (v.type ≠ ValueType.Integer → v.type ≠ ValueType.Double → v.int_value = 0) ∧
    (v.type = ValueType.Double → v.int_value = fpToSigned 32 v.double_value) ∧
    (v.type ≠ ValueType.Long → v.type ≠ ValueType.Double → v.long_value = 0) ∧
    (v.type = ValueType.Double → v.long_value = fpToSigned 64 v.double_value) ∧
    (v.type ≠ ValueType.Double → v.double_value = 0) ∧
    (v.type ≠ ValueType.String → v.string_value = "") := by
  cases v <;>
    simp [Value.type, Value.bool_value, Value.char_value, Value.int_value, Value.long_value,
      Value.double_value, Value.string_value, NUL, statics]

/-- C3 (amended), at the two values named by the claim: `int_value()` of a String-tagged
value is 0 and `bool_value()` of a Table-tagged value is false. -/
theorem accessor_defaults_witness :
    (Value.StringValue "abc").int_value = 0 ∧
    (Value.TableValue [(1, Value.NilValue)] []).bool_value = false :=
  ⟨(accessor_defaults (Value.StringValue "abc")).2.2.2.1 (by decide) (by decide),
   (accessor_defaults (Value.TableValue [(1, Value.NilValue)] [])).1 (by decide)⟩

/-! ## C7: popping with an empty type list -/

/-- C7, as stated, fails for the pop-N flavour: `_pop_n<>` on a stack of depth 2 returns
nothing and leaves both slots on the stack. -/
theorem pop_n_empty_counterexample :
    _pop_n 0 [] { stack := [LuaVal.number 1, LuaVal.number 2] }
      = Except.ok (PopResult.void, { stack := [LuaVal.number 1, LuaVal.number 2] }) ∧
    ([LuaVal.number 1, LuaVal.number 2] : List LuaVal).length ≠ 0 := by
  decide

/-- C7 (amended): with an empty type list both flavours return nothing; `_pop_n<>` removes
no slot and leaves the stack as it is, `_pop_n_reset<>` leaves the stack with length 0,
whatever the prior depth. -/
theorem pop_n_empty (fuel : Nat) (l : lua_State) :
    _pop_n fuel [] l = Except.ok (PopResult.void, l) ∧
    ∃ l1, _pop_n_reset fuel [] l = Except.ok (PopResult.void, l1) ∧ l1.stack.length = 0 := by
  refine ⟨rfl, { l with stack := [] }, ?_, rfl⟩
  simp [_pop_n_reset, lua_settop_zero]

/-! ## The dynamic get on the top of the stack -/

theorem index2addr_neg (l : lua_State) (n : Nat) (h1 : 0 < n) (h2 : n ≤ l.stack.length) :
    index2addr l (-(n : Int)) = some (l.stack.length - n) := by
  unfold index2addr lua_gettop
  have h3 : ¬ ((0 : Int) < -(n : Int) ∧ -(n : Int) ≤ (l.stack.length : Int)) := by omega
  have h4 : (-(n : Int) < 0 ∧ -(-(n : Int)) ≤ (l.stack.length : Int)) := by omega
  rw [if_neg h3, if_pos h4]
  congr 1
  omega

theorem slot_last (s : List LuaVal) (a : LuaVal) :
    (lua_State.mk (s ++ [a])).slot (-1) = some a := by
  rw [slot_top _ (by simp)]
  simp

theorem index2addr_last2 (s : List LuaVal) (a b : LuaVal) :
    index2addr (lua_State.mk (s ++ [a, b])) (-2) = some s.length := by
  have h := index2addr_neg (lua_State.mk (s ++ [a, b])) 2 (by omega) (by simp)
  simp only [List.length_append, List.length_cons, List.length_nil] at h
  rw [show (-2 : Int) = -((2 : Nat) : Int) from rfl, h]
  congr 1

theorem slot_last2 (s : List LuaVal) (a b : LuaVal) :
    (lua_State.mk (s ++ [a, b])).slot (-2) = some a := by
  unfold lua_State.slot
  rw [index2addr_last2]
  show (s ++ [a, b])[s.length]? = some a
  rw [List.getElem?_append_right (Nat.le_refl _)]
  simp

theorem lua_pop_last (s : List LuaVal) (a : LuaVal) :
    lua_pop (lua_State.mk (s ++ [a])) 1 = Except.ok (lua_State.mk s) := by
  rw [lua_pop_one _ (by simp)]
  simp

theorem toKey_toVal (k : LuaKey) : k.toVal.toKey = some k := by
  cases k <;> rfl

theorem toVal_ne_nil (k : LuaKey) : k.toVal ≠ LuaVal.nil := by
  cases k <;> simp [LuaKey.toVal]

theorem luaH_after_mid (pre post : List (LuaKey × LuaVal)) (k : LuaKey) (v : LuaVal)
    (h : k ∉ pre.map Prod.fst) :
    luaH_after (pre ++ (k, v) :: post) k = some post.head? := by
  induction pre with
  | nil => simp [luaH_after]
  | cons e pre ih =>
    obtain ⟨k1, v1⟩ := e
    simp only [List.map_cons, List.mem_cons, not_or] at h
    simp only [List.cons_append, luaH_after]
    rw [if_neg (fun hk => h.1 hk.symm)]
    exact ih h.2

theorem luaH_next_mid (pre post : List (LuaKey × LuaVal)) (k : LuaKey) (v : LuaVal)
    (h : ((pre ++ (k, v) :: post).map Prod.fst).Nodup) :
    luaH_next (pre ++ (k, v) :: post) k.toVal = some post.head? := by
  unfold luaH_next
  rw [if_neg (toVal_ne_nil k), toKey_toVal]
  apply luaH_after_mid
  rw [List.map_append, List.map_cons, List.nodup_append] at h
  intro hk
  exact h.2.2 hk (List.mem_cons_self _ _)

theorem slot_last3_mid (s : List LuaVal) (a b c : LuaVal) :
    (lua_State.mk (s ++ [a, b, c])).slot (-2) = some b := by
  have h := slot_last2 (s ++ [a]) b c
  simpa using h

theorem slot_last3_top (s : List LuaVal) (a b c : LuaVal) :
    (lua_State.mk (s ++ [a, b, c])).slot (-1) = some c := by
  have h := slot_last (s ++ [a, b]) c
  simpa using h

theorem index2addr_last3_mid (s : List LuaVal) (a b c : LuaVal) :
    index2addr (lua_State.mk (s ++ [a, b, c])) (-2) = some (s.length + 1) := by
  have h := index2addr_last2 (s ++ [a]) b c
  simpa using h

theorem lua_next_more (s : List LuaVal) (es : List (LuaKey × LuaVal)) (key : LuaVal)
    (k : LuaKey) (v : LuaVal) (h : luaH_next es key = some (some (k, v))) :
    lua_next (lua_State.mk (s ++ [LuaVal.table es, key])) (-2)
      = Except.ok (true, lua_State.mk (s ++ [LuaVal.table es, k.toVal, v])) := by
  unfold lua_next
  rw [slot_last2]
  have hl : (s ++ [LuaVal.table es, key]).getLast? = some key := by simp
  simp only [hl, h]
  have hd : (s ++ [LuaVal.table es, key]).dropLast = s ++ [LuaVal.table es] := by
    rw [show s ++ [LuaVal.table es, key] = (s ++ [LuaVal.table es]) ++ [key] by simp]
    exact List.dropLast_concat
  rw [hd]
  simp

theorem lua_next_done (s : List LuaVal) (es : List (LuaKey × LuaVal)) (key : LuaVal)
    (h : luaH_next es key = some none) :
    lua_next (lua_State.mk (s ++ [LuaVal.table es, key])) (-2)
      = Except.ok (false, lua_State.mk (s ++ [LuaVal.table es])) := by
  unfold lua_next
  rw [slot_last2]
  have hl : (s ++ [LuaVal.table es, key]).getLast? = some key := by simp
  simp only [hl, h]
  have hd : (s ++ [LuaVal.table es, key]).dropLast = s ++ [LuaVal.table es] := by
    rw [show s ++ [LuaVal.table es, key] = (s ++ [LuaVal.table es]) ++ [key] by simp]
    exact List.dropLast_concat
  rw [hd]

theorem lua_pop_last3 (s : List LuaVal) (a b c : LuaVal) :
    lua_pop (lua_State.mk (s ++ [a, b, c])) 1 = Except.ok (lua_State.mk (s ++ [a, b])) := by
  have h := lua_pop_last (s ++ [a, b]) c
  simpa using h

theorem get_Value_loop_step (n : Nat) (s : List LuaVal) (es : List (LuaKey × LuaVal))
    (k : LuaKey) (v : LuaVal) (t : Table)
    (hv : _get_Value n (lua_State.mk (s ++ [LuaVal.table es, k.toVal, v])) (-1)
      = Except.ok (materialize v, lua_State.mk (s ++ [LuaVal.table es, k.toVal, v]))) :
    (if lua_isnumber (lua_State.mk (s ++ [LuaVal.table es, k.toVal, v])) (-2) then
        match _get_Value n (lua_State.mk (s ++ [LuaVal.table es, k.toVal, v])) (-1) with
        | Except.error e => Except.error e
        | Except.ok (w, l2) =>
          Except.ok (t.assign_int (wrapUnsigned 64
            (_get_int (lua_State.mk (s ++ [LuaVal.table es, k.toVal, v])) (-2))) w, l2)
      else if lua_isstring (lua_State.mk (s ++ [LuaVal.table es, k.toVal, v])) (-2) then
        match _get_Value n
          (_get_string (lua_State.mk (s ++ [LuaVal.table es, k.toVal, v])) (-2)).2 (-1) with
        | Except.error e => Except.error e
        | Except.ok (w, l2) =>
          Except.ok (t.assign_str
            (_get_string (lua_State.mk (s ++ [LuaVal.table es, k.toVal, v])) (-2)).1 w, l2)
      else Except.ok (t, lua_State.mk (s ++ [LuaVal.table es, k.toVal, v])))
    = (Except.ok (routeKey k (materialize v) t,
        lua_State.mk (s ++ [LuaVal.table es, k.toVal, v])) : Res (Table × lua_State)) := by
  unfold lua_isnumber lua_isstring lua_type routeKey
  rw [slot_last3_mid]
  cases hk : luaV_tonumber k.toVal with
  | some x =>
    simp only [Option.isSome_some, if_true, hv, _get_int, lua_tointeger, slot_last3_mid, hk]
  | none =>
    cases k with
    | number x => simp [LuaKey.toVal, luaV_tonumber] at hk
    | boolean b =>
      simp only [LuaKey.toVal] at hk ⊢
      simp [LuaVal.ttype, hk]
    | lightuserdata q =>
      simp only [LuaKey.toVal] at hk ⊢
      simp [LuaVal.ttype, hk]
    | string x =>
      have hs : _get_string (lua_State.mk (s ++ [LuaVal.table es, LuaVal.string x, v])) (-2)
          = (x, lua_State.mk (s ++ [LuaVal.table es, LuaVal.string x, v])) := by
        unfold _get_string lua_tolstring
        rw [index2addr_last3_mid, slot_last3_mid]
      simp only [LuaKey.toVal] at hk hv ⊢
      simp [LuaVal.ttype, hs, hv, hk]

theorem get_Value_top_aux (fuel : Nat) :
    (∀ (v : LuaVal) (s : List LuaVal), v.wf = true → v.size ≤ fuel →
      _get_Value fuel (lua_State.mk (s ++ [v])) (-1)
        = Except.ok (materialize v, lua_State.mk (s ++ [v]))) ∧
    (∀ (post pre : List (LuaKey × LuaVal)) (s : List LuaVal) (key : LuaVal) (t : Table),
      ((pre ++ post).map Prod.fst).Nodup → wfEntries post = true →
      1 + sizeEntries post ≤ fuel →
      luaH_next (pre ++ post) key = some post.head? →
      _get_Value_loop fuel (lua_State.mk (s ++ [LuaVal.table (pre ++ post), key])) t
        = Except.ok (materializeEntries post t,
            lua_State.mk (s ++ [LuaVal.table (pre ++ post)]))) := by
  induction fuel with
  | zero =>
    constructor
    · intro v s _ hs
      cases v <;> simp [LuaVal.size] at hs
    · intro post pre s key t _ _ hs _
      omega
  | succ n ih =>
    constructor
    · intro v s hwf hs
      cases v with
      | nil =>
        simp [_get_Value, lua_isnil, lua_type, slot_last, LuaVal.ttype, materialize]
      | boolean b =>
        simp [_get_Value, lua_isnil, lua_isboolean, lua_type, slot_last, LuaVal.ttype,
          materialize, _get_bool, lua_toboolean]
      | number x =>
        simp [_get_Value, lua_isnil, lua_isboolean, lua_isnumber, lua_type, slot_last,
          LuaVal.ttype, materialize, _get_lua_Number, lua_tonumber, luaV_tonumber]
      | string x =>
        have hi : index2addr (lua_State.mk (s ++ [LuaVal.string x])) (-1) = some s.length := by
          rw [index2addr_top _ (by simp)]; simp
        cases hx : luaO_str2d x with
        | some y =>
          simp [_get_Value, lua_isnil, lua_isboolean, lua_isnumber, lua_type, slot_last,
            LuaVal.ttype, materialize, _get_lua_Number, lua_tonumber, luaV_tonumber, hx]
        | none =>
          simp [_get_Value, lua_isnil, lua_isboolean, lua_isnumber, lua_isstring, lua_type,
            slot_last, LuaVal.ttype, materialize, luaV_tonumber, hx, _get_string,
            lua_tolstring, hi]
      | lightuserdata q =>
        simp [_get_Value, lua_isnil, lua_isboolean, lua_isnumber, lua_isstring, lua_istable,
          lua_type, slot_last, LuaVal.ttype, materialize, luaV_tonumber]
      | table es =>
        simp only [LuaVal.wf, Bool.and_eq_true, decide_eq_true_eq] at hwf
        simp only [LuaVal.size] at hs
        have hloop := ih.2 es [] s LuaVal.nil Table.empty (by simpa using hwf.1) hwf.2
          (by omega) (by simp [luaH_next])
        simp only [List.nil_append] at hloop
        have hp : lua_pushnil (lua_State.mk (s ++ [LuaVal.table es]))
            = lua_State.mk (s ++ [LuaVal.table es, LuaVal.nil]) := by
          simp [lua_pushnil, lua_State.push]
        simp [_get_Value, lua_isnil, lua_isboolean, lua_isnumber, lua_isstring, lua_istable,
          lua_type, slot_last, LuaVal.ttype, materialize, luaV_tonumber, luaL_checktype, hp,
          hloop]
    · intro post pre s key t hnd hwf hs hnext
      cases post with
      | nil =>
        simp only [List.head?_nil, List.append_nil] at hnext ⊢
        simp only [_get_Value_loop, lua_next_done s _ key hnext, materializeEntries]
      | cons e r =>
        obtain ⟨k, v⟩ := e
        simp only [List.head?_cons] at hnext
        simp only [wfEntries, Bool.and_eq_true] at hwf
        simp only [sizeEntries] at hs
        have hv := ih.1 v (s ++ [LuaVal.table (pre ++ (k, v) :: r), k.toVal]) hwf.1 (by omega)
        simp only [List.append_assoc, List.cons_append, List.nil_append] at hv
        have hstep := get_Value_loop_step n s (pre ++ (k, v) :: r) k v t hv
        have he : pre ++ (k, v) :: r = (pre ++ [(k, v)]) ++ r := by simp
        have hrest := ih.2 r (pre ++ [(k, v)]) s k.toVal (routeKey k (materialize v) t)
          (by rw [← he]; exact hnd) hwf.2 (by omega)
          (by rw [← he]; exact luaH_next_mid pre r k v hnd)
        rw [← he] at hrest
        simp only [_get_Value_loop, lua_next_more s _ key k v hnext, hstep, lua_pop_last3,
          hrest, materializeEntries]

/-- The dynamic get on the top slot: with enough fuel it returns the materialisation of
the value on top and leaves the stack as it was. -/
theorem get_Value_top (v : LuaVal) (s : List LuaVal) (fuel : Nat) (hwf : v.wf = true)
    (hs : v.size ≤ fuel) :
    _get_Value fuel (lua_State.mk (s ++ [v])) (-1)
      = Except.ok (materialize v, lua_State.mk (s ++ [v])) :=
  (get_Value_top_aux fuel).1 v s hwf hs

/-! ## The dynamic get leaves the stack as it was -/

theorem lua_State_eq_of_stack (l1 l2 : lua_State) (h : l1.stack = l2.stack) : l1 = l2 := by
  cases l1; cases l2; simp_all

theorem lua_next_false_stack (l l1 : lua_State) (idx : Int)
    (h : lua_next l idx = Except.ok (false, l1)) : l1.stack = l.stack.dropLast := by
  unfold lua_next at h
  split at h
  · rename_i es key _ _
    split at h
    · simp at h
    · simp only [Except.ok.injEq, Prod.mk.injEq, true_and] at h
      rw [← h]
    · simp at h
  · simp at h

theorem lua_next_true_stack (l l1 : lua_State) (idx : Int)
    (h : lua_next l idx = Except.ok (true, l1)) :
    ∃ k v, l1.stack = l.stack.dropLast ++ [LuaKey.toVal k, v] := by
  unfold lua_next at h
  split at h
  · rename_i es key _ _
    split at h
    · simp at h
    · simp at h
    · rename_i k v _
      simp only [Except.ok.injEq, Prod.mk.injEq, true_and] at h
      exact ⟨k, v, by rw [← h]⟩
  · simp at h

theorem lua_pop_one_stack (l l1 : lua_State) (h : lua_pop l 1 = Except.ok l1) :
    l1.stack = l.stack.dropLast := by
  unfold lua_pop lua_settop lua_gettop at h
  have h1 : ¬ ((0 : Int) ≤ -1 - 1) := by omega
  rw [if_neg h1] at h
  split at h
  · simp only [Except.ok.injEq] at h
    rw [← h, List.dropLast_eq_take]
    have h3 : ((l.stack.length : Int) + (-1 - 1) + 1).toNat = l.stack.length - 1 := by omega
    rw [h3]
  · simp at h

theorem get_string_frame (l : lua_State) (idx : Int) (h : lua_isnumber l idx = false) :
    (_get_string l idx).2 = l := by
  unfold _get_string lua_tolstring
  unfold lua_isnumber at h
  split <;> rename_i h1
  · split at h1 <;> simp_all [luaV_tonumber]
  · split at h1 <;> simp_all [luaV_tonumber]

theorem get_Value_frame_aux (fuel : Nat) :
    (∀ (l : lua_State) (index : Int) (v : Value) (l1 : lua_State),
      _get_Value fuel l index = Except.ok (v, l1) → l1 = l) ∧
    (∀ (l : lua_State) (t t1 : Table) (l1 : lua_State),
      _get_Value_loop fuel l t = Except.ok (t1, l1) → l1.stack = l.stack.dropLast) := by
  induction fuel with
  | zero =>
    constructor
    · intro l index v l1 h
      simp [_get_Value] at h
    · intro l t t1 l1 h
      simp [_get_Value_loop] at h
  | succ n ih =>
    constructor
    · intro l index v l1 h
      simp only [_get_Value] at h
      split_ifs at h with h1 h2 h3 h4 h5
      · simp only [Except.ok.injEq, Prod.mk.injEq] at h
        exact h.2.symm
      · simp only [Except.ok.injEq, Prod.mk.injEq] at h
        exact h.2.symm
      · simp only [Except.ok.injEq, Prod.mk.injEq] at h
        exact h.2.symm
      · simp only [Except.ok.injEq, Prod.mk.injEq] at h
        rw [← h.2]
        exact get_string_frame l index (by simpa using h3)
      · split at h
        · simp at h
        · split at h
          · simp at h
          · rename_i t1 l2 hloop
            simp only [Except.ok.injEq, Prod.mk.injEq] at h
            have hst := ih.2 _ _ _ _ hloop
            rw [← h.2]
            apply lua_State_eq_of_stack
            rw [hst]
            simp [lua_pushnil, lua_State.push]
      · simp only [Except.ok.injEq, Prod.mk.injEq] at h
        exact h.2.symm
    · intro l t t1 l1 h
      simp only [_get_Value_loop] at h
      split at h
      · simp at h
      · rename_i l2 hnext
        simp only [Except.ok.injEq, Prod.mk.injEq] at h
        rw [← h.2]
        exact lua_next_false_stack _ _ _ hnext
      · rename_i l2 hnext
        obtain ⟨k, v, hl2⟩ := lua_next_true_stack _ _ _ hnext
        split at h
        · simp at h
        · rename_i t2 l3 hbody
          have hl3 : l3 = l2 := by
            split_ifs at hbody with c1 c2
            · split at hbody
              · simp at hbody
              · rename_i w l4 hg
                simp only [Except.ok.injEq, Prod.mk.injEq] at hbody
                rw [← hbody.2]
                exact ih.1 _ _ _ _ hg
            · split at hbody
              · simp at hbody
              · rename_i w l4 hg
                simp only [Except.ok.injEq, Prod.mk.injEq] at hbody
                rw [← hbody.2, ih.1 _ _ _ _ hg]
                exact get_string_frame l2 (-2) (by simpa using c1)
            · simp only [Except.ok.injEq, Prod.mk.injEq] at hbody
              exact hbody.2.symm
          subst hl3
          split at h
          · simp at h
          · rename_i l4 hp
            have h4 := lua_pop_one_stack _ _ hp
            have h5 := ih.2 _ _ _ _ h
            rw [h5, h4, hl2]
            simp [List.dropLast_append_cons]

/-- Frame property of the dynamic get: whenever `_get(_id<Value>, l, index)` returns, the
stack is as it was before the call. -/
theorem get_Value_frame (fuel : Nat) (l : lua_State) (index : Int) (v : Value)
    (l1 : lua_State) (h : _get_Value fuel l index = Except.ok (v, l1)) : l1 = l :=
  (get_Value_frame_aux fuel).1 l index v l1 h

/-! ## C4: the unchecked getters -/

theorem index2addr_of_slot (l : lua_State) (index : Int) (v : LuaVal)
    (h : l.slot index = some v) : ∃ a, index2addr l index = some a ∧ l.stack[a]? = some v := by
  unfold lua_State.slot at h
  cases ha : index2addr l index with
  | none => simp [ha] at h
  | some a => exact ⟨a, rfl, by simpa [ha] using h⟩

theorem get_Value_nontable (fuel : Nat) (l : lua_State) (index : Int) (v : LuaVal)
    (h : l.slot index = some v) (ht : v.ttype ≠ LuaType.TTABLE) :
    _get_Value (fuel + 1) l index = Except.ok (materialize v, l) := by
  obtain ⟨a, ha, _⟩ := index2addr_of_slot l index v h
  cases v with
  | nil => simp [_get_Value, lua_isnil, lua_type, h, LuaVal.ttype, materialize]
  | boolean b =>
    simp [_get_Value, lua_isnil, lua_isboolean, lua_type, h, LuaVal.ttype, materialize,
      _get_bool, lua_toboolean]
  | number x =>
    simp [_get_Value, lua_isnil, lua_isboolean, lua_isnumber, lua_type, h, LuaVal.ttype,
      materialize, _get_lua_Number, lua_tonumber, luaV_tonumber]
  | string x =>
    cases hx : luaO_str2d x with
    | some y =>
      simp [_get_Value, lua_isnil, lua_isboolean, lua_isnumber, lua_type, h, LuaVal.ttype,
        materialize, _get_lua_Number, lua_tonumber, luaV_tonumber, hx]
    | none =>
      simp [_get_Value, lua_isnil, lua_isboolean, lua_isnumber, lua_isstring, lua_type, h,
        LuaVal.ttype, materialize, luaV_tonumber, hx, _get_string, lua_tolstring, ha]
  | lightuserdata q =>
    simp [_get_Value, lua_isnil, lua_isboolean, lua_isnumber, lua_isstring, lua_istable,
      lua_type, h, LuaVal.ttype, materialize, luaV_tonumber]
  | table es => simp [LuaVal.ttype] at ht

/-- C4, as stated, fails: on a slot of another kind `_get(_id<bool>)` returns true for a
number, `_get(_id<int>)` returns 42 for the string "42" and `_get(_id<std::string>)`
returns "5" for the number 5, none of which is the default of the requested type; and
`_get(_id<char>)` on a nil slot dereferences the null pointer that `lua_tostring`
returns. -/
theorem unchecked_get_counterexample :
    _get_bool { stack := [LuaVal.number 5] } (-1) = true ∧
    _get_int { stack := [LuaVal.string "42"] } (-1) = 42 ∧
    (_get_string { stack := [LuaVal.number 5] } (-1)).1 = "5" ∧
    _get_char { stack := [LuaVal.nil] } (-1) = Except.error Fault.nullDereference := by
  decide

/-- C4 (amended): at every valid stack position, whatever the slot holds, the unchecked
getters of `bool`, `int`, `unsigned int`, `long`, `unsigned long`, `double` and
`std::string` return a value without faulting, and so does the getter of `Value` on a slot
that is not a table, and on a table on top of the stack (index -1, distinct keys, enough
fuel).  The value follows the conversions of Lua: `bool` is false only for nil and false;
the numeric types give 0 unless the slot is a number or a string that denotes one, in
which case they give that number converted; `std::string` gives the empty string unless
the slot is a string or a number (whose text it gives); `char` gives the first character
of that string.  Nothing is said about `char` on other slots, nor about `Value` on a table
below the top. -/
theorem unchecked_get_total (l : lua_State) (index : Int) (v : LuaVal) (fuel : Nat)
    (h : l.slot index = some v) :
    (∀ T : _id, T ≠ _id.char → T ≠ _id.Value → ∃ r, _get T fuel l index = Except.ok r) ∧
    (_get_bool l index = decide (v ≠ LuaVal.nil ∧ v ≠ LuaVal.boolean false)) ∧
    (luaV_tonumber v = none →
      _get_int l index = 0 ∧ _get_unsigned_int l index = 0 ∧ _get_long l index = 0 ∧
      _get_long_unsigned_int l index = 0 ∧ _get_lua_Number l index = 0) ∧
    (∀ n, luaV_tonumber v = some n →
      _get_int l index = wrapSigned 32 (lua_number2integer n) ∧
      _get_unsigned_int l index = lua_number2unsigned n ∧
      _get_long l index = lua_number2integer n ∧
      _get_long_unsigned_int l index = lua_number2unsigned n ∧
      _get_lua_Number l index = n) ∧
    (∀ s, v = LuaVal.string s →
      _get_string l index = (s, l) ∧ _get_char l index = Except.ok (string_front s, l)) ∧
    (∀ n, v = LuaVal.number n →
      (_get_string l index).1 = lua_number2str n ∧
      ∃ l1, _get_char l index = Except.ok (string_front (lua_number2str n), l1)) ∧
    (v.ttype ≠ LuaType.TSTRING → v.ttype ≠ LuaType.TNUMBER → _get_string l index = ("", l)) ∧
    (v.ttype ≠ LuaType.TTABLE →
      _get_Value (fuel + 1) l index = Except.ok (materialize v, l)) ∧
    (∀ s, l.stack = s ++ [v] → index = -1 → v.wf = true → v.size ≤ fuel →
      _get_Value fuel l index = Except.ok (materialize v, l)) := by
  obtain ⟨a, ha, _⟩ := index2addr_of_slot l index v h
  refine ⟨?_, ?_, ?_, ?_, ?_, ?_, ?_, ?_, ?_⟩
  · intro T h1 h2
    cases T <;> simp [_get] at h1 h2 ⊢
  · cases v with
    | boolean b => cases b <;> simp [_get_bool, lua_toboolean, h]
    | _ => simp [_get_bool, lua_toboolean, h]
  · intro hn
    simp [_get_int, _get_unsigned_int, _get_long, _get_long_unsigned_int, _get_lua_Number,
      lua_tointeger, lua_tounsigned, lua_tonumber, h, hn, wrapSigned]
  · intro n hn
    simp [_get_int, _get_unsigned_int, _get_long, _get_long_unsigned_int, _get_lua_Number,
      lua_tointeger, lua_tounsigned, lua_tonumber, h, hn]
  · intro s hs
    subst hs
    simp [_get_string, _get_char, lua_tostring, lua_tolstring, h, ha]
  · intro n hn
    subst hn
    simp [_get_string, _get_char, lua_tostring, lua_tolstring, h, ha]
  · intro h1 h2
    cases v <;> simp [LuaVal.ttype] at h1 h2 <;> simp [_get_string, lua_tolstring, h, ha]
  · intro ht
    exact get_Value_nontable fuel l index v h ht
  · intro s hs hi hwf hsz
    subst hi
    have hl : l = lua_State.mk (s ++ [v]) := lua_State_eq_of_stack _ _ hs
    rw [hl]
    exact get_Value_top v s fuel hwf hsz

/-- C4 (amended), at a nil slot below a table: the numeric getters give 0, the string
getter gives the empty string, and the dynamic get of the table on top returns. -/
theorem unchecked_get_total_witness :
    (_get_int { stack := [LuaVal.nil, LuaVal.table [(LuaKey.number 1, LuaVal.boolean true)]] } 1 = 0 ∧
     _get_unsigned_int { stack := [LuaVal.nil, LuaVal.table [(LuaKey.number 1, LuaVal.boolean true)]] } 1 = 0 ∧
     _get_long { stack := [LuaVal.nil, LuaVal.table [(LuaKey.number 1, LuaVal.boolean true)]] } 1 = 0 ∧
     _get_long_unsigned_int { stack := [LuaVal.nil, LuaVal.table [(LuaKey.number 1, LuaVal.boolean true)]] } 1 = 0 ∧
     _get_lua_Number { stack := [LuaVal.nil, LuaVal.table [(LuaKey.number 1, LuaVal.boolean true)]] } 1 = 0) ∧
    _get_Value 4 { stack := [LuaVal.nil, LuaVal.table [(LuaKey.number 1, LuaVal.boolean true)]] } (-1)
      = Except.ok (materialize (LuaVal.table [(LuaKey.number 1, LuaVal.boolean true)]),
          { stack := [LuaVal.nil, LuaVal.table [(LuaKey.number 1, LuaVal.boolean true)]] }) :=
  ⟨(unchecked_get_total
      { stack := [LuaVal.nil, LuaVal.table [(LuaKey.number 1, LuaVal.boolean true)]] } 1
      LuaVal.nil 0 (by decide)).2.2.1 (by decide),
   (unchecked_get_total
      { stack := [LuaVal.nil, LuaVal.table [(LuaKey.number 1, LuaVal.boolean true)]] } (-1)
      (LuaVal.table [(LuaKey.number 1, LuaVal.boolean true)]) 4 (by decide)).2.2.2.2.2.2.2.2
      [LuaVal.nil] (by decide) (by decide) (by decide) (by decide)⟩

/-! ## C5: the checked getters on a slot of the wrong kind -/

/-- C5, as stated, fails: `_check_get(_id<bool>)` does not abort on a table, it returns
true as the unchecked getter does; and on a nil slot, where `_check_get(_id<char>)` aborts,
`_get(_id<char>)` does not return a default but dereferences a null pointer. -/
theorem checked_get_counterexample :
    _check_get _id.bool 0 { stack := [LuaVal.table []] } (-1)
      = Except.ok (HostVal.bool true, { stack := [LuaVal.table []] }) ∧
    _check_get_char { stack := [LuaVal.nil] } (-1)
      = Except.error (Fault.argError (-1) "string" "nil") ∧
    _get_char { stack := [LuaVal.nil] } (-1) = Except.error Fault.nullDereference := by
  decide

/-- C5 (amended): on a slot that is neither a number nor a string denoting a number,
`_check_get` of `int`, `unsigned int`, `long`, `unsigned long` and `double` aborts with the
argument error "number expected" for that position, while `_get` returns 0; on a slot that
is neither a string nor a number, `_check_get` of `std::string` and of `char` aborts with
the argument error "string expected", while `_get` of `std::string` returns the empty
string; `_check_get` of `bool` never aborts and returns what `_get` returns.  Nothing is
said about `_get` of `char` on such a slot. -/
theorem checked_get_aborts (l : lua_State) (index : Int) (v : LuaVal)
    (h : l.slot index = some v) :
    (luaV_tonumber v = none →
      (_check_get_int l index
          = Except.error (Fault.argError index "number" (lua_typename v.ttype)) ∧
        _get_int l index = 0) ∧
      (_check_get_unsigned_int l index
          = Except.error (Fault.argError index "number" (lua_typename v.ttype)) ∧
        _get_unsigned_int l index = 0) ∧
      (_check_get_long l index
          = Except.error (Fault.argError index "number" (lua_typename v.ttype)) ∧
        _get_long l index = 0) ∧
      (_check_get_long_unsigned_int l index
          = Except.error (Fault.argError index "number" (lua_typename v.ttype)) ∧
        _get_long_unsigned_int l index = 0) ∧
      (_check_get_lua_Number l index
          = Except.error (Fault.argError index "number" (lua_typename v.ttype)) ∧
        _get_lua_Number l index = 0)) ∧
    (v.ttype ≠ LuaType.TSTRING → v.ttype ≠ LuaType.TNUMBER →
      (_check_get_string l index
          = Except.error (Fault.argError index "string" (lua_typename v.ttype)) ∧
        _get_string l index = ("", l)) ∧
      _check_get_char l index
          = Except.error (Fault.argError index "string" (lua_typename v.ttype))) ∧
    (_check_get_bool l index = _get_bool l index) := by
  obtain ⟨a, ha, _⟩ := index2addr_of_slot l index v h
  refine ⟨?_, ?_, rfl⟩
  · intro hn
    simp [_check_get_int, _check_get_unsigned_int, _check_get_long,
      _check_get_long_unsigned_int, _check_get_lua_Number, luaL_checkint, luaL_checklong,
      luaL_checkunsigned, luaL_checkinteger, luaL_checknumber, tag_error, lua_type,
      lua_typename, _get_int, _get_unsigned_int, _get_long, _get_long_unsigned_int,
      _get_lua_Number, lua_tointeger, lua_tounsigned, lua_tonumber, h, hn, wrapSigned,
      Except.map]
  · intro h1 h2
    cases v <;> simp [LuaVal.ttype] at h1 h2 <;>
      simp [_check_get_string, _check_get_char, luaL_checkstring, luaL_checklstring,
        tag_error, lua_type, lua_typename, _get_string, lua_tolstring, h, ha, Except.map,
        LuaVal.ttype]

/-- C5 (amended), at a boolean slot: the checked getter of `std::string` aborts with
"string expected, got boolean", the one of `int` with "number expected, got boolean", and
the unchecked getters return the empty string and 0. -/
theorem checked_get_aborts_witness :
    ((_check_get_int { stack := [LuaVal.boolean true] } 1
          = Except.error (Fault.argError 1 "number" "boolean") ∧
        _get_int { stack := [LuaVal.boolean true] } 1 = 0)) ∧
    ((_check_get_string { stack := [LuaVal.boolean true] } 1
          = Except.error (Fault.argError 1 "string" "boolean") ∧
        _get_string { stack := [LuaVal.boolean true] } 1
          = ("", { stack := [LuaVal.boolean true] }))) :=
  ⟨((checked_get_aborts { stack := [LuaVal.boolean true] } 1 (LuaVal.boolean true)
      (by decide)).1 (by decide)).1,
   ((checked_get_aborts { stack := [LuaVal.boolean true] } 1 (LuaVal.boolean true)
      (by decide)).2.1 (by decide) (by decide)).1⟩

/-! ## C6: popping two or more values -/

/-- C6 fails on the code at a stack deeper than the type list.  On the stack `1, 2, 3`
(bottom first) `_pop_n<int, int>` removes the two top slots, which hold 2 and 3, but
returns the tuple `(1, 2)` read at the positions 1 and 2 counted from the bottom of the
stack.  On the stack `5, "a", "b"` `_pop_n<std::string, std::string>` returns `("5", "a")`
and the slot left below the removed window is no longer the number 5 but the string "5",
converted in place by `lua_tolstring`. -/
theorem pop_n_reads_from_bottom :
    _pop_n 0 [_id.int, _id.int]
        { stack := [LuaVal.number 1, LuaVal.number 2, LuaVal.number 3] }
      = Except.ok (PopResult.tuple [HostVal.int 1, HostVal.int 2],
          { stack := [LuaVal.number 1] }) ∧
    _pop_n 0 [_id.string, _id.string]
        { stack := [LuaVal.number 5, LuaVal.string "a", LuaVal.string "b"] }
      = Except.ok (PopResult.tuple [HostVal.string "5", HostVal.string "a"],
          { stack := [LuaVal.string "5"] }) := by
  decide

/-! ## C8: popping one value -/

theorem dropLast_set_last (s : List LuaVal) (x : LuaVal) :
    (s.set (s.length - 1) x).dropLast = s.dropLast := by
  rcases List.eq_nil_or_concat s with rfl | ⟨r, a, rfl⟩
  · simp
  · simp

theorem lua_tolstring_top_frame (l : lua_State) (h : l.stack ≠ []) :
    (lua_tolstring l (-1)).2.stack.dropLast = l.stack.dropLast ∧
    (lua_tolstring l (-1)).2.stack ≠ [] := by
  unfold lua_tolstring
  rw [index2addr_top l h]
  split
  · exact ⟨rfl, h⟩
  · rename_i a n ha _
    simp only [Option.some.injEq] at ha
    subst ha
    refine ⟨dropLast_set_last _ _, ?_⟩
    intro hc
    have := congrArg List.length hc
    simp at this
    exact h this
  · exact ⟨rfl, h⟩

theorem get_top_frame (T : _id) (fuel : Nat) (l : lua_State) (v : HostVal) (l1 : lua_State)
    (h : l.stack ≠ []) (hg : _get T fuel l (-1) = Except.ok (v, l1)) :
    l1.stack.dropLast = l.stack.dropLast ∧ l1.stack ≠ [] := by
  cases T
  case char =>
    simp only [_get, _get_char, lua_tostring] at hg
    have hf := lua_tolstring_top_frame l h
    split at hg
    · rename_i s l2 heq
      simp only [Except.map, Except.ok.injEq, Prod.mk.injEq] at hg
      rw [heq] at hf
      rw [← hg.2]
      exact hf
    · simp [Except.map] at hg
  case string =>
    simp only [_get, _get_string, Except.ok.injEq, Prod.mk.injEq] at hg
    have hf := lua_tolstring_top_frame l h
    rw [← hg.2]
    split <;> rename_i heq <;> rw [heq] at hf <;> exact hf
  case Value =>
    simp only [_get] at hg
    cases hv : _get_Value fuel l (-1) with
    | error e => simp [hv, Except.map] at hg
    | ok r =>
      obtain ⟨w, l2⟩ := r
      simp only [hv, Except.map, Except.ok.injEq, Prod.mk.injEq] at hg
      have := get_Value_frame fuel l (-1) w l2 hv
      rw [← hg.2, this]
      exact ⟨rfl, h⟩
  all_goals
    simp only [_get, Except.ok.injEq, Prod.mk.injEq] at hg
    rw [← hg.2]
    exact ⟨rfl, h⟩

theorem get_top_returns (T : _id) (fuel : Nat) (l : lua_State) (top : LuaVal)
    (ht : l.stack.getLast? = some top)
    (hc : T = _id.char → top.ttype = LuaType.TSTRING ∨ top.ttype = LuaType.TNUMBER)
    (hv : T = _id.Value → top.wf = true ∧ top.size ≤ fuel) :
    ∃ ret l1, _get T fuel l (-1) = Except.ok (ret, l1) := by
  have hne : l.stack ≠ [] := by
    intro h; rw [h] at ht; simp at ht
  have hslot : l.slot (-1) = some top := by rw [slot_top l hne, ht]
  have hall := unchecked_get_total l (-1) top fuel hslot
  cases T
  case char =>
    have hc1 := hc rfl
    cases top <;> simp [LuaVal.ttype] at hc1
    case string s =>
      exact ⟨HostVal.char (string_front s), l, by
        simp [_get, (hall.2.2.2.2.1 s rfl).2, Except.map]⟩
    case number n =>
      obtain ⟨l1, h1⟩ := (hall.2.2.2.2.2.1 n rfl).2
      exact ⟨HostVal.char (string_front (lua_number2str n)), l1, by
        simp [_get, h1, Except.map]⟩
  case Value =>
    have hv1 := hv rfl
    have hs : l.stack = l.stack.dropLast ++ [top] := by
      have := List.dropLast_append_getLast? top (by simpa using ht)
      exact this.symm
    exact ⟨HostVal.Value (materialize top), l, by
      simp [_get, hall.2.2.2.2.2.2.2.2 _ hs rfl hv1.1 hv1.2, Except.map]⟩
  all_goals exact ⟨_, _, rfl⟩

/-- C8: on a non-empty stack `_pop_n<T>` returns exactly what `_get(_id<T>, l, -1)` returns
for the top slot (and fails exactly when it fails), removes that one slot and leaves the
slots below unchanged; `_pop_n_reset<T>` returns the same value and leaves the stack empty.
The value is returned whenever the getter can read the top slot: always for the types
other than `char` and `Value`, for `char` on a string or a number, for `Value` on a value
whose tables have distinct keys, given enough fuel. -/
theorem pop_one (T : _id) (fuel : Nat) (l : lua_State) (h : l.stack ≠ []) :
    _pop_n fuel [T] l
      = (match _get T fuel l (-1) with
          | Except.error e => Except.error e
          | Except.ok (ret, _) =>
            Except.ok (PopResult.single ret, { stack := l.stack.dropLast })) ∧
    _pop_n_reset fuel [T] l
      = (match _get T fuel l (-1) with
          | Except.error e => Except.error e
          | Except.ok (ret, _) => Except.ok (PopResult.single ret, { stack := [] })) ∧
    (∀ top, l.stack.getLast? = some top →
      (T = _id.char → top.ttype = LuaType.TSTRING ∨ top.ttype = LuaType.TNUMBER) →
      (T = _id.Value → top.wf = true ∧ top.size ≤ fuel) →
      ∃ ret l1, _get T fuel l (-1) = Except.ok (ret, l1) ∧
        _pop_n fuel [T] l
          = Except.ok (PopResult.single ret, { stack := l.stack.dropLast }) ∧
        _pop_n_reset fuel [T] l = Except.ok (PopResult.single ret, { stack := [] })) := by
  have e1 : _pop_n fuel [T] l
      = (match _get T fuel l (-1) with
          | Except.error e => Except.error e
          | Except.ok (ret, _) =>
            Except.ok (PopResult.single ret, { stack := l.stack.dropLast })) := by
    cases hg : _get T fuel l (-1) with
    | error e => simp only [_pop_n, hg]
    | ok r =>
      obtain ⟨ret, l1⟩ := r
      have hf := get_top_frame T fuel l ret l1 h hg
      simp only [_pop_n, hg, lua_pop_one l1 hf.2, hf.1]
  have e2 : _pop_n_reset fuel [T] l
      = (match _get T fuel l (-1) with
          | Except.error e => Except.error e
          | Except.ok (ret, _) => Except.ok (PopResult.single ret, { stack := [] })) := by
    cases hg : _get T fuel l (-1) with
    | error e => simp only [_pop_n_reset, hg]
    | ok r =>
      obtain ⟨ret, l1⟩ := r
      simp only [_pop_n_reset, hg, lua_settop_zero]
  refine ⟨e1, e2, ?_⟩
  intro top ht hc hv
  obtain ⟨ret, l1, hg⟩ := get_top_returns T fuel l top ht hc hv
  refine ⟨ret, l1, hg, ?_, ?_⟩
  · rw [e1, hg]
  · rw [e2, hg]

/-- C8, on the stack `7, "x"` (bottom first) with the type `std::string`: `_pop_n` returns
"x" and leaves the slot holding 7, `_pop_n_reset` returns "x" and leaves nothing. -/
theorem pop_one_witness :
    _pop_n 0 [_id.string] { stack := [LuaVal.number 7, LuaVal.string "x"] }
      = Except.ok (PopResult.single (HostVal.string "x"), { stack := [LuaVal.number 7] }) ∧
    _pop_n_reset 0 [_id.string] { stack := [LuaVal.number 7, LuaVal.string "x"] }
      = Except.ok (PopResult.single (HostVal.string "x"), { stack := [] }) :=
  ⟨(pop_one _id.string 0 { stack := [LuaVal.number 7, LuaVal.string "x"] } (by decide)).1,
   (pop_one _id.string 0 { stack := [LuaVal.number 7, LuaVal.string "x"] } (by decide)).2.1⟩


/-! ## C9: the two cleanup flavours -/

theorem lua_tolstring_length (l : lua_State) (idx : Int) :
    (lua_tolstring l idx).2.stack.length = l.stack.length := by
  unfold lua_tolstring
  split <;> simp

theorem get_length (T : _id) (fuel : Nat) (l : lua_State) (idx : Int) (v : HostVal)
    (l1 : lua_State) (hg : _get T fuel l idx = Except.ok (v, l1)) :
    l1.stack.length = l.stack.length := by
  cases T
  case char =>
    simp only [_get, _get_char, lua_tostring] at hg
    have hf := lua_tolstring_length l idx
    split at hg
    · rename_i s l2 heq
      simp only [Except.map, Except.ok.injEq, Prod.mk.injEq] at hg
      rw [heq] at hf
      rw [← hg.2]
      exact hf
    · simp [Except.map] at hg
  case string =>
    simp only [_get, _get_string, Except.ok.injEq, Prod.mk.injEq] at hg
    have hf := lua_tolstring_length l idx
    rw [← hg.2]
    split <;> rename_i heq <;> rw [heq] at hf <;> exact hf
  case Value =>
    simp only [_get] at hg
    cases hv : _get_Value fuel l idx with
    | error e => simp [hv, Except.map] at hg
    | ok r =>
      obtain ⟨w, l2⟩ := r
      simp only [hv, Except.map, Except.ok.injEq, Prod.mk.injEq] at hg
      rw [← hg.2, get_Value_frame fuel l idx w l2 hv]
  all_goals
    simp only [_get, Except.ok.injEq, Prod.mk.injEq] at hg
    rw [← hg.2]

theorem pop_n_worker_length (fuel : Nat) (Ts : List _id) :
    ∀ (n : Nat) (l : lua_State) (vs : List HostVal) (l1 : lua_State),
      _pop_n_worker fuel Ts n l = Except.ok (vs, l1) → l1.stack.length = l.stack.length := by
  induction Ts with
  | nil =>
    intro n l vs l1 h
    simp only [_pop_n_worker, Except.ok.injEq, Prod.mk.injEq] at h
    rw [← h.2]
  | cons T Ts ih =>
    intro n l vs l1 h
    simp only [_pop_n_worker] at h
    split at h
    · simp at h
    · rename_i v l2 hg
      split at h
      · simp at h
      · rename_i ws l3 hw
        simp only [Except.ok.injEq, Prod.mk.injEq] at h
        rw [← h.2, ih _ _ _ _ hw, get_length T fuel l _ v l2 hg]

theorem lua_pop_length (l l1 : lua_State) (N : Nat) (h : lua_pop l (N : Int) = Except.ok l1) :
    l1.stack.length + N = l.stack.length := by
  unfold lua_pop lua_settop lua_gettop at h
  have h1 : ¬ ((0 : Int) ≤ -(N : Int) - 1) := by omega
  rw [if_neg h1] at h
  split at h
  · rename_i h2
    simp only [Except.ok.injEq] at h
    rw [← h]
    simp only [List.length_take]
    omega
  · simp at h

theorem lua_pop_defined (l : lua_State) (N : Nat) (h : N ≤ l.stack.length) :
    ∃ l1, lua_pop l (N : Int) = Except.ok l1 := by
  unfold lua_pop lua_settop lua_gettop
  have h1 : ¬ ((0 : Int) ≤ -(N : Int) - 1) := by omega
  have h2 : -(-(N : Int) - 1 + 1) ≤ (l.stack.length : Int) := by omega
  rw [if_neg h1, if_pos h2]
  exact ⟨_, rfl⟩

/-- C9: for every type list and every stack, whenever `_pop_n<T...>` returns, then
`_pop_n_reset<T...>` returns the same result; whenever `_pop_n_reset<T...>` returns and the
stack holds at least as many slots as there are types, then `_pop_n<T...>` returns the same
result.  The two differ in the stack they leave: `_pop_n` leaves it shorter by the number
of types, `_pop_n_reset` leaves it empty. -/
theorem pop_flavours_agree (fuel : Nat) (Ts : List _id) (l : lua_State) :
    (∀ r1 l1, _pop_n fuel Ts l = Except.ok (r1, l1) →
      l1.stack.length + Ts.length = l.stack.length ∧
      _pop_n_reset fuel Ts l = Except.ok (r1, { stack := [] })) ∧
    (∀ r2 l2, _pop_n_reset fuel Ts l = Except.ok (r2, l2) →
      l2.stack = [] ∧
      (Ts.length ≤ l.stack.length → ∃ l1, _pop_n fuel Ts l = Except.ok (r2, l1))) := by
  match Ts with
  | [] =>
    constructor
    · intro r1 l1 h
      simp only [_pop_n, Except.ok.injEq, Prod.mk.injEq] at h
      simp [_pop_n_reset, lua_settop_zero, ← h.1, ← h.2]
    · intro r2 l2 h
      simp only [_pop_n_reset, lua_settop_zero, Except.ok.injEq, Prod.mk.injEq] at h
      simp [_pop_n, ← h.1, ← h.2]
  | [T] =>
    constructor
    · intro r1 l1 h
      simp only [_pop_n] at h
      split at h
      · simp at h
      · rename_i ret l3 hg
        split at h
        · simp at h
        · rename_i l4 hp
          simp only [Except.ok.injEq, Prod.mk.injEq] at h
          have h5 := lua_pop_length l3 l4 1 hp
          have h6 := get_length T fuel l (-1) ret l3 hg
          rw [← h.2, ← h.1]
          refine ⟨by simpa [h6] using h5, ?_⟩
          simp only [_pop_n_reset, hg, lua_settop_zero]
    · intro r2 l2 h
      simp only [_pop_n_reset] at h
      split at h
      · simp at h
      · rename_i ret l3 hg
        simp only [lua_settop_zero, Except.ok.injEq, Prod.mk.injEq] at h
        rw [← h.2, ← h.1]
        refine ⟨rfl, ?_⟩
        intro hlen
        have h6 := get_length T fuel l (-1) ret l3 hg
        obtain ⟨l1, hp⟩ := lua_pop_defined l3 1 (by rw [h6]; simpa using hlen)
        exact ⟨l1, by simp only [_pop_n, hg]; rw [show (1 : Int) = ((1 : Nat) : Int) from rfl, hp]⟩
  | T1 :: T2 :: Ts =>
    constructor
    · intro r1 l1 h
      simp only [_pop_n] at h
      split at h
      · simp at h
      · rename_i ret l3 hg
        split at h
        · simp at h
        · rename_i l4 hp
          simp only [Except.ok.injEq, Prod.mk.injEq] at h
          have h5 := lua_pop_length l3 l4 _ hp
          have h6 := pop_n_worker_length fuel _ _ _ _ _ hg
          rw [← h.2, ← h.1]
          refine ⟨by rw [h5, h6], ?_⟩
          simp only [_pop_n_reset, hg, lua_settop_zero]
    · intro r2 l2 h
      simp only [_pop_n_reset] at h
      split at h
      · simp at h
      · rename_i ret l3 hg
        simp only [lua_settop_zero, Except.ok.injEq, Prod.mk.injEq] at h
        rw [← h.2, ← h.1]
        refine ⟨rfl, ?_⟩
        intro hlen
        have h6 := pop_n_worker_length fuel _ _ _ _ _ hg
        obtain ⟨l1, hp⟩ := lua_pop_defined l3 (T1 :: T2 :: Ts).length (by rw [h6]; exact hlen)
        exact ⟨l1, by simp only [_pop_n, hg, hp]⟩

/-- C9, on the stack `1, "x"` with the types `int, std::string`: `_pop_n` returns the
tuple `(1, "x")`, and so does `_pop_n_reset`; here both leave the stack empty, since the
window is the whole stack. -/
theorem pop_flavours_agree_witness :
    _pop_n 0 [_id.int, _id.string] { stack := [LuaVal.number 1, LuaVal.string "x"] }
      = Except.ok (PopResult.tuple [HostVal.int 1, HostVal.string "x"], { stack := [] }) ∧
    _pop_n_reset 0 [_id.int, _id.string] { stack := [LuaVal.number 1, LuaVal.string "x"] }
      = Except.ok (PopResult.tuple [HostVal.int 1, HostVal.string "x"], { stack := [] }) :=
  ⟨by decide,
   ((pop_flavours_agree 0 [_id.int, _id.string]
      { stack := [LuaVal.number 1, LuaVal.string "x"] }).1
    (PopResult.tuple [HostVal.int 1, HostVal.string "x"]) { stack := [] } (by decide)).2⟩

/-! ## The stack after pushing a `Value` -/

theorem pushed_ne_nil (v : Value) (h : v.IsNil = false) : pushed v ≠ LuaVal.nil := by
  cases v <;> simp [pushed]
  simp [Value.IsNil, Value.type] at h

theorem wfEntries_append (a b : List (LuaKey × LuaVal)) :
    wfEntries (a ++ b) = (wfEntries a && wfEntries b) := by
  induction a with
  | nil => simp [wfEntries]
  | cons e a ih =>
    obtain ⟨k, v⟩ := e
    simp [wfEntries, ih, Bool.and_assoc]

theorem luaH_set_new (es : List (LuaKey × LuaVal)) (k : LuaKey) (v : LuaVal)
    (hv : v ≠ LuaVal.nil) (hk : k ∉ es.map Prod.fst) :
    luaH_set es k v = es ++ [(k, v)] := by
  unfold luaH_set
  rw [if_neg hv]
  have : (es.any fun e => decide (e.1 = k)) = false := by
    rw [Bool.eq_false_iff]
    intro h
    simp only [List.any_eq_true, decide_eq_true_eq] at h
    obtain ⟨e, he, hek⟩ := h
    exact hk (List.mem_map.mpr ⟨e, he, hek⟩)
  simp [this]

theorem lua_rawset_top_new (s : List LuaVal) (es : List (LuaKey × LuaVal)) (k : LuaKey)
    (v : LuaVal) (hv : v ≠ LuaVal.nil) (hk : k ∉ es.map Prod.fst) :
    lua_rawset_top (lua_State.mk (s ++ [LuaVal.table es, v])) (-2) k
      = Except.ok (lua_State.mk (s ++ [LuaVal.table (es ++ [(k, v)])])) := by
  unfold lua_rawset_top
  rw [index2addr_last2, slot_last2]
  have hl : (s ++ [LuaVal.table es, v]).getLast? = some v := by simp
  simp only [hl, luaH_set_new es k v hv hk]
  have hlen : s.length + 1 < (s ++ [LuaVal.table es, v]).length := by simp
  rw [if_pos hlen]
  congr 2
  rw [List.set_append_right _ _ (Nat.le_refl _)]
  simp only [Nat.sub_self, List.set_cons_zero]
  rw [show s ++ [LuaVal.table (es ++ [(k, v)]), v]
      = (s ++ [LuaVal.table (es ++ [(k, v)])]) ++ [v] by simp]
  exact List.dropLast_concat

theorem push_Value_scalar (l : lua_State) (v : Value) (hn : v.IsNil = false)
    (ht : v.IsTable = false) : _push_Value_scalars l v = l.push (pushed v) := by
  cases v <;> simp [Value.IsNil, Value.IsTable, Value.type] at hn ht <;>
    simp [_push_Value_scalars, Value.IsBool, Value.IsChar, Value.IsInt, Value.IsLong,
      Value.IsDouble, Value.IsString, Value.type, pushed, _push_bool, _push_char,
      _push_int, _push_long, _push_lua_Number, _push_string, lua_pushboolean,
      lua_pushlstring, lua_pushinteger, lua_pushnumber, Value.bool_value, Value.char_value,
      Value.int_value, Value.long_value, Value.double_value, Value.string_value]

mutual
theorem push_Value_pushed (v : Value) (s : List LuaVal) (hn : v.IsNil = false)
    (hw : (pushed v).wf = true) :
    _push_Value (lua_State.mk s) v = Except.ok (lua_State.mk (s ++ [pushed v])) := by
  match v with
  | Value.TableValue im sm =>
    simp only [pushed, LuaVal.wf, Bool.and_eq_true, decide_eq_true_eq, wfEntries_append] at hw
    have hsc : _push_Value_scalars (lua_State.mk s) (Value.TableValue im sm)
        = lua_State.mk s := by
      simp [_push_Value_scalars, Value.IsBool, Value.IsChar, Value.IsInt, Value.IsLong,
        Value.IsDouble, Value.IsString, Value.type]
    have h1 := push_int_items_pushed im s []
      (by
        have := hw.1
        rw [List.map_append, List.nodup_append] at this
        simpa using this.1) hw.2.1
    have h2 := push_str_items_pushed sm s (pushedInt im) hw.1 hw.2.2
    simp only [List.nil_append] at h1
    simp only [_push_Value, hsc, lua_createtable, lua_State.push, h1, h2, pushed]
  | Value.NilValue => simp [Value.IsNil, Value.type] at hn
  | Value.BoolValue b => simp only [_push_Value, push_Value_scalar _ _ hn rfl, lua_State.push]
  | Value.CharValue c => simp only [_push_Value, push_Value_scalar _ _ hn rfl, lua_State.push]
  | Value.IntValue i => simp only [_push_Value, push_Value_scalar _ _ hn rfl, lua_State.push]
  | Value.LongValue i => simp only [_push_Value, push_Value_scalar _ _ hn rfl, lua_State.push]
  | Value.DoubleValue d =>
    simp only [_push_Value, push_Value_scalar _ _ hn rfl, lua_State.push]
  | Value.StringValue x =>
    simp only [_push_Value, push_Value_scalar _ _ hn rfl, lua_State.push]
theorem push_int_items_pushed (im : List (Int × Value)) (s : List LuaVal)
    (es : List (LuaKey × LuaVal)) (hd : ((es ++ pushedInt im).map Prod.fst).Nodup)
    (hw : wfEntries (pushedInt im) = true) :
    _push_int_items (lua_State.mk (s ++ [LuaVal.table es])) im
      = Except.ok (lua_State.mk (s ++ [LuaVal.table (es ++ pushedInt im)])) := by
  match im with
  | [] => simp [_push_int_items, pushedInt]
  | (k, v) :: r =>
    cases hv : v.IsNil with
    | true =>
      simp only [pushedInt, hv, if_true] at hd hw ⊢
      simp only [_push_int_items, hv, Bool.not_true, Bool.false_eq_true, if_false]
      exact push_int_items_pushed r s es hd hw
    | false =>
      simp only [pushedInt, hv, Bool.false_eq_true, if_false] at hd hw ⊢
      simp only [wfEntries, Bool.and_eq_true] at hw
      have hpush := push_Value_pushed v (s ++ [LuaVal.table es]) hv hw.1
      simp only [List.append_assoc, List.singleton_append] at hpush
      have hk : LuaKey.number (cast_num k) ∉ es.map Prod.fst := by
        rw [List.map_append, List.nodup_append] at hd
        intro hmem
        exact hd.2.2 hmem (by simp)
      have hset := lua_rawset_top_new s es (LuaKey.number (cast_num k)) (pushed v)
        (pushed_ne_nil v hv) hk
      have he : es ++ (LuaKey.number (cast_num k), pushed v) :: pushedInt r
          = (es ++ [(LuaKey.number (cast_num k), pushed v)]) ++ pushedInt r := by simp
      have hrest := push_int_items_pushed r s (es ++ [(LuaKey.number (cast_num k), pushed v)])
        (by rw [← he]; exact hd) hw.2
      rw [← he] at hrest
      simp only [_push_int_items, hv, Bool.not_false, if_true, hpush, lua_rawseti, hset, hrest]
theorem push_str_items_pushed (sm : List (String × Value)) (s : List LuaVal)
    (es : List (LuaKey × LuaVal)) (hd : ((es ++ pushedStr sm).map Prod.fst).Nodup)
    (hw : wfEntries (pushedStr sm) = true) :
    _push_str_items (lua_State.mk (s ++ [LuaVal.table es])) sm
      = Except.ok (lua_State.mk (s ++ [LuaVal.table (es ++ pushedStr sm)])) := by
  match sm with
  | [] => simp [_push_str_items, pushedStr]
  | (k, v) :: r =>
    cases hv : v.IsNil with
    | true =>
      simp only [pushedStr, hv, if_true] at hd hw ⊢
      simp only [_push_str_items, hv, Bool.not_true, Bool.false_eq_true, if_false]
      exact push_str_items_pushed r s es hd hw
    | false =>
      simp only [pushedStr, hv, Bool.false_eq_true, if_false] at hd hw ⊢
      simp only [wfEntries, Bool.and_eq_true] at hw
      have hpush := push_Value_pushed v (s ++ [LuaVal.table es]) hv hw.1
      simp only [List.append_assoc, List.singleton_append] at hpush
      have hk : LuaKey.string (c_str k) ∉ es.map Prod.fst := by
        rw [List.map_append, List.nodup_append] at hd
        intro hmem
        exact hd.2.2 hmem (by simp)
      have hset := lua_rawset_top_new s es (LuaKey.string (c_str k)) (pushed v)
        (pushed_ne_nil v hv) hk
      have he : es ++ (LuaKey.string (c_str k), pushed v) :: pushedStr r
          = (es ++ [(LuaKey.string (c_str k), pushed v)]) ++ pushedStr r := by simp
      have hrest := push_str_items_pushed r s (es ++ [(LuaKey.string (c_str k), pushed v)])
        (by rw [← he]; exact hd) hw.2
      rw [← he] at hrest
      simp only [_push_str_items, hv, Bool.not_false, if_true, hpush, lua_setfield, hset,
        hrest]
end

/-! ## The pushed form of a well keyed value -/

theorem cast_num_int (k : Int) (h : inSigned 32 k) : cast_num k = ((k : Int) : ℚ) := by
  apply cast_num_exact
  unfold inSigned at h
  norm_num at h ⊢
  omega

theorem wrap_size_t_int (k : Int) (h : inSigned 32 k) :
    wrapSigned 32 (wrapUnsigned 64 k) = k := by
  unfold inSigned at h
  unfold wrapSigned wrapUnsigned
  norm_num at h ⊢
  omega

theorem wellKeyedInt_cons (k : Int) (v : Value) (r : List (Int × Value))
    (h : wellKeyedInt ((k, v) :: r) = true) :
    inSigned 32 k ∧ (∀ e ∈ r, k < e.1) ∧ v.wellKeyed = true ∧ wellKeyedInt r = true := by
  simp only [wellKeyedInt, Bool.and_eq_true, decide_eq_true_eq] at h
  exact ⟨h.1.1.1, h.1.1.2, h.1.2, h.2⟩

theorem wellKeyedStr_cons (k : String) (v : Value) (r : List (String × Value))
    (h : wellKeyedStr ((k, v) :: r) = true) :
    c_str k = k ∧ luaO_str2d k = none ∧ (∀ e ∈ r, k < e.1) ∧ v.wellKeyed = true ∧
      wellKeyedStr r = true := by
  simp only [wellKeyedStr, Bool.and_eq_true, decide_eq_true_eq] at h
  exact ⟨h.1.1.1.1, h.1.1.1.2, h.1.1.2, h.1.2, h.2⟩

theorem pushedInt_keys (im : List (Int × Value)) (h : wellKeyedInt im = true) :
    ∀ key ∈ (pushedInt im).map Prod.fst,
      ∃ e ∈ im, key = LuaKey.number ((e.1 : Int) : ℚ) := by
  induction im with
  | nil => simp [pushedInt]
  | cons e r ih =>
    obtain ⟨k, v⟩ := e
    obtain ⟨h1, _, _, h4⟩ := wellKeyedInt_cons k v r h
    intro key hkey
    simp only [pushedInt] at hkey
    split_ifs at hkey with hv
    · obtain ⟨e, he, hk⟩ := ih h4 key hkey
      exact ⟨e, List.mem_cons_of_mem _ he, hk⟩
    · simp only [List.map_cons, List.mem_cons] at hkey
      rcases hkey with hkey | hkey
      · exact ⟨(k, v), List.mem_cons_self _ _, by rw [hkey, cast_num_int k h1]⟩
      · obtain ⟨e, he, hk⟩ := ih h4 key hkey
        exact ⟨e, List.mem_cons_of_mem _ he, hk⟩

theorem pushedStr_keys (sm : List (String × Value)) (h : wellKeyedStr sm = true) :
    ∀ key ∈ (pushedStr sm).map Prod.fst, ∃ e ∈ sm, key = LuaKey.string e.1 := by
  induction sm with
  | nil => simp [pushedStr]
  | cons e r ih =>
    obtain ⟨k, v⟩ := e
    obtain ⟨h1, _, _, _, h4⟩ := wellKeyedStr_cons k v r h
    intro key hkey
    simp only [pushedStr] at hkey
    split_ifs at hkey with hv
    · obtain ⟨e, he, hk⟩ := ih h4 key hkey
      exact ⟨e, List.mem_cons_of_mem _ he, hk⟩
    · simp only [List.map_cons, List.mem_cons] at hkey
      rcases hkey with hkey | hkey
      · exact ⟨(k, v), List.mem_cons_self _ _, by rw [hkey, h1]⟩
      · obtain ⟨e, he, hk⟩ := ih h4 key hkey
        exact ⟨e, List.mem_cons_of_mem _ he, hk⟩

theorem pushedInt_nodup (im : List (Int × Value)) (h : wellKeyedInt im = true) :
    ((pushedInt im).map Prod.fst).Nodup := by
  induction im with
  | nil => simp [pushedInt]
  | cons e r ih =>
    obtain ⟨k, v⟩ := e
    obtain ⟨h1, h2, _, h4⟩ := wellKeyedInt_cons k v r h
    simp only [pushedInt]
    split_ifs with hv
    · exact ih h4
    · rw [List.map_cons, List.nodup_cons]
      refine ⟨?_, ih h4⟩
      intro hmem
      obtain ⟨e, he, hk⟩ := pushedInt_keys r h4 _ hmem
      rw [cast_num_int k h1] at hk
      simp only [LuaKey.number.injEq, Int.cast_inj] at hk
      have := h2 e he
      omega

theorem pushedStr_nodup (sm : List (String × Value)) (h : wellKeyedStr sm = true) :
    ((pushedStr sm).map Prod.fst).Nodup := by
  induction sm with
  | nil => simp [pushedStr]
  | cons e r ih =>
    obtain ⟨k, v⟩ := e
    obtain ⟨h1, _, h2, _, h4⟩ := wellKeyedStr_cons k v r h
    simp only [pushedStr]
    split_ifs with hv
    · exact ih h4
    · rw [List.map_cons, List.nodup_cons]
      refine ⟨?_, ih h4⟩
      intro hmem
      obtain ⟨e, he, hk⟩ := pushedStr_keys r h4 _ hmem
      rw [h1] at hk
      simp only [LuaKey.string.injEq] at hk
      have := h2 e he
      rw [hk] at this
      exact lt_irrefl _ this

theorem pushed_keys_nodup (im : List (Int × Value)) (sm : List (String × Value))
    (hi : wellKeyedInt im = true) (hs : wellKeyedStr sm = true) :
    ((pushedInt im ++ pushedStr sm).map Prod.fst).Nodup := by
  rw [List.map_append, List.nodup_append]
  refine ⟨pushedInt_nodup im hi, pushedStr_nodup sm hs, ?_⟩
  intro key h1 h2
  obtain ⟨e1, _, hk1⟩ := pushedInt_keys im hi key h1
  obtain ⟨e2, _, hk2⟩ := pushedStr_keys sm hs key h2
  rw [hk1] at hk2
  simp at hk2

mutual
theorem pushed_wf (v : Value) (h : v.wellKeyed = true) : (pushed v).wf = true := by
  match v with
  | Value.TableValue im sm =>
    simp only [Value.wellKeyed, Bool.and_eq_true] at h
    simp only [pushed, LuaVal.wf, Bool.and_eq_true, decide_eq_true_eq, wfEntries_append]
    exact ⟨pushed_keys_nodup im sm h.1 h.2, pushedInt_wf im h.1, pushedStr_wf sm h.2⟩
  | Value.NilValue => rfl
  | Value.BoolValue _ => rfl
  | Value.CharValue _ => rfl
  | Value.IntValue _ => rfl
  | Value.LongValue _ => rfl
  | Value.DoubleValue _ => rfl
  | Value.StringValue _ => rfl
theorem pushedInt_wf (im : List (Int × Value)) (h : wellKeyedInt im = true) :
    wfEntries (pushedInt im) = true := by
  match im with
  | [] => rfl
  | (k, v) :: r =>
    obtain ⟨_, _, h3, h4⟩ := wellKeyedInt_cons k v r h
    simp only [pushedInt]
    split_ifs with hv
    · exact pushedInt_wf r h4
    · simp only [wfEntries, Bool.and_eq_true]
      exact ⟨pushed_wf v h3, pushedInt_wf r h4⟩
theorem pushedStr_wf (sm : List (String × Value)) (h : wellKeyedStr sm = true) :
    wfEntries (pushedStr sm) = true := by
  match sm with
  | [] => rfl
  | (k, v) :: r =>
    obtain ⟨_, _, _, h3, h4⟩ := wellKeyedStr_cons k v r h
    simp only [pushedStr]
    split_ifs with hv
    · exact pushedStr_wf r h4
    · simp only [wfEntries, Bool.and_eq_true]
      exact ⟨pushed_wf v h3, pushedStr_wf r h4⟩
end

theorem map_assign_last {K : Type} [LinearOrder K] (m : List (K × Value)) (k : K) (v : Value)
    (h : ∀ a ∈ m, a.1 < k) : map_assign m k v = m ++ [(k, v)] := by
  induction m with
  | nil => rfl
  | cons e r ih =>
    obtain ⟨k1, v1⟩ := e
    have h1 : k1 < k := h (k1, v1) (List.mem_cons_self _ _)
    simp only [map_assign, if_neg (lt_asymm h1), if_pos h1, List.cons_append]
    rw [ih (fun a ha => h a (List.mem_cons_of_mem _ ha))]

theorem routeKey_int (k : Int) (w : Value) (t : Table) (hk : inSigned 32 k)
    (hlt : ∀ a ∈ t.int_idx, a.1 < k) :
    routeKey (LuaKey.number (cast_num k)) w t
      = { t with int_idx := t.int_idx ++ [(k, w)] } := by
  have h64 : inSigned 64 k := by
    unfold inSigned at hk ⊢; norm_num at hk ⊢; omega
  simp only [routeKey, LuaKey.toVal, luaV_tonumber, cast_num_int k hk,
    lua_number2integer_intCast k h64, wrapSigned_of_inSigned32 k hk, Table.assign_int,
    wrap_size_t_int k hk, map_assign_last _ k w hlt]

theorem routeKey_str (k : String) (w : Value) (t : Table) (hn : luaO_str2d k = none)
    (hlt : ∀ a ∈ t.str_idx, a.1 < k) :
    routeKey (LuaKey.string k) w t = { t with str_idx := t.str_idx ++ [(k, w)] } := by
  simp only [routeKey, LuaKey.toVal, luaV_tonumber, hn, Table.assign_str,
    map_assign_last _ k w hlt]

mutual
theorem materialize_pushed (v : Value) (h : v.wellKeyed = true) :
    materialize (pushed v) = roundTrip v := by
  match v with
  | Value.TableValue im sm =>
    simp only [Value.wellKeyed, Bool.and_eq_true] at h
    have h1 := materialize_pushedInt im (pushedStr sm) Table.empty h.1 (by simp [Table.empty])
    have h2 := materialize_pushedStr sm
      { int_idx := Table.empty.int_idx ++ roundTripInt im, str_idx := Table.empty.str_idx }
      h.2 (by simp [Table.empty])
    show Value.ofTable (materializeEntries (pushedInt im ++ pushedStr sm) Table.empty) = _
    rw [h1, h2]
    simp [roundTrip, Value.ofTable, Table.empty]
  | Value.NilValue => rfl
  | Value.BoolValue _ => rfl
  | Value.CharValue _ => rfl
  | Value.IntValue _ => rfl
  | Value.LongValue _ => rfl
  | Value.DoubleValue _ => rfl
  | Value.StringValue _ => rfl
theorem materialize_pushedInt (im : List (Int × Value)) (rest : List (LuaKey × LuaVal))
    (t : Table) (h : wellKeyedInt im = true) (hlt : ∀ a ∈ t.int_idx, ∀ e ∈ im, a.1 < e.1) :
    materializeEntries (pushedInt im ++ rest) t
      = materializeEntries rest { t with int_idx := t.int_idx ++ roundTripInt im } := by
  match im with
  | [] => simp [pushedInt, roundTripInt]
  | (k, v) :: r =>
    obtain ⟨h1, h2, h3, h4⟩ := wellKeyedInt_cons k v r h
    cases hv : v.IsNil with
    | true =>
      simp only [pushedInt, roundTripInt, hv, if_true]
      exact materialize_pushedInt r rest t h4
        (fun a ha e he => hlt a ha e (List.mem_cons_of_mem _ he))
    | false =>
      simp only [pushedInt, roundTripInt, hv, Bool.false_eq_true, if_false, List.cons_append,
        materializeEntries]
      rw [routeKey_int k _ t h1 (fun a ha => hlt a ha (k, v) (List.mem_cons_self _ _)),
        materialize_pushed v h3]
      rw [materialize_pushedInt r rest _ h4 (by
        intro a ha e he
        simp only [List.mem_append, List.mem_singleton] at ha
        rcases ha with ha | ha
        · exact hlt a ha e (List.mem_cons_of_mem _ he)
        · rw [ha]; exact h2 e he)]
      simp
theorem materialize_pushedStr (sm : List (String × Value)) (t : Table)
    (h : wellKeyedStr sm = true) (hlt : ∀ a ∈ t.str_idx, ∀ e ∈ sm, a.1 < e.1) :
    materializeEntries (pushedStr sm) t
      = { t with str_idx := t.str_idx ++ roundTripStr sm } := by
  match sm with
  | [] => simp [pushedStr, roundTripStr, materializeEntries]
  | (k, v) :: r =>
    obtain ⟨h0, h1, h2, h3, h4⟩ := wellKeyedStr_cons k v r h
    cases hv : v.IsNil with
    | true =>
      simp only [pushedStr, roundTripStr, hv, if_true]
      exact materialize_pushedStr r t h4
        (fun a ha e he => hlt a ha e (List.mem_cons_of_mem _ he))
    | false =>
      simp only [pushedStr, roundTripStr, hv, Bool.false_eq_true, if_false,
        materializeEntries, h0]
      rw [routeKey_str k _ t h1 (fun a ha => hlt a ha (k, v) (List.mem_cons_self _ _)),
        materialize_pushed v h3]
      rw [materialize_pushedStr r _ h4 (by
        intro a ha e he
        simp only [List.mem_append, List.mem_singleton] at ha
        rcases ha with ha | ha
        · exact hlt a ha e (List.mem_cons_of_mem _ he)
        · rw [ha]; exact h2 e he)]
      simp
end

theorem roundTripInt_eq (im : List (Int × Value)) :
    roundTripInt im = (im.filter (fun e => !e.2.IsNil)).map (fun e => (e.1, roundTrip e.2)) := by
  induction im with
  | nil => rfl
  | cons e r ih =>
    obtain ⟨k, v⟩ := e
    cases hv : v.IsNil <;> simp [roundTripInt, hv, ih]

theorem roundTripStr_eq (sm : List (String × Value)) :
    roundTripStr sm = (sm.filter (fun e => !e.2.IsNil)).map (fun e => (e.1, roundTrip e.2)) := by
  induction sm with
  | nil => rfl
  | cons e r ih =>
    obtain ⟨k, v⟩ := e
    cases hv : v.IsNil <;> simp [roundTripStr, hv, ih]

/-! ## C2: round trip of a table -/

/-- C2, as stated, fails on the values and on the keys.  The string "42" stored under the
integer key 1 comes back as the double 42, whose `string_value()` is empty; in the
scenario of the claim the `int` 42 stored under "k" comes back as a double, not as an
`int`; and the entry stored under the string key "7" comes back in the integer map. -/
theorem table_round_trip_counterexample :
    _push_Value { stack := [] } (Value.TableValue [(1, Value.StringValue "42")] [])
      = Except.ok { stack := [LuaVal.table [(LuaKey.number 1, LuaVal.string "42")]] } ∧
    _get_Value 3 { stack := [LuaVal.table [(LuaKey.number 1, LuaVal.string "42")]] } (-1)
      = Except.ok (Value.TableValue [(1, Value.DoubleValue 42)] [],
          { stack := [LuaVal.table [(LuaKey.number 1, LuaVal.string "42")]] }) ∧
    (Value.DoubleValue 42).string_value ≠ "42" ∧
    _push_Value { stack := [] } (Value.TableValue [] [("k", Value.IntValue 42)])
      = Except.ok { stack := [LuaVal.table [(LuaKey.string "k", LuaVal.number 42)]] } ∧
    _get_Value 3 { stack := [LuaVal.table [(LuaKey.string "k", LuaVal.number 42)]] } (-1)
      = Except.ok (Value.TableValue [] [("k", Value.DoubleValue 42)],
          { stack := [LuaVal.table [(LuaKey.string "k", LuaVal.number 42)]] }) ∧
    (Value.DoubleValue 42).IsInt = false ∧
    _push_Value { stack := [] } (Value.TableValue [] [("7", Value.BoolValue true)])
      = Except.ok { stack := [LuaVal.table [(LuaKey.string "7", LuaVal.boolean true)]] } ∧
    _get_Value 3 { stack := [LuaVal.table [(LuaKey.string "7", LuaVal.boolean true)]] } (-1)
      = Except.ok (Value.TableValue [(7, Value.BoolValue true)] [],
          { stack := [LuaVal.table [(LuaKey.string "7", LuaVal.boolean true)]] }) := by
  decide

/-- C2 (amended): let `v` be a Table-tagged value in which, at every level, the integer keys
are `int`s and the string keys hold no NUL and do not denote a number.  Then `_push(l, v)`
pushes one table, and the dynamic get of the new top slot (given enough fuel) returns a Table
whose integer map and string map hold exactly the entries of `v` whose value is not nil,
under the same keys and in the same order, with no entry for a key whose value is nil; the
value of an entry comes back converted: a boolean and a double unchanged, an `int` as the
double of the same number, a string without numeric meaning unchanged, a string or a
character that denotes a number as that double, a nested table entry by entry. -/
theorem table_round_trip (im : List (Int × Value)) (sm : List (String × Value))
    (l : lua_State) (fuel : Nat) (hk : (Value.TableValue im sm).wellKeyed = true)
    (hf : (pushed (Value.TableValue im sm)).size ≤ fuel) :
    _push_Value l (Value.TableValue im sm)
      = Except.ok (l.push (pushed (Value.TableValue im sm))) ∧
    _get_Value fuel (l.push (pushed (Value.TableValue im sm))) (-1)
      = Except.ok (Value.TableValue (roundTripInt im) (roundTripStr sm),
          l.push (pushed (Value.TableValue im sm))) ∧
    roundTripInt im
      = (im.filter (fun e => !e.2.IsNil)).map (fun e => (e.1, roundTrip e.2)) ∧
    roundTripStr sm
      = (sm.filter (fun e => !e.2.IsNil)).map (fun e => (e.1, roundTrip e.2)) ∧
    (∀ b, roundTrip (Value.BoolValue b) = Value.BoolValue b) ∧
    (∀ d, roundTrip (Value.DoubleValue d) = Value.DoubleValue d) ∧
    (∀ i, inSigned 32 i → roundTrip (Value.IntValue i) = Value.DoubleValue ((i : Int) : ℚ)) ∧
    (∀ s, luaO_str2d s = none → roundTrip (Value.StringValue s) = Value.StringValue s) ∧
    (∀ s n, luaO_str2d s = some n → roundTrip (Value.StringValue s) = Value.DoubleValue n) := by
  have hw := pushed_wf _ hk
  refine ⟨?_, ?_, roundTripInt_eq im, roundTripStr_eq sm, fun _ => rfl, fun _ => rfl, ?_, ?_, ?_⟩
  · exact push_Value_pushed _ l.stack (by simp [Value.IsNil, Value.type]) hw
  · have hg := get_Value_top _ l.stack fuel hw hf
    rw [materialize_pushed _ hk] at hg
    exact hg
  · intro i hi
    simp only [roundTrip, cast_num_int i hi]
  · intro s hs
    simp only [roundTrip, hs]
  · intro s n hs
    simp only [roundTrip, hs]

/-- C2 (amended), on the scenario of the claim: the table with the integer map
`{1: "a", 2: "b"}` and the string map `{"k": 42}` is pushed and comes back with the integer
map `{1: "a", 2: "b"}` and the string map `{"k": 42.0}`. -/
theorem table_round_trip_witness :
    _get_Value 8
        ((lua_State.mk []).push (pushed (Value.TableValue
          [(1, Value.StringValue "a"), (2, Value.StringValue "b")] [("k", Value.IntValue 42)])))
        (-1)
      = Except.ok (Value.TableValue
          [(1, Value.StringValue "a"), (2, Value.StringValue "b")]
          [("k", Value.DoubleValue 42)],
          (lua_State.mk []).push (pushed (Value.TableValue
            [(1, Value.StringValue "a"), (2, Value.StringValue "b")]
            [("k", Value.IntValue 42)]))) :=
  (table_round_trip [(1, Value.StringValue "a"), (2, Value.StringValue "b")]
    [("k", Value.IntValue 42)] (lua_State.mk []) 8 (by decide) (by decide)).2.1

/-! ## C10: pushing a table -/

/-- C10 fails on the code for a string key with an embedded NUL: the entry stored under
the three character key `a`, NUL, `b` is written under the key "a", because
`lua_setfield` is given `item.first.data()` and reads it as a C string; and when the map
also has the key "a", the two entries are written to the same field and one is lost. -/
theorem push_truncates_string_key :
    _push_Value { stack := [] } (Value.TableValue [] [("a\x00b", Value.BoolValue true)])
      = Except.ok { stack := [LuaVal.table [(LuaKey.string "a", LuaVal.boolean true)]] } ∧
    _push_Value { stack := [] }
        (Value.TableValue [] [("a", Value.IntValue 1), ("a\x00b", Value.IntValue 2)])
      = Except.ok { stack := [LuaVal.table [(LuaKey.string "a", LuaVal.number 2)]] } := by
  decide

/-! ## C15: the coercions of a Double-tagged value -/

theorem truncQ_toward_zero (d : lua_Number) :
    (0 ≤ d → truncQ d = ⌊d⌋) ∧ (d ≤ 0 → truncQ d = ⌈d⌉) := by
  constructor
  · intro h
    have hn : 0 ≤ d.num := Rat.num_nonneg.mpr h
    rw [Rat.floor_def]
    unfold truncQ
    exact Int.tdiv_eq_ediv hn (by positivity)
  · intro h
    have hn : 0 ≤ (-d).num := Rat.num_nonneg.mpr (by linarith)
    have hc : ⌈d⌉ = -⌊-d⌋ := by rw [Int.floor_neg]; simp
    rw [hc, Rat.floor_def]
    unfold truncQ
    have h1 : (-d).num.tdiv (-d).den = (-d).num / (-d).den :=
      Int.tdiv_eq_ediv hn (by positivity)
    rw [← h1]
    simp [Int.neg_tdiv]

/-- C15: for every double `d`, `Value(d).int_value()` is `d` truncated toward zero when
that integer is an `int`, `Value(d).long_value()` is `d` truncated toward zero when that
integer is a `long`, `Value(d).double_value()` is `d` and `Value(d).bool_value()` is false;
the truncation is the floor of a non-negative and the ceiling of a non-positive number. -/
theorem double_coercion (d : lua_Number) :
    (inSigned 32 (truncQ d) → (Value.of_double d).int_value = truncQ d) ∧
    (inSigned 64 (truncQ d) → (Value.of_double d).long_value = truncQ d) ∧
    (Value.of_double d).double_value = d ∧
    (Value.of_double d).bool_value = false ∧
    (0 ≤ d → truncQ d = ⌊d⌋) ∧ (d ≤ 0 → truncQ d = ⌈d⌉) := by
  refine ⟨?_, ?_, rfl, rfl, (truncQ_toward_zero d).1, (truncQ_toward_zero d).2⟩
  · intro h
    simp [Value.of_double, Value.int_value, fpToSigned, h]
  · intro h
    simp [Value.of_double, Value.long_value, fpToSigned, h]

/-- C15, at the value 3.7 of the claim: `int_value()` is 3, and at -3.7 it is -3. -/
theorem double_coercion_witness :
    (Value.of_double (mkRat 37 10)).int_value = 3 ∧
    (Value.of_double (mkRat (-37) 10)).int_value = -3 :=
  ⟨(double_coercion (mkRat 37 10)).1 (by decide),
   (double_coercion (mkRat (-37) 10)).1 (by decide)⟩

/-! ## C16: the constructors -/

/-- C16: `Value()` has the tag Nil; `Value(x)` has the tag of the kind of `x` and the
accessor of that kind returns `x` (for a `const char*` the string it points to, for a keyed
map a table whose corresponding map is `x` and whose other map is empty); and for every
value exactly one of the eight predicates is true, each predicate being true exactly when
the tag is its own. -/
theorem constructor_postcondition :
    Value.of_nothing.type = ValueType.Nil ∧
    (∀ x, (Value.of_bool x).type = ValueType.Boolean ∧ (Value.of_bool x).bool_value = x) ∧
    (∀ x, (Value.of_char x).type = ValueType.Char ∧ (Value.of_char x).char_value = x) ∧
    (∀ x, (Value.of_int x).type = ValueType.Integer ∧ (Value.of_int x).int_value = x) ∧
    (∀ x, (Value.of_long x).type = ValueType.Long ∧ (Value.of_long x).long_value = x) ∧
    (∀ x, (Value.of_double x).type = ValueType.Double ∧ (Value.of_double x).double_value = x) ∧
    (∀ x, (Value.of_c_str x).type = ValueType.String ∧
      (Value.of_c_str x).string_value = c_str x) ∧
    (∀ x, (Value.of_string x).type = ValueType.String ∧ (Value.of_string x).string_value = x) ∧
    (∀ x, (Value.ofTable x).type = ValueType.Table ∧ (Value.ofTable x).table_value = x) ∧
    (∀ x, (Value.of_int_map x).type = ValueType.Table ∧
      (Value.of_int_map x).table_value = { int_idx := x, str_idx := [] }) ∧
    (∀ x, (Value.of_str_map x).type = ValueType.Table ∧
      (Value.of_str_map x).table_value = { int_idx := [], str_idx := x }) ∧
    (∀ v : Value,
      v.predicates.count true = 1 ∧
      (v.IsNil = true ↔ v.type = ValueType.Nil) ∧
      (v.IsBool = true ↔ v.type = ValueType.Boolean) ∧
      (v.IsChar = true ↔ v.type = ValueType.Char) ∧
      (v.IsInt = true ↔ v.type = ValueType.Integer) ∧
      (v.IsLong = true ↔ v.type = ValueType.Long) ∧
      (v.IsDouble = true ↔ v.type = ValueType.Double) ∧
      (v.IsString = true ↔ v.type = ValueType.String) ∧
      (v.IsTable = true ↔ v.type = ValueType.Table)) := by
  refine ⟨rfl, fun _ => ⟨rfl, rfl⟩, fun _ => ⟨rfl, rfl⟩, fun _ => ⟨rfl, rfl⟩,
    fun _ => ⟨rfl, rfl⟩, fun _ => ⟨rfl, rfl⟩, fun _ => ⟨rfl, rfl⟩, fun _ => ⟨rfl, rfl⟩,
    fun _ => ⟨rfl, rfl⟩, fun _ => ⟨rfl, rfl⟩, fun _ => ⟨rfl, rfl⟩, ?_⟩
  intro v
  cases v <;>
    simp [Value.predicates, Value.IsNil, Value.IsBool, Value.IsChar, Value.IsInt,
      Value.IsLong, Value.IsDouble, Value.IsString, Value.IsTable, Value.type]

/-! ## C17: checked and unchecked getters on a slot that satisfies the type -/

theorem checked_get_agrees (T : _id) (fuel : Nat) (l : lua_State) (index : Int)
    (r : HostVal × lua_State) (hT : T ≠ _id.long_unsigned_int)
    (h : _check_get T fuel l index = Except.ok r) : _get T fuel l index = Except.ok r := by
  cases T
  case long_unsigned_int => exact absurd rfl hT
  case bool => exact h
  case Value => exact h
  case char =>
    simp only [_check_get, _check_get_char, luaL_checkstring, luaL_checklstring] at h
    simp only [_get, _get_char, lua_tostring]
    cases hs : lua_tolstring l index with
    | mk o l1 =>
      cases o with
      | none => simp [hs, Except.map] at h
      | some x => simpa [hs, Except.map] using h
  case string =>
    simp only [_check_get, _check_get_string, luaL_checklstring] at h
    simp only [_get, _get_string]
    cases hs : lua_tolstring l index with
    | mk o l1 =>
      cases o with
      | none => simp [hs, Except.map] at h
      | some x => simpa [hs, Except.map] using h
  all_goals
    simp only [_check_get, _check_get_int, _check_get_unsigned_int, _check_get_long,
      _check_get_lua_Number, luaL_checkint, luaL_checklong, luaL_checkunsigned,
      luaL_checkinteger, luaL_checknumber] at h
    simp only [_get, _get_int, _get_unsigned_int, _get_long, _get_lua_Number, lua_tointeger,
      lua_tounsigned, lua_tonumber]
    cases hv : l.slot index with
    | none => simp [hv, Except.map] at h
    | some v =>
      cases hn : luaV_tonumber v with
      | none => simp [hv, hn, Except.map] at h
      | some n =>
        have h64 : wrapSigned 64 (lua_number2integer n) = lua_number2integer n := by
          apply wrapSigned_of_inSigned64
          unfold lua_number2integer fpToSigned
          split
          · assumption
          · unfold inSigned; norm_num
        simp [hv, hn, Except.map, h64] at h ⊢
        exact h

/-- C17 fails on the code for `unsigned long`: on a slot holding the number 4294967301
(which is `2^32 + 5`) the checked getter, which goes through `luaL_checklong`, returns
4294967301, and the unchecked getter, which goes through `lua_tounsigned`, returns 5; on a
slot holding -1 the checked getter returns `2^64 - 1` and the unchecked one `2^32 - 1`. -/
theorem checked_unsigned_long_differs :
    _check_get _id.long_unsigned_int 0 { stack := [LuaVal.number 4294967301] } 1
      = Except.ok (HostVal.long_unsigned_int 4294967301,
          { stack := [LuaVal.number 4294967301] }) ∧
    _get _id.long_unsigned_int 0 { stack := [LuaVal.number 4294967301] } 1
      = Except.ok (HostVal.long_unsigned_int 5, { stack := [LuaVal.number 4294967301] }) ∧
    _check_get _id.long_unsigned_int 0 { stack := [LuaVal.number (-1)] } 1
      = Except.ok (HostVal.long_unsigned_int 18446744073709551615,
          { stack := [LuaVal.number (-1)] }) ∧
    _get _id.long_unsigned_int 0 { stack := [LuaVal.number (-1)] } 1
      = Except.ok (HostVal.long_unsigned_int 4294967295, { stack := [LuaVal.number (-1)] }) := by
  decide

/-! ## C20: the dynamic get of a table below the top -/

theorem get_Value_table_any_index (l : lua_State) (index : Int) (ei es : List (LuaKey × LuaVal))
    (s : List LuaVal) (fuel : Nat) (hs : l.stack = s ++ [LuaVal.table es])
    (hi : l.slot index = some (LuaVal.table ei)) (hw : (LuaVal.table es).wf = true)
    (hf : (LuaVal.table es).size ≤ fuel) :
    _get_Value fuel l index = Except.ok (materialize (LuaVal.table es), l) := by
  have hl : l = lua_State.mk (s ++ [LuaVal.table es]) := lua_State_eq_of_stack _ _ hs
  cases fuel with
  | zero => simp [LuaVal.size] at hf
  | succ n =>
    simp only [LuaVal.wf, Bool.and_eq_true, decide_eq_true_eq] at hw
    simp only [LuaVal.size] at hf
    have hloop := (get_Value_top_aux n).2 es [] s LuaVal.nil Table.empty
      (by simpa using hw.1) hw.2 (by omega) (by simp [luaH_next])
    simp only [List.nil_append] at hloop
    have hp : lua_pushnil l = lua_State.mk (s ++ [LuaVal.table es, LuaVal.nil]) := by
      rw [hl]; simp [lua_pushnil, lua_State.push]
    simp only [_get_Value, lua_isnil, lua_isboolean, lua_isnumber, lua_isstring, lua_istable,
      lua_type, hi, LuaVal.ttype, luaV_tonumber, luaL_checktype, hp, hloop, materialize]
    simp [← hl]

theorem get_Value_loop_flat (fuel : Nat) (l : lua_State) (top x : LuaVal) (s : List LuaVal)
    (t : Table) (hs : l.stack = s ++ [top, x]) (ht : top.ttype ≠ LuaType.TTABLE) :
    _get_Value_loop (fuel + 1) l t = Except.error Fault.apiViolation := by
  have hl : l = lua_State.mk (s ++ [top, x]) := lua_State_eq_of_stack _ _ hs
  rw [hl]
  simp only [_get_Value_loop, lua_next, slot_last2]
  cases top <;> simp [LuaVal.ttype] at ht <;> simp

theorem get_Value_table_under_flat (l : lua_State) (index : Int) (ei : List (LuaKey × LuaVal))
    (top : LuaVal) (s : List LuaVal) (fuel : Nat) (hs : l.stack = s ++ [top])
    (hi : l.slot index = some (LuaVal.table ei)) (ht : top.ttype ≠ LuaType.TTABLE) :
    _get_Value (fuel + 2) l index = Except.error Fault.apiViolation := by
  have hp : (lua_pushnil l).stack = s ++ [top, LuaVal.nil] := by
    simp [lua_pushnil, lua_State.push, hs]
  simp only [_get_Value, lua_isnil, lua_isboolean, lua_isnumber, lua_isstring, lua_istable,
    lua_type, hi, LuaVal.ttype, luaV_tonumber, luaL_checktype,
    get_Value_loop_flat fuel (lua_pushnil l) top LuaVal.nil s Table.empty hp ht]
  simp

set_option maxRecDepth 8000 in
/-- C20 fails on the code for a table that is not on top of the stack.  On the stack
that holds the table `{1: true}` at index 1 and the table `{2: false}` on top, the dynamic
get at index 1 (and at index -2) returns the materialisation of the table on top,
`{2: false}`, and with no amount of fuel the materialisation `{1: true}` of the table at
index 1: the loop calls `lua_next(l, -2)`, which after `lua_pushnil` is the old top slot,
whatever `index` is.  When the slot on top is not a table (here nil), `lua_next` is called
on a value that is not a table and the call never returns a value. -/
theorem dynamic_get_below_top :
    (∀ fuel, _get_Value fuel
        { stack := [LuaVal.table [(LuaKey.number 1, LuaVal.boolean true)],
          LuaVal.table [(LuaKey.number 2, LuaVal.boolean false)]] } 1
      ≠ Except.ok (Value.TableValue [(1, Value.BoolValue true)] [],
        { stack := [LuaVal.table [(LuaKey.number 1, LuaVal.boolean true)],
          LuaVal.table [(LuaKey.number 2, LuaVal.boolean false)]] })) ∧
    _get_Value 4
        { stack := [LuaVal.table [(LuaKey.number 1, LuaVal.boolean true)],
          LuaVal.table [(LuaKey.number 2, LuaVal.boolean false)]] } 1
      = Except.ok (Value.TableValue [(2, Value.BoolValue false)] [],
        { stack := [LuaVal.table [(LuaKey.number 1, LuaVal.boolean true)],
          LuaVal.table [(LuaKey.number 2, LuaVal.boolean false)]] }) ∧
    _get_Value 4
        { stack := [LuaVal.table [(LuaKey.number 1, LuaVal.boolean true)],
          LuaVal.table [(LuaKey.number 2, LuaVal.boolean false)]] } (-2)
      = Except.ok (Value.TableValue [(2, Value.BoolValue false)] [],
        { stack := [LuaVal.table [(LuaKey.number 1, LuaVal.boolean true)],
          LuaVal.table [(LuaKey.number 2, LuaVal.boolean false)]] }) ∧
    _get_Value 2 { stack := [LuaVal.table [(LuaKey.number 1, LuaVal.boolean true)], LuaVal.nil] } 1
      = Except.error Fault.apiViolation ∧
    (∀ fuel v l1, _get_Value fuel { stack := [LuaVal.table [(LuaKey.number 1, LuaVal.boolean true)], LuaVal.nil] } 1
      ≠ Except.ok (v, l1)) := by
  refine ⟨?_, by decide, by decide, by decide, ?_⟩
  · intro fuel
    by_cases h : 4 ≤ fuel
    · have hg := get_Value_table_any_index
        { stack := [LuaVal.table [(LuaKey.number 1, LuaVal.boolean true)],
          LuaVal.table [(LuaKey.number 2, LuaVal.boolean false)]] }
        1 [(LuaKey.number 1, LuaVal.boolean true)]
        [(LuaKey.number 2, LuaVal.boolean false)]
        [LuaVal.table [(LuaKey.number 1, LuaVal.boolean true)]] fuel rfl (by decide)
        (by decide) (by simpa [LuaVal.size, sizeEntries] using h)
      rw [hg]
      decide
    · have h3 : fuel < 4 := by omega
      interval_cases fuel <;> decide
  · intro fuel v l1
    by_cases h : 2 ≤ fuel
    · obtain ⟨n, rfl⟩ : ∃ n, fuel = n + 2 := ⟨fuel - 2, by omega⟩
      have hg := get_Value_table_under_flat
        { stack := [LuaVal.table [(LuaKey.number 1, LuaVal.boolean true)], LuaVal.nil] }
        1 [(LuaKey.number 1, LuaVal.boolean true)] LuaVal.nil
        [LuaVal.table [(LuaKey.number 1, LuaVal.boolean true)]] n rfl (by decide) (by decide)
      rw [hg]
      simp
    · have h3 : fuel < 2 := by omega
      interval_cases fuel <;> simp [_get_Value, _get_Value_loop, lua_isnil, lua_isboolean,
        lua_isnumber, lua_isstring, lua_istable, lua_type, lua_State.slot, index2addr,
        lua_gettop, LuaVal.ttype, luaV_tonumber, luaL_checktype]

/-! ## C18: the routing of keys in the dynamic get -/

theorem inSigned32_wrapSigned (z : Int) : inSigned 32 (wrapSigned 32 z) := by
  unfold inSigned wrapSigned
  norm_num
  omega

theorem routeKey_eq (k : LuaKey) (w : Value) (t : Table) :
    routeKey k w t
      = (match intKeyOf k with
          | some i => { t with int_idx := map_assign t.int_idx i w }
          | none =>
            match strKeyOf k with
            | some x => { t with str_idx := map_assign t.str_idx x w }
            | none => t) := by
  unfold routeKey intKeyOf strKeyOf
  cases hk : luaV_tonumber k.toVal with
  | some n =>
    simp only [Table.assign_int, wrap_size_t_int _ (inSigned32_wrapSigned _)]
  | none =>
    cases k <;> simp [Table.assign_str]

theorem map_find_assign {K : Type} [DecidableEq K] [LinearOrder K] (m : List (K × Value))
    (k k1 : K) (v : Value) :
    map_find (map_assign m k v) k1 = if k1 = k then some v else map_find m k1 := by
  induction m with
  | nil =>
    by_cases h : k1 = k
    · simp [map_assign, map_find, h]
    · simp [map_assign, map_find, h, Ne.symm h]
  | cons e r ih =>
    obtain ⟨k2, v2⟩ := e
    simp only [map_assign]
    by_cases h1 : k < k2
    · rw [if_pos h1]
      by_cases h : k1 = k
      · simp [map_find, h]
      · simp [map_find, h, Ne.symm h]
    · rw [if_neg h1]
      by_cases h2 : k2 < k
      · rw [if_pos h2]
        simp only [map_find, ih]
        by_cases h : k1 = k
        · have : k2 ≠ k1 := by rw [h]; exact ne_of_lt h2
          simp [h, this, ne_of_lt h2]
        · simp [h]
      · rw [if_neg h2]
        have hk : k2 = k := le_antisymm (not_lt.mp h1) (not_lt.mp h2)
        by_cases h : k1 = k
        · simp [map_find, h]
        · simp [map_find, h, Ne.symm h, hk]

theorem lastPair_cons (p : LuaKey → Bool) (e : LuaKey × LuaVal) (r : List (LuaKey × LuaVal)) :
    lastPair p (e :: r)
      = (match lastPair p r with
          | some x => some x
          | none => if p e.1 then some e else none) := by
  unfold lastPair
  rw [List.reverse_cons, List.find?_append]
  cases h : List.find? (fun e => p e.1) r.reverse with
  | some x => simp
  | none =>
    by_cases hp : p e.1 = true
    · simp [List.find?, hp]
    · simp [List.find?, hp]

theorem materializeEntries_int_find (es : List (LuaKey × LuaVal)) :
    ∀ (t : Table) (i : Int),
      map_find (materializeEntries es t).int_idx i
        = (match lastPair (fun k => decide (intKeyOf k = some i)) es with
            | some e => some (materialize e.2)
            | none => map_find t.int_idx i) := by
  induction es with
  | nil => intro t i; simp [materializeEntries, lastPair]
  | cons e r ih =>
    obtain ⟨k, v⟩ := e
    intro t i
    simp only [materializeEntries]
    rw [ih, lastPair_cons]
    cases h : lastPair (fun k => decide (intKeyOf k = some i)) r with
    | some x => rfl
    | none =>
      simp only [routeKey_eq]
      cases hk : intKeyOf k with
      | some i1 =>
        simp only [map_find_assign, decide_eq_true_eq, Option.some.injEq]
        by_cases hi : i = i1
        · simp [hi]
        · simp [hi, Ne.symm hi]
      | none =>
        cases hs : strKeyOf k <;> simp

theorem materializeEntries_str_find (es : List (LuaKey × LuaVal)) :
    ∀ (t : Table) (x : String),
      map_find (materializeEntries es t).str_idx x
        = (match lastPair (fun k => decide (strKeyOf k = some x)) es with
            | some e => some (materialize e.2)
            | none => map_find t.str_idx x) := by
  induction es with
  | nil => intro t x; simp [materializeEntries, lastPair]
  | cons e r ih =>
    obtain ⟨k, v⟩ := e
    intro t x
    simp only [materializeEntries]
    rw [ih, lastPair_cons]
    cases h : lastPair (fun k => decide (strKeyOf k = some x)) r with
    | some y => rfl
    | none =>
      simp only [routeKey_eq]
      cases hk : intKeyOf k with
      | some i1 =>
        have hs : strKeyOf k = none := by
          unfold intKeyOf at hk
          unfold strKeyOf
          cases hn : luaV_tonumber k.toVal with
          | none => simp [hn] at hk
          | some n => rfl
        simp [hs]
      | none =>
        cases hs : strKeyOf k with
        | none => simp
        | some x1 =>
          simp only [map_find_assign, decide_eq_true_eq, Option.some.injEq]
          by_cases hx : x = x1
          · simp [hx]
          · simp [hx, Ne.symm hx]

theorem wf_of_mem_entries (es : List (LuaKey × LuaVal)) (h : wfEntries es = true) :
    ∀ e ∈ es, e.2.wf = true ∧ e.2.size ≤ sizeEntries es := by
  induction es with
  | nil => simp
  | cons e0 r ih =>
    obtain ⟨k, v⟩ := e0
    simp only [wfEntries, Bool.and_eq_true] at h
    intro e he
    simp only [List.mem_cons] at he
    rcases he with he | he
    · rw [he]
      exact ⟨h.1, by simp only [sizeEntries]; omega⟩
    · have := ih h.2 e he
      exact ⟨this.1, by simp only [sizeEntries]; omega⟩

/-- C18, as stated, fails.  A pair whose key is neither a number nor a string (here the
key `true`) is dropped, not put in the string map; a pair whose key is a string that
denotes a number (here "7") is put in the integer map; and a number key is narrowed to an
`int`, so the pairs with the keys 1 and 1.5 are both filed under 1 and only one of them
is left. -/
theorem key_routing_counterexample :
    _get_Value 4 { stack := [LuaVal.table [(LuaKey.boolean true, LuaVal.number 1)]] } (-1)
      = Except.ok (Value.TableValue [] [],
          { stack := [LuaVal.table [(LuaKey.boolean true, LuaVal.number 1)]] }) ∧
    _get_Value 4 { stack := [LuaVal.table [(LuaKey.string "7", LuaVal.boolean true)]] } (-1)
      = Except.ok (Value.TableValue [(7, Value.BoolValue true)] [],
          { stack := [LuaVal.table [(LuaKey.string "7", LuaVal.boolean true)]] }) ∧
    _get_Value 6
        { stack := [LuaVal.table [(LuaKey.number 1, LuaVal.string "a"),
          (LuaKey.number (mkRat 3 2), LuaVal.string "b")]] } (-1)
      = Except.ok (Value.TableValue [(1, Value.StringValue "b")] [],
          { stack := [LuaVal.table [(LuaKey.number 1, LuaVal.string "a"),
            (LuaKey.number (mkRat 3 2), LuaVal.string "b")]] }) := by
  decide

/-- C18 (amended): for a table on top of the stack (with enough fuel) the dynamic get
returns a Table `t` and leaves the stack as it was.  Under an `int` key `i` the integer map
of `t` holds the materialised value of the last pair of the foreign table whose key is a
number, or a string denoting a number, that converts to `i` (conversion by `lua_tointeger`,
narrowed to `int`), and no entry if there is no such pair; under a string key `x` the
string map holds the materialised value of the pair whose key is the string `x`, if `x`
does not denote a number; a pair whose key is neither a number nor a string is dropped.
Every value is what the dynamic get returns for the foreign value, and a slot that is none
of nil, boolean, number, string, table materialises as Nil. -/
theorem key_routing (es : List (LuaKey × LuaVal)) (s : List LuaVal) (fuel : Nat)
    (hw : (LuaVal.table es).wf = true) (hf : (LuaVal.table es).size ≤ fuel) :
    ∃ t : Table,
      _get_Value fuel (lua_State.mk (s ++ [LuaVal.table es])) (-1)
        = Except.ok (Value.ofTable t, lua_State.mk (s ++ [LuaVal.table es])) ∧
      (∀ i, map_find t.int_idx i
        = (lastPair (fun k => decide (intKeyOf k = some i)) es).map
            (fun e => materialize e.2)) ∧
      (∀ x, map_find t.str_idx x
        = (lastPair (fun k => decide (strKeyOf k = some x)) es).map
            (fun e => materialize e.2)) ∧
      (∀ e ∈ es, ∀ s1, _get_Value fuel (lua_State.mk (s1 ++ [e.2])) (-1)
        = Except.ok (materialize e.2, lua_State.mk (s1 ++ [e.2]))) ∧
      (∀ n, intKeyOf (LuaKey.number n) = some (wrapSigned 32 (lua_number2integer n)) ∧
        strKeyOf (LuaKey.number n) = none) ∧
      (∀ x n, luaO_str2d x = some n →
        intKeyOf (LuaKey.string x) = some (wrapSigned 32 (lua_number2integer n)) ∧
        strKeyOf (LuaKey.string x) = none) ∧
      (∀ x, luaO_str2d x = none →
        intKeyOf (LuaKey.string x) = none ∧ strKeyOf (LuaKey.string x) = some x) ∧
      (∀ b, intKeyOf (LuaKey.boolean b) = none ∧ strKeyOf (LuaKey.boolean b) = none) ∧
      (∀ q, intKeyOf (LuaKey.lightuserdata q) = none ∧
        strKeyOf (LuaKey.lightuserdata q) = none) ∧
      (∀ q s1, _get_Value fuel (lua_State.mk (s1 ++ [LuaVal.lightuserdata q])) (-1)
        = Except.ok (Value.NilValue, lua_State.mk (s1 ++ [LuaVal.lightuserdata q]))) := by
  have hg := get_Value_top (LuaVal.table es) s fuel hw hf
  have hw2 := hw
  simp only [LuaVal.wf, Bool.and_eq_true, decide_eq_true_eq] at hw2
  have hf2 := hf
  simp only [LuaVal.size] at hf2
  refine ⟨materializeEntries es Table.empty, ?_, ?_, ?_, ?_, ?_, ?_, ?_, ?_, ?_, ?_⟩
  · rw [hg]; rfl
  · intro i
    rw [materializeEntries_int_find]
    cases lastPair (fun k => decide (intKeyOf k = some i)) es <;> simp [Table.empty, map_find]
  · intro x
    rw [materializeEntries_str_find]
    cases lastPair (fun k => decide (strKeyOf k = some x)) es <;> simp [Table.empty, map_find]
  · intro e he s1
    have := wf_of_mem_entries es hw2.2 e he
    exact get_Value_top e.2 s1 fuel this.1 (by omega)
  · intro n
    simp [intKeyOf, strKeyOf, LuaKey.toVal, luaV_tonumber]
  · intro x n hx
    simp [intKeyOf, strKeyOf, LuaKey.toVal, luaV_tonumber, hx]
  · intro x hx
    simp [intKeyOf, strKeyOf, LuaKey.toVal, luaV_tonumber, hx]
  · intro b
    simp [intKeyOf, strKeyOf, LuaKey.toVal, luaV_tonumber]
  · intro q
    simp [intKeyOf, strKeyOf, LuaKey.toVal, luaV_tonumber]
  · intro q s1
    exact get_Value_top (LuaVal.lightuserdata q) s1 fuel rfl (by simp only [LuaVal.size]; omega)

/-- C18 (amended), for the table `{1: "a", "k": 42}` on top of an empty stack: the dynamic
get returns a Table. -/
theorem key_routing_witness :
    ∃ t : Table,
      _get_Value 6
          (lua_State.mk ([] ++ [LuaVal.table [(LuaKey.number 1, LuaVal.string "a"),
            (LuaKey.string "k", LuaVal.number 42)]])) (-1)
        = Except.ok (Value.ofTable t,
            lua_State.mk ([] ++ [LuaVal.table [(LuaKey.number 1, LuaVal.string "a"),
              (LuaKey.string "k", LuaVal.number 42)]])) ∧
      map_find t.int_idx 1 = some (Value.StringValue "a") ∧
      map_find t.str_idx "k" = some (Value.DoubleValue 42) :=
  (key_routing [(LuaKey.number 1, LuaVal.string "a"), (LuaKey.string "k", LuaVal.number 42)]
    [] 6 (by decide) (by decide)).imp
    (fun t h => ⟨h.1, by rw [h.2.1 1]; decide, by rw [h.2.2.1 "k"]; decide⟩)

/-! ## C19: the depth of the stack after pushing a `Value` -/

theorem lua_rawset_top_any (s : List LuaVal) (es : List (LuaKey × LuaVal)) (k : LuaKey)
    (v : LuaVal) :
    lua_rawset_top (lua_State.mk (s ++ [LuaVal.table es, v])) (-2) k
      = Except.ok (lua_State.mk (s ++ [LuaVal.table (luaH_set es k v)])) := by
  unfold lua_rawset_top
  rw [index2addr_last2, slot_last2]
  have hl : (s ++ [LuaVal.table es, v]).getLast? = some v := by simp
  simp only [hl]
  have hlen : s.length + 1 < (s ++ [LuaVal.table es, v]).length := by simp
  rw [if_pos hlen]
  congr 2
  rw [List.set_append_right _ _ (Nat.le_refl _)]
  simp only [Nat.sub_self, List.set_cons_zero]
  rw [show s ++ [LuaVal.table (luaH_set es k v), v]
      = (s ++ [LuaVal.table (luaH_set es k v)]) ++ [v] by simp]
  exact List.dropLast_concat

theorem push_Value_scalar_written (l : lua_State) (v : Value) (hn : v.IsNil = false)
    (ht : v.IsTable = false) : _push_Value_scalars l v = l.push (written v) := by
  cases v <;> simp [Value.IsNil, Value.IsTable, Value.type] at hn ht <;>
    simp [_push_Value_scalars, Value.IsBool, Value.IsChar, Value.IsInt, Value.IsLong,
      Value.IsDouble, Value.IsString, Value.type, written, _push_bool, _push_char,
      _push_int, _push_long, _push_lua_Number, _push_string, lua_pushboolean,
      lua_pushlstring, lua_pushinteger, lua_pushnumber, Value.bool_value, Value.char_value,
      Value.int_value, Value.long_value, Value.double_value, Value.string_value]

mutual
theorem push_Value_written (v : Value) (s : List LuaVal) (hn : v.IsNil = false) :
    _push_Value (lua_State.mk s) v = Except.ok (lua_State.mk (s ++ [written v])) := by
  match v with
  | Value.TableValue im sm =>
    have hsc : _push_Value_scalars (lua_State.mk s) (Value.TableValue im sm)
        = lua_State.mk s := by
      simp [_push_Value_scalars, Value.IsBool, Value.IsChar, Value.IsInt, Value.IsLong,
        Value.IsDouble, Value.IsString, Value.type]
    have h1 := push_int_items_written im s []
    have h2 := push_str_items_written sm s (writtenInt [] im)
    simp only [_push_Value, hsc, lua_createtable, lua_State.push, h1, h2, written]
  | Value.NilValue => simp [Value.IsNil, Value.type] at hn
  | Value.BoolValue b =>
    simp only [_push_Value, push_Value_scalar_written _ _ hn rfl, lua_State.push]
  | Value.CharValue c =>
    simp only [_push_Value, push_Value_scalar_written _ _ hn rfl, lua_State.push]
  | Value.IntValue i =>
    simp only [_push_Value, push_Value_scalar_written _ _ hn rfl, lua_State.push]
  | Value.LongValue i =>
    simp only [_push_Value, push_Value_scalar_written _ _ hn rfl, lua_State.push]
  | Value.DoubleValue d =>
    simp only [_push_Value, push_Value_scalar_written _ _ hn rfl, lua_State.push]
  | Value.StringValue x =>
    simp only [_push_Value, push_Value_scalar_written _ _ hn rfl, lua_State.push]
theorem push_int_items_written (im : List (Int × Value)) (s : List LuaVal)
    (es : List (LuaKey × LuaVal)) :
    _push_int_items (lua_State.mk (s ++ [LuaVal.table es])) im
      = Except.ok (lua_State.mk (s ++ [LuaVal.table (writtenInt es im)])) := by
  match im with
  | [] => simp [_push_int_items, writtenInt]
  | (k, v) :: r =>
    cases hv : v.IsNil with
    | true =>
      simp only [_push_int_items, writtenInt, hv, Bool.not_true, Bool.false_eq_true, if_false,
        if_true]
      exact push_int_items_written r s es
    | false =>
      have hpush := push_Value_written v (s ++ [LuaVal.table es]) hv
      simp only [List.append_assoc, List.singleton_append] at hpush
      simp only [_push_int_items, writtenInt, hv, Bool.not_false, if_true, hpush, lua_rawseti,
        lua_rawset_top_any, Bool.false_eq_true, if_false]
      exact push_int_items_written r s _
theorem push_str_items_written (sm : List (String × Value)) (s : List LuaVal)
    (es : List (LuaKey × LuaVal)) :
    _push_str_items (lua_State.mk (s ++ [LuaVal.table es])) sm
      = Except.ok (lua_State.mk (s ++ [LuaVal.table (writtenStr es sm)])) := by
  match sm with
  | [] => simp [_push_str_items, writtenStr]
  | (k, v) :: r =>
    cases hv : v.IsNil with
    | true =>
      simp only [_push_str_items, writtenStr, hv, Bool.not_true, Bool.false_eq_true, if_false,
        if_true]
      exact push_str_items_written r s es
    | false =>
      have hpush := push_Value_written v (s ++ [LuaVal.table es]) hv
      simp only [List.append_assoc, List.singleton_append] at hpush
      simp only [_push_str_items, writtenStr, hv, Bool.not_false, if_true, hpush, lua_setfield,
        lua_rawset_top_any, Bool.false_eq_true, if_false]
      exact push_str_items_written r s _
end

theorem push_Value_nil (l : lua_State) : _push_Value l Value.NilValue = Except.ok l := by
  simp [_push_Value, _push_Value_scalars, Value.IsBool, Value.IsChar, Value.IsInt,
    Value.IsLong, Value.IsDouble, Value.IsString, Value.type]

theorem push_Value_depth (l : lua_State) (v : Value) :
    _push_Value l v = Except.ok (if v.IsNil then l else l.push (written v)) := by
  cases hv : v.IsNil with
  | true =>
    have : v = Value.NilValue := by
      cases v <;> simp [Value.IsNil, Value.type] at hv
      rfl
    subst this
    simpa using push_Value_nil l
  | false =>
    simpa using push_Value_written v l.stack hv

/-- C19 fails on the code for the Nil tag: `_push(l, Value)` has a branch for each of the
seven other tags and none for Nil, so pushing a Nil value leaves every stack as it is, with
no nil slot on top; `_set`, which pops the slot it expects `_push` to have pushed, then
consumes a slot of the caller: on the stack `1, 2` (bottom first), `_set(l, Value(), 1)`
leaves the single slot 2 instead of the slots nil, 2.  For each of the seven other tags one
slot is pushed and the slots below are unchanged. -/
theorem nil_value_pushes_nothing :
    (∀ l : lua_State, _push_Value l Value.NilValue = Except.ok l) ∧
    _set { stack := [LuaVal.number 1, LuaVal.number 2] } (HostVal.Value Value.NilValue) 1
      = Except.ok { stack := [LuaVal.number 2] } ∧
    (∀ (v : Value) (l : lua_State),
      _push_Value l v = Except.ok (if v.IsNil then l else l.push (written v))) := by
  exact ⟨push_Value_nil, by decide, fun v l => push_Value_depth l v⟩

/-! ## C12: pushing a pointer -/

/-- C12, as stated, fails for a pointer whose type has no metatable name when a light
userdata metatable is already in place.  With a registry that knows the name "A" for the
type 1 only, pushing a pointer of type 1 and then a pointer of type 2 leaves two light
userdata on the stack; the lookup for type 2 returns no name, and yet the slot pushed for
it has the metatable "A", because all light userdata share one metatable. -/
theorem pointer_push_counterexample :
    _push_m_pointer { L := { stack := [] }, lightuserdata_mt := none }
        registry_A 1 100
      = Except.ok
          { L := { stack := [LuaVal.lightuserdata 100] },
            lightuserdata_mt := some "A" } ∧
    _push_m_pointer
        { L := { stack := [LuaVal.lightuserdata 100] },
          lightuserdata_mt := some "A" }
        registry_A 2 200
      = Except.ok
          { L := { stack := [LuaVal.lightuserdata 100, LuaVal.lightuserdata 200] },
            lightuserdata_mt := some "A" } ∧
    registry_A.Find 2 = none ∧
    lua_getmetatable
        { L := { stack := [LuaVal.lightuserdata 100, LuaVal.lightuserdata 200] },
          lightuserdata_mt := some "A" } (-1) = some "A" := by
  decide

/-- C12 (amended): `_push(l, m, p)` pushes exactly one slot and leaves the slots below
unchanged.  For a null `p` the slot is nil, it has no metatable, and the metatable of light
userdata is left as it was.  For a non-null `p` the slot is the light userdata of the
address; if `m.Find(typeid(T))` returns a name, the metatable registered under that name
(read as a C string) becomes the metatable of the slot and of all light userdata; if it
returns no name, no metatable is set, and the slot has the metatable that light userdata
had before the call, which is none only if none was set before. -/
theorem pointer_push (R : LuaRuntime) (m : MetatableRegistry) (T : TypeId) (t : Nat) :
    (t = 0 →
      _push_m_pointer R m T t = Except.ok { R with L := R.L.push LuaVal.nil } ∧
      lua_getmetatable { R with L := R.L.push LuaVal.nil } (-1) = none) ∧
    (t ≠ 0 → ∀ name, m.Find T = some name →
      _push_m_pointer R m T t
        = Except.ok
            { L := R.L.push (LuaVal.lightuserdata t),
              lightuserdata_mt := some (c_str name) } ∧
      lua_getmetatable
          { L := R.L.push (LuaVal.lightuserdata t),
            lightuserdata_mt := some (c_str name) } (-1) = some (c_str name)) ∧
    (t ≠ 0 → m.Find T = none →
      _push_m_pointer R m T t
        = Except.ok { R with L := R.L.push (LuaVal.lightuserdata t) } ∧
      lua_getmetatable { R with L := R.L.push (LuaVal.lightuserdata t) } (-1)
        = R.lightuserdata_mt) := by
  refine ⟨?_, ?_, ?_⟩
  · intro h
    simp [_push_m_pointer, h, lua_pushnil, lua_getmetatable, slot_push_top]
  · intro h name hf
    simp [_push_m_pointer, h, hf, luaL_setmetatable, lua_pushlightuserdata, lua_State.push,
      lua_getmetatable]
    have := slot_push_top R.L (LuaVal.lightuserdata t)
    simp only [lua_State.push] at this
    simp [this]
  · intro h hf
    simp [_push_m_pointer, h, hf, lua_pushlightuserdata, lua_getmetatable, slot_push_top]

/-- C12 (amended), on a fresh state with a registry that knows the name "A" for the type
1: the null pointer pushes nil, a pointer of type 1 pushes a light userdata with the
metatable "A", a pointer of type 2 a light userdata with no metatable. -/
theorem pointer_push_witness :
    _push_m_pointer { L := { stack := [] }, lightuserdata_mt := none }
        registry_A 1 0
      = Except.ok { L := { stack := [LuaVal.nil] }, lightuserdata_mt := none } ∧
    _push_m_pointer { L := { stack := [] }, lightuserdata_mt := none }
        registry_A 1 100
      = Except.ok
          { L := { stack := [LuaVal.lightuserdata 100] },
            lightuserdata_mt := some "A" } ∧
    _push_m_pointer { L := { stack := [] }, lightuserdata_mt := none }
        registry_A 2 200
      = Except.ok { L := { stack := [LuaVal.lightuserdata 200] }, lightuserdata_mt := none } :=
  ⟨((pointer_push { L := { stack := [] }, lightuserdata_mt := none }
      registry_A 1 0).1 rfl).1,
   ((pointer_push { L := { stack := [] }, lightuserdata_mt := none }
      registry_A 1 100).2.1 (by decide) "A" rfl).1,
   ((pointer_push { L := { stack := [] }, lightuserdata_mt := none }
      registry_A 2 200).2.2 (by decide) rfl).1⟩

/-! ## C11: pushing a tuple -/

theorem push_Value_slots (l : lua_State) (v : Value) :
    ∃ l1, _push_Value l v = Except.ok l1 ∧
      l1.stack = l.stack ++ (if v.IsNil then [] else [written v]) := by
  refine ⟨_, push_Value_depth l v, ?_⟩
  cases v.IsNil <;> simp [lua_State.push]

theorem push_m_arg_slots (m : MetatableRegistry) (R : LuaRuntime) (a : PushArg) :
    ∃ R1, _push_m_arg R m a = Except.ok R1 ∧ R1.L.stack = R.L.stack ++ slots_m a := by
  cases a with
  | c_string x =>
    exact ⟨_, rfl, by simp [slots_m, lua_pushstring, lua_State.push]⟩
  | pointer T t =>
    simp only [_push_m_arg, _push_m_pointer, slots_m]
    by_cases ht : t = 0
    · simp only [ht, if_true]
      exact ⟨_, rfl, by simp [lua_pushnil, lua_State.push]⟩
    · simp only [ht, if_false]
      cases hf : m.Find T with
      | none =>
        exact ⟨_, rfl, by simp [lua_pushlightuserdata, lua_State.push]⟩
      | some name =>
        have hl : (R.L.stack ++ [LuaVal.lightuserdata t]).getLast?
            = some (LuaVal.lightuserdata t) := by simp
        simp only [luaL_setmetatable, lua_pushlightuserdata, lua_State.push, hl]
        exact ⟨_, rfl, by simp⟩
  | value x =>
    cases x with
    | Value v =>
      obtain ⟨l1, h1, h2⟩ := push_Value_slots R.L v
      exact ⟨{ R with L := l1 }, by simp [_push_m_arg, _push_m_value, h1], by
        simpa [slots_m] using h2⟩
    | _ =>
      exact ⟨_, rfl, by
        simp [slots_m, lua_pushboolean, lua_pushlstring, lua_pushinteger, lua_pushunsigned,
          lua_pushnumber, lua_State.push]⟩

theorem push_arg_slots (l : lua_State) (a : PushArg) :
    ∃ l1, _push_arg l a = Except.ok l1 ∧ l1.stack = l.stack ++ slots a := by
  cases a with
  | c_string x =>
    exact ⟨_, rfl, by simp [slots, slots_m, _push_c_string, lua_pushstring, lua_State.push]⟩
  | pointer T t =>
    by_cases ht : t = 0
    · exact ⟨_, rfl, by simp [slots, slots_m, _push_pointer, ht, lua_pushnil, lua_State.push]⟩
    · exact ⟨_, rfl, by
        simp [slots, slots_m, _push_pointer, ht, lua_pushlightuserdata, lua_State.push]⟩
  | value x =>
    cases x with
    | Value v =>
      obtain ⟨l1, h1, h2⟩ := push_Value_slots l v
      exact ⟨l1, by simp [_push_arg, _push, h1], by simpa [slots, slots_m] using h2⟩
    | _ =>
      exact ⟨_, rfl, by
        simp [slots, slots_m, _push_bool, _push_char, _push_int, _push_unsigned_int,
          _push_long, _push_long_unsigned_int, _push_lua_Number, _push_string,
          lua_pushboolean, lua_pushlstring, lua_pushinteger, lua_pushunsigned,
          lua_pushnumber, lua_State.push]⟩

theorem push_n_m_slots (m : MetatableRegistry) (values : List PushArg) :
    ∀ R : LuaRuntime, ∃ R1, _push_n_m m R values = Except.ok R1 ∧
      R1.L.stack = R.L.stack ++ (values.map slots_m).flatten := by
  induction values with
  | nil => intro R; exact ⟨R, rfl, by simp⟩
  | cons a rest ih =>
    intro R
    obtain ⟨R1, h1, h2⟩ := push_m_arg_slots m R a
    obtain ⟨R2, h3, h4⟩ := ih R1
    exact ⟨R2, by simp only [_push_n_m, h1, h3], by simp [h4, h2]⟩

theorem push_n_slots (values : List PushArg) :
    ∀ l : lua_State, ∃ l1, _push_n l values = Except.ok l1 ∧
      l1.stack = l.stack ++ (values.map slots).flatten := by
  induction values with
  | nil => intro l; exact ⟨l, rfl, by simp⟩
  | cons a rest ih =>
    intro l
    obtain ⟨l1, h1, h2⟩ := push_arg_slots l a
    obtain ⟨l2, h3, h4⟩ := ih l1
    exact ⟨l2, by simp only [_push_n, h1, h3], by simp [h4, h2]⟩

theorem push_m_tuple_eq (m : MetatableRegistry) (R : LuaRuntime) (values : List PushArg) :
    _push_m_tuple m R values = _push_n_m m R values := by
  cases values <;> rfl

theorem push_tuple_eq (l : lua_State) (values : List PushArg) :
    _push_tuple l values = _push_n l values := by
  cases values <;> rfl

/-- C11: with and without registry, pushing the zero-length tuple leaves the stack
unchanged, and pushing a tuple `(a1, ..., aN)` is the single-value push of `a1` followed by
the push of the tuple `(a2, ..., aN)`, that is, the single-value pushes of `a1`, ..., `aN`
one after another.  The push always returns, and the stack it leaves is the old stack with,
on top of it, the slots of `a1`, then those of `a2`, ..., then those of `aN`. -/
theorem tuple_push_order (m : MetatableRegistry) (R : LuaRuntime) (l : lua_State)
    (values : List PushArg) :
    _push_m_tuple m R [] = Except.ok R ∧
    _push_tuple l [] = Except.ok l ∧
    (∀ a rest, _push_m_tuple m R (a :: rest)
      = (match _push_m_arg R m a with
          | Except.error e => Except.error e
          | Except.ok R1 => _push_m_tuple m R1 rest)) ∧
    (∀ a rest, _push_tuple l (a :: rest)
      = (match _push_arg l a with
          | Except.error e => Except.error e
          | Except.ok l1 => _push_tuple l1 rest)) ∧
    (∃ R1, _push_m_tuple m R values = Except.ok R1 ∧
      R1.L.stack = R.L.stack ++ (values.map slots_m).flatten) ∧
    (∃ l1, _push_tuple l values = Except.ok l1 ∧
      l1.stack = l.stack ++ (values.map slots).flatten) := by
  refine ⟨rfl, rfl, ?_, ?_, ?_, ?_⟩
  · intro a rest
    rw [push_m_tuple_eq]
    simp only [_push_n_m]
    cases _push_m_arg R m a with
    | error e => rfl
    | ok R1 => simp only [push_m_tuple_eq]
  · intro a rest
    rw [push_tuple_eq]
    simp only [_push_n]
    cases _push_arg l a with
    | error e => rfl
    | ok l1 => simp only [push_tuple_eq]
  · rw [push_m_tuple_eq]
    exact push_n_m_slots m values R
  · rw [push_tuple_eq]
    exact push_n_slots values l

/-! ## The objects behind a `Value` -/

theorem boxed_map_find_insert {K : Type} [DecidableEq K] [LinearOrder K]
    (es : List (K × boxed.Value)) (k : K) (x : boxed.Value)
    (h : boxed.map_find es k = none) :
    boxed.map_find (boxed.map_insert es k x) k = some x := by
  induction es with
  | nil => simp [boxed.map_insert, boxed.map_find]
  | cons e rest ih =>
    obtain ⟨k1, v1⟩ := e
    simp only [boxed.map_find] at h
    by_cases hk : k1 = k
    · simp [hk] at h
    · simp only [hk, if_false] at h
      simp only [boxed.map_insert]
      by_cases hlt : k < k1
      · simp [hlt, boxed.map_find]
      · simp [hlt, boxed.map_find, hk, ih h]

theorem boxed_map_find_put {K : Type} [DecidableEq K]
    (es : List (K × boxed.Value)) (k : K) (x y : boxed.Value)
    (h : boxed.map_find es k = some y) :
    boxed.map_find (boxed.map_put es k x) k = some x := by
  induction es with
  | nil => simp [boxed.map_find] at h
  | cons e rest ih =>
    obtain ⟨k1, v1⟩ := e
    simp only [boxed.map_find] at h
    by_cases hk : k1 = k
    · simp [boxed.map_put, boxed.map_find, hk]
    · simp only [hk, if_false] at h
      simp [boxed.map_put, boxed.map_find, hk, ih h]

theorem boxed_type_table (m : boxed.Memory) (v : boxed.Value)
    (h : v.type m = Except.ok ValueType.Table) :
    ∃ t, m.objects[v._value]? = some (boxed.LuaValue.TableValue t) := by
  unfold boxed.Value.type at h
  cases hb : m.objects[v._value]? with
  | none => simp [hb] at h
  | some b =>
    cases b <;> simp [hb, boxed.LuaValue.type] at h
    exact ⟨_, rfl⟩

theorem boxed_set_get (os : List boxed.LuaValue) (p : Nat) (b c : boxed.LuaValue)
    (h : os[p]? = some b) : (os.set p c)[p]? = some c := by
  have hp : p < os.length := by
    by_contra hn
    simp [List.getElem?_eq_none (not_lt.mp hn)] at h
  simp [List.getElem?_set, hp]

theorem boxed_append_get (os : List boxed.LuaValue) (p : Nat) (b c : boxed.LuaValue)
    (h : os[p]? = some b) : (os ++ [c])[p]? = some b := by
  have hp : p < os.length := by
    by_contra hn
    simp [List.getElem?_eq_none (not_lt.mp hn)] at h
  rw [List.getElem?_append_left hp]
  exact h

theorem boxed_index_int_slot (m : boxed.Memory) (p : boxed.Ptr) (t : boxed.Table) (i : Nat)
    (ht : m.objects[p]? = some (boxed.LuaValue.TableValue t)) :
    ∃ m1 t1 y,
      boxed.LuaValue.index_int m p i
        = Except.ok (boxed.ValueRef.int_slot p (wrapSigned 32 (Int.ofNat (i % 2 ^ 64))), m1) ∧
      m1.objects[p]? = some (boxed.LuaValue.TableValue t1) ∧
      boxed.map_find t1._int_idx (wrapSigned 32 (Int.ofNat (i % 2 ^ 64))) = some y := by
  cases hf : boxed.map_find t._int_idx (wrapSigned 32 (Int.ofNat (i % 2 ^ 64))) with
  | some y =>
    exact ⟨m, t, y, by simp only [boxed.LuaValue.index_int, ht, hf], ht, hf⟩
  | none =>
    simp only [boxed.LuaValue.index_int, ht, hf]
    exact ⟨_, _, _, rfl,
      boxed_set_get _ p (boxed.LuaValue.TableValue t) _ (boxed_append_get m.objects p _ _ ht),
      boxed_map_find_insert t._int_idx _ _ hf⟩

theorem boxed_index_str_slot (m : boxed.Memory) (p : boxed.Ptr) (t : boxed.Table) (s : String)
    (ht : m.objects[p]? = some (boxed.LuaValue.TableValue t)) :
    ∃ m1 t1 y,
      boxed.LuaValue.index_str m p s = Except.ok (boxed.ValueRef.str_slot p s, m1) ∧
      m1.objects[p]? = some (boxed.LuaValue.TableValue t1) ∧
      boxed.map_find t1._str_idx s = some y := by
  cases hf : boxed.map_find t._str_idx s with
  | some y =>
    exact ⟨m, t, y, by simp only [boxed.LuaValue.index_str, ht, hf], ht, hf⟩
  | none =>
    simp only [boxed.LuaValue.index_str, ht, hf]
    exact ⟨_, _, _, rfl,
      boxed_set_get _ p (boxed.LuaValue.TableValue t) _ (boxed_append_get m.objects p _ _ ht),
      boxed_map_find_insert t._str_idx _ _ hf⟩

theorem boxed_assign_int_slot (m : boxed.Memory) (p : boxed.Ptr) (t : boxed.Table) (key : Int)
    (x y : boxed.Value)
    (ht : m.objects[p]? = some (boxed.LuaValue.TableValue t))
    (hf : boxed.map_find t._int_idx key = some y) :
    ∃ m2 t2,
      (boxed.ValueRef.int_slot p key).assign m x = Except.ok m2 ∧
      m2.objects[p]? = some (boxed.LuaValue.TableValue t2) ∧
      boxed.map_find t2._int_idx key = some x := by
  simp only [boxed.ValueRef.assign, ht, hf]
  exact ⟨_, _, rfl, boxed_set_get _ p _ _ ht, boxed_map_find_put t._int_idx key _ y hf⟩

theorem boxed_assign_str_slot (m : boxed.Memory) (p : boxed.Ptr) (t : boxed.Table)
    (key : String) (x y : boxed.Value)
    (ht : m.objects[p]? = some (boxed.LuaValue.TableValue t))
    (hf : boxed.map_find t._str_idx key = some y) :
    ∃ m2 t2,
      (boxed.ValueRef.str_slot p key).assign m x = Except.ok m2 ∧
      m2.objects[p]? = some (boxed.LuaValue.TableValue t2) ∧
      boxed.map_find t2._str_idx key = some x := by
  simp only [boxed.ValueRef.assign, ht, hf]
  exact ⟨_, _, rfl, boxed_set_get _ p _ _ ht, boxed_map_find_put t._str_idx key _ y hf⟩

/-! ## C13: indexing a value that is not a table -/

theorem boxed_index_nontable (m : boxed.Memory) (v : boxed.Value) (t : ValueType)
    (k : boxed.Key) (h : v.type m = Except.ok t) (n : t ≠ ValueType.Table) :
    v.index m k = Except.ok (boxed.ValueRef.statics_nil, (boxed.statics m).2) := by
  unfold boxed.Value.type at h
  cases hb : m.objects[v._value]? with
  | none => simp [hb] at h
  | some b =>
    simp only [hb, Except.ok.injEq] at h
    subst h
    cases k <;> cases b <;>
      first
        | exact absurd rfl n
        | simp only [boxed.Value.index, boxed.Value.index_int, boxed.Value.index_str,
            boxed.LuaValue.index_int, boxed.LuaValue.index_str, hb]

theorem boxed_statics_objects (m : boxed.Memory) (p : boxed.Ptr) (b : boxed.LuaValue)
    (h : m.objects[p]? = some b) : (boxed.statics m).2.objects[p]? = some b := by
  unfold boxed.statics
  cases hs : m.s with
  | some s => exact h
  | none => exact boxed_append_get m.objects p b _ h

theorem boxed_statics_type (m : boxed.Memory) (v : boxed.Value) (t : ValueType)
    (h : v.type m = Except.ok t) : v.type (boxed.statics m).2 = Except.ok t := by
  unfold boxed.Value.type at h ⊢
  cases hb : m.objects[v._value]? with
  | none => simp [hb] at h
  | some b =>
    rw [boxed_statics_objects m _ b hb]
    simpa [hb] using h

theorem boxed_statics_again (m : boxed.Memory) :
    (boxed.statics (boxed.statics m).2).2 = (boxed.statics m).2 := by
  unfold boxed.statics
  cases hs : m.s with
  | some s => simp [hs]
  | none => rfl

/-- C13: for every memory `m`, all `Value`s `v1` and `v2` whose tags are not Table and all
keys `k1` and `k2` (each a `size_t` or a string): `v1[k1]` returns a reference to the member
`nil` of the static `Statics`; evaluated after it, `v2[k2]`, and `v1[k1]` once more, return
the same reference and leave the memory as it is, so no further object is made.  The first
call of `statics()` makes the one object of the sentinel, whose tag is Nil; if `statics()`
was called before, `v1[k1]` leaves the memory unchanged.  The objects that `v1` and `v2`
hold are unchanged and so are their tags. -/
theorem sentinel_identity (m : boxed.Memory) (v1 v2 : boxed.Value) (t1 t2 : ValueType)
    (k1 k2 : boxed.Key)
    (h1 : v1.type m = Except.ok t1) (n1 : t1 ≠ ValueType.Table)
    (h2 : v2.type m = Except.ok t2) (n2 : t2 ≠ ValueType.Table) :
    ∃ m1 s,
      v1.index m k1 = Except.ok (boxed.ValueRef.statics_nil, m1) ∧
      v2.index m1 k2 = Except.ok (boxed.ValueRef.statics_nil, m1) ∧
      v1.index m1 k1 = Except.ok (boxed.ValueRef.statics_nil, m1) ∧
      m1.s = some s ∧
      boxed.ValueRef.statics_nil.load m1 = Except.ok s.nil ∧
      (m.s = none →
        m1.objects = m.objects ++ [boxed.LuaValue.NilValue] ∧
        s.nil.type m1 = Except.ok ValueType.Nil) ∧
      (m.s ≠ none → m1 = m) ∧
      m1.objects[v1._value]? = m.objects[v1._value]? ∧
      m1.objects[v2._value]? = m.objects[v2._value]? ∧
      v1.type m1 = Except.ok t1 ∧ v2.type m1 = Except.ok t2 := by
  have g1 := boxed_statics_type m v1 t1 h1
  have g2 := boxed_statics_type m v2 t2 h2
  have e1 := boxed_index_nontable (boxed.statics m).2 v1 t1 k1 g1 n1
  have e2 := boxed_index_nontable (boxed.statics m).2 v2 t2 k2 g2 n2
  rw [boxed_statics_again] at e1 e2
  have o1 : (boxed.statics m).2.objects[v1._value]? = m.objects[v1._value]? := by
    cases hb : m.objects[v1._value]? with
    | none => simp [boxed.Value.type, hb] at h1
    | some b => exact boxed_statics_objects m _ b hb
  have o2 : (boxed.statics m).2.objects[v2._value]? = m.objects[v2._value]? := by
    cases hb : m.objects[v2._value]? with
    | none => simp [boxed.Value.type, hb] at h2
    | some b => exact boxed_statics_objects m _ b hb
  refine ⟨(boxed.statics m).2, (boxed.statics m).1,
    boxed_index_nontable m v1 t1 k1 h1 n1, e2, e1, ?_, ?_, ?_, ?_, o1, o2, g1, g2⟩
  · unfold boxed.statics
    cases hs : m.s with
    | some s => exact hs
    | none => rfl
  · unfold boxed.statics
    cases hs : m.s with
    | some s => simp [boxed.ValueRef.load, hs]
    | none => rfl
  · intro hs
    simp [boxed.statics, hs, boxed.Value.default, boxed.make_shared, boxed.Value.type,
      boxed.LuaValue.type]
  · intro hs
    cases hm : m.s with
    | none => exact absurd hm hs
    | some s => simp [boxed.statics, hm]

theorem sentinel_identity_witness :
    (boxed.Value.mk 1).type boxed.memory_T = Except.ok ValueType.Integer ∧
    ValueType.Integer ≠ ValueType.Table ∧
    (boxed.Value.mk 2).type boxed.memory_T = Except.ok ValueType.String ∧
    ValueType.String ≠ ValueType.Table ∧
    ∃ m1 s,
      (boxed.Value.mk 1).index boxed.memory_T (boxed.Key.index 3)
        = Except.ok (boxed.ValueRef.statics_nil, m1) ∧
      (boxed.Value.mk 2).index m1 (boxed.Key.name "a")
        = Except.ok (boxed.ValueRef.statics_nil, m1) ∧
      (boxed.Value.mk 1).index m1 (boxed.Key.index 3)
        = Except.ok (boxed.ValueRef.statics_nil, m1) ∧
      m1.s = some s ∧
      boxed.ValueRef.statics_nil.load m1 = Except.ok s.nil ∧
      (boxed.memory_T.s = none →
        m1.objects = boxed.memory_T.objects ++ [boxed.LuaValue.NilValue] ∧
        s.nil.type m1 = Except.ok ValueType.Nil) ∧
      (boxed.memory_T.s ≠ none → m1 = boxed.memory_T) ∧
      m1.objects[(boxed.Value.mk 1)._value]? = boxed.memory_T.objects[(boxed.Value.mk 1)._value]? ∧
      m1.objects[(boxed.Value.mk 2)._value]? = boxed.memory_T.objects[(boxed.Value.mk 2)._value]? ∧
      (boxed.Value.mk 1).type m1 = Except.ok ValueType.Integer ∧
      (boxed.Value.mk 2).type m1 = Except.ok ValueType.String :=
  ⟨rfl, by decide, rfl, by decide,
    sentinel_identity boxed.memory_T ⟨1⟩ ⟨2⟩ ValueType.Integer ValueType.String
      (boxed.Key.index 3) (boxed.Key.name "a") rfl (by decide) rfl (by decide)⟩

/-! ## C14: a copy of a table value -/

/-- C14: for every memory `m`, every `Value` `v` whose tag is Table, every key `k` (a
`size_t` or a string) and every `Value` `x`: the copy constructor returns a `Value` `w` that
holds the address of the very object `v` holds and leaves the memory as it was (no object
is made, so the table is not duplicated); and the statements `w[k] = x` followed by the
read of `v[k]` return, the read yields `x`, and the tags of `v` and of `w` are still
Table. -/
theorem copy_aliases_box (m : boxed.Memory) (v x : boxed.Value) (k : boxed.Key)
    (hv : v.type m = Except.ok ValueType.Table) :
    (boxed.Value.copy m v).2 = m ∧
    (boxed.Value.copy m v).1._value = v._value ∧
    ∃ m3, boxed.assign_then_read m (boxed.Value.copy m v).1 v k x = Except.ok (x, m3) ∧
      v.type m3 = Except.ok ValueType.Table ∧
      (boxed.Value.copy m v).1.type m3 = Except.ok ValueType.Table := by
  obtain ⟨t, ht⟩ := boxed_type_table m v hv
  refine ⟨rfl, rfl, ?_⟩
  cases k with
  | index i =>
    obtain ⟨m1, t1, y, h1, ht1, hf1⟩ := boxed_index_int_slot m v._value t i ht
    obtain ⟨m2, t2, h2, ht2, hf2⟩ := boxed_assign_int_slot m1 v._value t1 _ x y ht1 hf1
    refine ⟨m2, ?_, ?_, ?_⟩
    · simp only [boxed.assign_then_read, boxed.Value.index, boxed.Value.index_int,
        boxed.Value.copy, h1, h2]
      simp only [boxed.LuaValue.index_int, ht2, hf2, boxed.ValueRef.load]
    · simp only [boxed.Value.type, ht2, boxed.LuaValue.type]
    · simp only [boxed.Value.type, boxed.Value.copy, ht2, boxed.LuaValue.type]
  | name s =>
    obtain ⟨m1, t1, y, h1, ht1, hf1⟩ := boxed_index_str_slot m v._value t s ht
    obtain ⟨m2, t2, h2, ht2, hf2⟩ := boxed_assign_str_slot m1 v._value t1 _ x y ht1 hf1
    refine ⟨m2, ?_, ?_, ?_⟩
    · simp only [boxed.assign_then_read, boxed.Value.index, boxed.Value.index_str,
        boxed.Value.copy, h1, h2]
      simp only [boxed.LuaValue.index_str, ht2, hf2, boxed.ValueRef.load]
    · simp only [boxed.Value.type, ht2, boxed.LuaValue.type]
    · simp only [boxed.Value.type, boxed.Value.copy, ht2, boxed.LuaValue.type]

theorem copy_aliases_box_witness :
    (boxed.Value.mk 0).type boxed.memory_T = Except.ok ValueType.Table ∧
    (boxed.Value.copy boxed.memory_T ⟨0⟩).2 = boxed.memory_T ∧
    (boxed.Value.copy boxed.memory_T ⟨0⟩).1._value = (boxed.Value.mk 0)._value ∧
    ∃ m3,
      boxed.assign_then_read boxed.memory_T (boxed.Value.copy boxed.memory_T ⟨0⟩).1 ⟨0⟩
        (boxed.Key.index 3) ⟨1⟩ = Except.ok (⟨1⟩, m3) ∧
      (boxed.Value.mk 0).type m3 = Except.ok ValueType.Table ∧
      (boxed.Value.copy boxed.memory_T ⟨0⟩).1.type m3 = Except.ok ValueType.Table :=
  ⟨rfl, copy_aliases_box boxed.memory_T ⟨0⟩ ⟨1⟩ (boxed.Key.index 3) rfl⟩

/-! ## C21: the tags of the values the dynamic get returns -/

theorem tagsOfGetInt_assign (m : List (Int × Value)) (k : Int) (v : Value)
    (hm : tagsOfGetInt m = true) (hv : v.tagsOfGet = true) :
    tagsOfGetInt (map_assign m k v) = true := by
  induction m with
  | nil => simp [map_assign, tagsOfGetInt, hv]
  | cons e r ih =>
    obtain ⟨k1, v1⟩ := e
    simp only [tagsOfGetInt, Bool.and_eq_true] at hm
    simp only [map_assign]
    split_ifs
    · simp [tagsOfGetInt, hv, hm.1, hm.2]
    · simp [tagsOfGetInt, hm.1, ih hm.2]
    · simp [tagsOfGetInt, hv, hm.2]

theorem tagsOfGetStr_assign (m : List (String × Value)) (k : String) (v : Value)
    (hm : tagsOfGetStr m = true) (hv : v.tagsOfGet = true) :
    tagsOfGetStr (map_assign m k v) = true := by
  induction m with
  | nil => simp [map_assign, tagsOfGetStr, hv]
  | cons e r ih =>
    obtain ⟨k1, v1⟩ := e
    simp only [tagsOfGetStr, Bool.and_eq_true] at hm
    simp only [map_assign]
    split_ifs
    · simp [tagsOfGetStr, hv, hm.1, hm.2]
    · simp [tagsOfGetStr, hm.1, ih hm.2]
    · simp [tagsOfGetStr, hv, hm.2]

theorem tagsOfGet_type (v : Value) (h : v.tagsOfGet = true) :
    v.type = ValueType.Nil ∨ v.type = ValueType.Boolean ∨ v.type = ValueType.Double ∨
      v.type = ValueType.String ∨ v.type = ValueType.Table := by
  cases v <;> simp [Value.tagsOfGet] at h <;> simp [Value.type]

theorem get_Value_tags_aux (fuel : Nat) :
    (∀ (l : lua_State) (index : Int) (v : Value) (l1 : lua_State),
      _get_Value fuel l index = Except.ok (v, l1) → v.tagsOfGet = true) ∧
    (∀ (l : lua_State) (t t1 : Table) (l1 : lua_State),
      tagsOfGetInt t.int_idx = true → tagsOfGetStr t.str_idx = true →
      _get_Value_loop fuel l t = Except.ok (t1, l1) →
      tagsOfGetInt t1.int_idx = true ∧ tagsOfGetStr t1.str_idx = true) := by
  induction fuel with
  | zero =>
    constructor
    · intro l index v l1 h
      simp [_get_Value] at h
    · intro l t t1 l1 _ _ h
      simp [_get_Value_loop] at h
  | succ n ih =>
    constructor
    · intro l index v l1 h
      simp only [_get_Value] at h
      split_ifs at h with h1 h2 h3 h4 h5
      · simp only [Except.ok.injEq, Prod.mk.injEq] at h
        rw [← h.1]; rfl
      · simp only [Except.ok.injEq, Prod.mk.injEq] at h
        rw [← h.1]; rfl
      · simp only [Except.ok.injEq, Prod.mk.injEq] at h
        rw [← h.1]; rfl
      · simp only [Except.ok.injEq, Prod.mk.injEq] at h
        rw [← h.1]; rfl
      · split at h
        · simp at h
        · split at h
          · simp at h
          · rename_i t1 l2 hloop
            simp only [Except.ok.injEq, Prod.mk.injEq] at h
            have ht := ih.2 _ Table.empty _ _ (by simp [Table.empty, tagsOfGetInt])
              (by simp [Table.empty, tagsOfGetStr]) hloop
            rw [← h.1]
            simp [Value.ofTable, Value.tagsOfGet, ht.1, ht.2]
      · simp only [Except.ok.injEq, Prod.mk.injEq] at h
        rw [← h.1]; rfl
    · intro l t t1 l1 hi hs h
      simp only [_get_Value_loop] at h
      split at h
      · simp at h
      · simp only [Except.ok.injEq, Prod.mk.injEq] at h
        rw [← h.1]
        exact ⟨hi, hs⟩
      · rename_i l2 hnext
        split at h
        · simp at h
        · rename_i t2 l3 hbody
          have ht2 : tagsOfGetInt t2.int_idx = true ∧ tagsOfGetStr t2.str_idx = true := by
            split_ifs at hbody with c1 c2
            · split at hbody
              · simp at hbody
              · rename_i w l4 hg
                simp only [Except.ok.injEq, Prod.mk.injEq] at hbody
                rw [← hbody.1]
                exact ⟨tagsOfGetInt_assign _ _ _ hi (ih.1 _ _ _ _ hg), hs⟩
            · split at hbody
              · simp at hbody
              · rename_i w l4 hg
                simp only [Except.ok.injEq, Prod.mk.injEq] at hbody
                rw [← hbody.1]
                exact ⟨hi, tagsOfGetStr_assign _ _ _ hs (ih.1 _ _ _ _ hg)⟩
            · simp only [Except.ok.injEq, Prod.mk.injEq] at hbody
              rw [← hbody.1]
              exact ⟨hi, hs⟩
          split at h
          · simp at h
          · exact ih.2 _ _ _ _ ht2.1 ht2.2 h

theorem get_Value_tags (fuel : Nat) (l : lua_State) (index : Int) (v : Value)
    (l1 : lua_State) (h : _get_Value fuel l index = Except.ok (v, l1)) :
    v.tagsOfGet = true :=
  (get_Value_tags_aux fuel).1 l index v l1 h

/-- C21: whenever `_get(_id<Value>, l, index)` returns a value, on any stack and at any
index, the tag of the value is one of Nil, Boolean, Double, String and Table, and never
Char, Integer or Long, and so is the tag of every value nested in it.  The call does
return: at every index whose slot is not a table, and for a table on top of the stack (with
enough fuel), it returns the materialisation of the slot and leaves the stack as it was.
Consequently, for every `int` `n` and every stack, `_push(l, Value(n))` pushes the number
`n`, and the dynamic get at the top returns a Double-tagged value whose `double_value()` is
`n`, while `Value(n)` has the tag Integer. -/
theorem dynamic_get_tags :
    (∀ (fuel : Nat) (l : lua_State) (index : Int) (v : Value) (l1 : lua_State),
      _get_Value fuel l index = Except.ok (v, l1) →
      (v.type = ValueType.Nil ∨ v.type = ValueType.Boolean ∨ v.type = ValueType.Double ∨
        v.type = ValueType.String ∨ v.type = ValueType.Table) ∧
      v.type ≠ ValueType.Char ∧ v.type ≠ ValueType.Integer ∧ v.type ≠ ValueType.Long ∧
      v.tagsOfGet = true) ∧
    (∀ (fuel : Nat) (l : lua_State) (index : Int) (x : LuaVal),
      l.slot index = some x → x.ttype ≠ LuaType.TTABLE →
      _get_Value (fuel + 1) l index = Except.ok (materialize x, l)) ∧
    (∀ (x : LuaVal) (s : List LuaVal) (fuel : Nat), x.wf = true → x.size ≤ fuel →
      _get_Value fuel (lua_State.mk (s ++ [x])) (-1)
        = Except.ok (materialize x, lua_State.mk (s ++ [x]))) ∧
    (∀ (n : Int) (s : List LuaVal) (fuel : Nat), inSigned 32 n →
      _push_Value (lua_State.mk s) (Value.of_int n)
        = Except.ok (lua_State.mk (s ++ [LuaVal.number (n : ℚ)])) ∧
      _get_Value (fuel + 1) (lua_State.mk (s ++ [LuaVal.number (n : ℚ)])) (-1)
        = Except.ok (Value.DoubleValue (n : ℚ), lua_State.mk (s ++ [LuaVal.number (n : ℚ)])) ∧
      (Value.DoubleValue (n : ℚ)).type = ValueType.Double ∧
      (Value.DoubleValue (n : ℚ)).double_value = (n : ℚ) ∧
      (Value.of_int n).type = ValueType.Integer) := by
  refine ⟨?_, ?_, ?_, ?_⟩
  · intro fuel l index v l1 h
    have ht := get_Value_tags fuel l index v l1 h
    have hty := tagsOfGet_type v ht
    refine ⟨hty, ?_, ?_, ?_, ht⟩ <;>
      · intro hc
        rw [hc] at hty
        simp at hty
  · intro fuel l index x hx ht
    exact get_Value_nontable fuel l index x hx ht
  · intro x s fuel hw hs
    exact get_Value_top x s fuel hw hs
  · intro n s fuel hn
    refine ⟨?_, ?_, rfl, rfl, rfl⟩
    · have h := push_Value_written (Value.of_int n) s rfl
      simpa [Value.of_int, written, cast_num_int n hn] using h
    · exact get_Value_nontable fuel _ (-1) (LuaVal.number (n : ℚ)) (slot_last s _)
        (by simp [LuaVal.ttype])

/-- C21 on concrete slots: the boolean `true` at index 1 below another slot comes back as a
Boolean, the table `{1: "a"}` on top as a Table, and `Value(7)` pushed on the empty stack
comes back as the Double 7. -/
theorem dynamic_get_tags_witness :
    ((Value.BoolValue true).type = ValueType.Nil ∨
      (Value.BoolValue true).type = ValueType.Boolean ∨
      (Value.BoolValue true).type = ValueType.Double ∨
      (Value.BoolValue true).type = ValueType.String ∨
      (Value.BoolValue true).type = ValueType.Table) ∧
    _get_Value 1 { stack := [LuaVal.boolean true, LuaVal.nil] } 1
      = Except.ok (materialize (LuaVal.boolean true),
          { stack := [LuaVal.boolean true, LuaVal.nil] }) ∧
    _get_Value 4 (lua_State.mk ([] ++ [LuaVal.table [(LuaKey.number 1, LuaVal.string "a")]]))
        (-1)
      = Except.ok (materialize (LuaVal.table [(LuaKey.number 1, LuaVal.string "a")]),
          lua_State.mk ([] ++ [LuaVal.table [(LuaKey.number 1, LuaVal.string "a")]])) ∧
    inSigned 32 7 ∧
    _push_Value (lua_State.mk []) (Value.of_int 7)
      = Except.ok (lua_State.mk ([] ++ [LuaVal.number ((7 : Int) : ℚ)])) ∧
    _get_Value 1 (lua_State.mk ([] ++ [LuaVal.number ((7 : Int) : ℚ)])) (-1)
      = Except.ok (Value.DoubleValue ((7 : Int) : ℚ),
          lua_State.mk ([] ++ [LuaVal.number ((7 : Int) : ℚ)])) :=
  ⟨(dynamic_get_tags.1 1 { stack := [LuaVal.boolean true, LuaVal.nil] } 1
      (Value.BoolValue true) { stack := [LuaVal.boolean true, LuaVal.nil] } (by decide)).1,
   dynamic_get_tags.2.1 0 { stack := [LuaVal.boolean true, LuaVal.nil] } 1
      (LuaVal.boolean true) (by decide) (by decide),
   dynamic_get_tags.2.2.1 (LuaVal.table [(LuaKey.number 1, LuaVal.string "a")]) [] 4
      (by decide) (by decide),
   by decide,
   (dynamic_get_tags.2.2.2 7 [] 0 (by decide)).1,
   (dynamic_get_tags.2.2.2 7 [] 0 (by decide)).2.1⟩

end sel
